import Mathlib

/-!
# TransGeo: coordinate conversions between geodetic, ECEF and ENU frames

A shallow embedding of the C++ library `trans_geo` and theorems about it.

Modelling conventions.

* `double` is modelled by the real numbers `ℝ`: the elementary functions of
  `<cmath>` become `Real.sin`, `Real.cos`, `Real.sqrt`, `|·|`, and `M_PI`
  becomes `Real.pi`.  `std::atan2 y x` is the argument of the complex number
  `x + y·i`.  Rounding, infinities and NaN are outside the model.
* A thrown `std::invalid_argument` is a value of `Exception` in the `Except`
  monad; reading a `std::vector` outside its bounds is the separate
  exception `out_of_range`, so that it can be told apart from a guard.
* `ICoordinate` is the sum of the three coordinate classes of the library and
  of a fourth case standing for an implementation of the abstract interface
  from outside the library, of which only the value list is observed.
  `dynamic_cast` is a projection out of that sum into `Option`.  Objects are
  values, so a `clone` rebuilds the value through the constructors the source
  calls.
* `Eigen::Matrix3d` and `Eigen::Vector3d` are `Matrix (Fin 3) (Fin 3) ℝ` and
  `Fin 3 → ℝ`; the product is `Matrix.mulVec`.
-/

-- The injectivity and `SizeOf` lemmas that come with each data type are not used.
set_option genInjectivity false
set_option genSizeOfSpec false
set_option genSizeOf false

namespace TransGeo

/-! ## include/utils/utils.hpp -/

/-- Function `degToRad`: `deg * M_PI / 180.0`. -/
noncomputable def degToRad (deg : ℝ) : ℝ := deg * Real.pi / 180

/-- Function `radToDeg`: `rad * 180.0 / M_PI`. -/
noncomputable def radToDeg (rad : ℝ) : ℝ := rad * 180 / Real.pi

/-- Function `calcN`: `a / std::sqrt(1.0 - e2 * std::sin(lat) * std::sin(lat))`. -/
noncomputable def calcN (a e2 lat : ℝ) : ℝ :=
  a / Real.sqrt (1 - e2 * Real.sin lat * Real.sin lat)

/-- Function `std::atan2(y, x)`: the angle of the point `(x, y)`, in `(-π, π]`, and `0` at the
origin. -/
noncomputable def atan2 (y x : ℝ) : ℝ := Complex.arg ⟨x, y⟩

/-! ## include/ellipsoid/ellipsoid.hpp -/

/-- Record `struct Ellipsoid`: semi-major axis, flattening, squared eccentricity. -/
structure Ellipsoid where
  a : ℝ
  f : ℝ
  e2 : ℝ

/-- Method `Ellipsoid::eccentricitySquared`, as a function of the flattening. -/
def Ellipsoid.eccentricitySquared (f : ℝ) : ℝ := 2 * f - f * f

/-- The constructor `Ellipsoid(a_, f_)`. -/
def Ellipsoid.make (a_ f_ : ℝ) : Ellipsoid :=
  { a := a_, f := f_, e2 := Ellipsoid.eccentricitySquared f_ }

/-- Preset `WGS84`. -/
noncomputable def WGS84 : Ellipsoid := Ellipsoid.make 6378137.0 (1.0 / 298.257223563)

/-- Preset `GRS80`. -/
noncomputable def GRS80 : Ellipsoid := Ellipsoid.make 6378137.0 (1.0 / 298.257222101)

/-! ## Exceptions -/

/-- What a call can throw. -/
inductive Exception where
  /-- Thrown `std::invalid_argument` with its message. -/
  | invalid_argument (what : String)
  /-- A `std::vector` was read outside its bounds. -/
  | out_of_range
  deriving DecidableEq

/-- Indexing `v[i]` on a `std::vector<double>`. -/
def vecAt (v : List ℝ) (i : Nat) : Except Exception ℝ :=
  match v[i]? with
  | some x => .ok x
  | none => .error Exception.out_of_range

/-! ## Coordinates -/

/-- Class `GeoCoordinate`: latitude and longitude in degrees, optional altitude in metres. -/
structure GeoCoordinate where
  latitude_ : ℝ
  longitude_ : ℝ
  altitude_ : Option ℝ

/-- Class `ECEFCoordinate`: x, y, z in metres. -/
structure ECEFCoordinate where
  x_ : ℝ
  y_ : ℝ
  z_ : ℝ

/-- Any object behind a reference to `ICoordinate`: one of the three classes of the library
(for `ENUCoordinate` the fields are inlined, its origin being again an `ICoordinate`),
or an implementation from outside the library with the value list it reports. -/
inductive ICoordinate where
  | geo (c : GeoCoordinate)
  | ecef (c : ECEFCoordinate)
  | enu (east_ north_ up_ : ℝ) (origin_ : ICoordinate)
  | foreign (values : List ℝ)

/-- Class `ENUCoordinate`: east, north, up in metres and the owned origin. -/
structure ENUCoordinate where
  east_ : ℝ
  north_ : ℝ
  up_ : ℝ
  origin_ : ICoordinate

/-- Upcast of an `ENUCoordinate` to the interface. -/
def ENUCoordinate.toICoordinate (c : ENUCoordinate) : ICoordinate :=
  ICoordinate.enu c.east_ c.north_ c.up_ c.origin_

/-- Two-argument constructor `GeoCoordinate(latitude, longitude)`. -/
def GeoCoordinate.make2 (latitude longitude : ℝ) : GeoCoordinate :=
  { latitude_ := latitude, longitude_ := longitude, altitude_ := none }

/-- Three-argument constructor `GeoCoordinate(latitude, longitude, altitude)`. -/
def GeoCoordinate.make3 (latitude longitude altitude : ℝ) : GeoCoordinate :=
  { latitude_ := latitude, longitude_ := longitude, altitude_ := some altitude }

/-- Method `GeoCoordinate::getValues`. -/
def GeoCoordinate.getValues (c : GeoCoordinate) : List ℝ :=
  let values := [c.latitude_, c.longitude_]
  match c.altitude_ with
  | some h => values ++ [h]
  | none => values

/-- Method `ECEFCoordinate::getValues`. -/
def ECEFCoordinate.getValues (c : ECEFCoordinate) : List ℝ := [c.x_, c.y_, c.z_]

/-- Method `ENUCoordinate::getValues`. -/
def ENUCoordinate.getValues (c : ENUCoordinate) : List ℝ := [c.east_, c.north_, c.up_]

/-- Method `ENUCoordinate::getEast`. -/
def ENUCoordinate.getEast (c : ENUCoordinate) : ℝ := c.east_

/-- Method `ENUCoordinate::getNorth`. -/
def ENUCoordinate.getNorth (c : ENUCoordinate) : ℝ := c.north_

/-- Method `ENUCoordinate::getUp`. -/
def ENUCoordinate.getUp (c : ENUCoordinate) : ℝ := c.up_

/-- Virtual `ICoordinate::getValues`. -/
def ICoordinate.getValues : ICoordinate → List ℝ
  | .geo c => c.getValues
  | .ecef c => c.getValues
  | .enu e n u _ => [e, n, u]
  | .foreign values => values

/-- Method `GeoCoordinate::clone`. -/
def GeoCoordinate.clone (c : GeoCoordinate) : GeoCoordinate :=
  match c.altitude_ with
  | some h => GeoCoordinate.make3 c.latitude_ c.longitude_ h
  | none => GeoCoordinate.make2 c.latitude_ c.longitude_

/-- Method `ECEFCoordinate::clone`. -/
def ECEFCoordinate.clone (c : ECEFCoordinate) : ECEFCoordinate :=
  { x_ := c.x_, y_ := c.y_, z_ := c.z_ }

/-- Virtual `ICoordinate::clone`.  `ENUCoordinate::clone` goes through the constructor
`ENUCoordinate(east_, north_, up_, *origin_)`, which clones the origin and then checks
that it reports 2 or 3 values; an implementation from outside the library is taken to
copy its values. -/
def ICoordinate.clone : ICoordinate → Except Exception ICoordinate
  | .geo c => .ok (.geo c.clone)
  | .ecef c => .ok (.ecef c.clone)
  | .enu e n u o => do
    let origin_ ← ICoordinate.clone o
    let values := origin_.getValues
    if values.length ≠ 2 ∧ values.length ≠ 3 then
      .error (Exception.invalid_argument
        "ENUCoordinate::ENUCoordinate requires origin coordinate with 2 or 3 values.")
    else
      .ok (.enu e n u origin_)
  | .foreign values => .ok (.foreign values)

/-- Cast `dynamic_cast<const GeoCoordinate*>`. -/
def ICoordinate.asGeo : ICoordinate → Option GeoCoordinate
  | .geo c => some c
  | _ => none

/-- Cast `dynamic_cast<const ECEFCoordinate*>`. -/
def ICoordinate.asECEF : ICoordinate → Option ECEFCoordinate
  | .ecef c => some c
  | _ => none

/-- Cast `dynamic_cast<const ENUCoordinate*>`. -/
def ICoordinate.asENU : ICoordinate → Option ENUCoordinate
  | .enu e n u o => some { east_ := e, north_ := n, up_ := u, origin_ := o }
  | _ => none

/-- The constructor `ENUCoordinate(east, north, up, origin)`: clones the origin and
throws unless the clone reports 2 or 3 values. -/
def ENUCoordinate.make (east north up : ℝ) (origin : ICoordinate) :
    Except Exception ENUCoordinate := do
  let origin_ ← origin.clone
  let values := origin_.getValues
  if values.length ≠ 2 ∧ values.length ≠ 3 then
    .error (Exception.invalid_argument
      "ENUCoordinate::ENUCoordinate requires origin coordinate with 2 or 3 values.")
  else
    .ok { east_ := east, north_ := north, up_ := up, origin_ := origin_ }

/-- Method `ENUCoordinate::getOrigin`: a clone of the owned origin. -/
def ENUCoordinate.getOrigin (c : ENUCoordinate) : Except Exception ICoordinate :=
  c.origin_.clone

/-- Method `GeoCoordinate::getAltitude`. -/
def GeoCoordinate.getAltitude (c : GeoCoordinate) : Option ℝ := c.altitude_

/-- Method `GeoCoordinate::setValues`: what the call returns or throws, and the object
after the call. -/
def GeoCoordinate.setValues (self : GeoCoordinate) (values : List ℝ) :
    Except Exception Unit × GeoCoordinate :=
  if h2 : values.length = 2 then
    (.ok (), { latitude_ := values[0], longitude_ := values[1], altitude_ := none })
  else if h3 : values.length = 3 then
    (.ok (), { latitude_ := values[0], longitude_ := values[1], altitude_ := some values[2] })
  else
    (.error (Exception.invalid_argument
      "GeoCoordinate::setValues requires a vector of size 2 or 3."), self)

/-- Method `ECEFCoordinate::setValues`: what the call returns or throws, and the object
after the call. -/
def ECEFCoordinate.setValues (self : ECEFCoordinate) (values : List ℝ) :
    Except Exception Unit × ECEFCoordinate :=
  if h : values.length = 3 then
    (.ok (), { x_ := values[0], y_ := values[1], z_ := values[2] })
  else
    (.error (Exception.invalid_argument
      "ECEFCoordinate::setValues requires a vector of size 3."), self)

/-- Method `ENUCoordinate::setValues`: what the call returns or throws, and the object
after the call; the origin is not touched. -/
def ENUCoordinate.setValues (self : ENUCoordinate) (values : List ℝ) :
    Except Exception Unit × ENUCoordinate :=
  if h : values.length = 3 then
    (.ok (), { self with east_ := values[0], north_ := values[1], up_ := values[2] })
  else
    (.error (Exception.invalid_argument
      "ENUCoordinate::setValues requires a vector of size 3."), self)

/-- Method `GeoCoordinate::getLatitude`. -/
def GeoCoordinate.getLatitude (c : GeoCoordinate) : ℝ := c.latitude_

/-- Method `GeoCoordinate::getLongitude`. -/
def GeoCoordinate.getLongitude (c : GeoCoordinate) : ℝ := c.longitude_

/-- Method `GeoCoordinate::setLatitude`: the object after the call. -/
def GeoCoordinate.setLatitude (self : GeoCoordinate) (latitude : ℝ) : GeoCoordinate :=
  { self with latitude_ := latitude }

/-- Method `GeoCoordinate::setLongitude`: the object after the call. -/
def GeoCoordinate.setLongitude (self : GeoCoordinate) (longitude : ℝ) : GeoCoordinate :=
  { self with longitude_ := longitude }

/-- Method `GeoCoordinate::setAltitude`: the object after the call. -/
def GeoCoordinate.setAltitude (self : GeoCoordinate) (altitude : ℝ) : GeoCoordinate :=
  { self with altitude_ := some altitude }

/-- Method `ECEFCoordinate::setX`: the object after the call. -/
def ECEFCoordinate.setX (self : ECEFCoordinate) (x : ℝ) : ECEFCoordinate := { self with x_ := x }

/-- Method `ECEFCoordinate::setY`: the object after the call. -/
def ECEFCoordinate.setY (self : ECEFCoordinate) (y : ℝ) : ECEFCoordinate := { self with y_ := y }

/-- Method `ECEFCoordinate::setZ`: the object after the call. -/
def ECEFCoordinate.setZ (self : ECEFCoordinate) (z : ℝ) : ECEFCoordinate := { self with z_ := z }

/-- Method `ENUCoordinate::setOrigin`: what the call returns or throws, and the object after
the call.  The length is checked on the argument, before it is cloned; a clone that throws
leaves `origin_` as it was. -/
def ENUCoordinate.setOrigin (self : ENUCoordinate) (origin : ICoordinate) :
    Except Exception Unit × ENUCoordinate :=
  let values := origin.getValues
  if values.length ≠ 2 ∧ values.length ≠ 3 then
    (.error (Exception.invalid_argument
      "ENUCoordinate::setOrigin requires origin coordinate with 2 or 3 values."), self)
  else
    match origin.clone with
    | .ok origin_ => (.ok (), { self with origin_ := origin_ })
    | .error e => (.error e, self)

/-- The class invariant of `ENUCoordinate`, set up by its constructor and kept by `setOrigin`:
the origin reports 2 or 3 values, and so does every origin nested in it.  Every object that
the library can build satisfies it. -/
def ICoordinate.wellFormed : ICoordinate → Bool
  | .enu _ _ _ o => o.wellFormed && (o.getValues.length == 2 || o.getValues.length == 3)
  | _ => true

/-! ## Rendering -/

/-- Rounding to the nearest integer, ties to the even one: the default rounding of the
floating-point environment, which the formatted output of a `double` follows. -/
noncomputable def roundHalfEven (y : ℝ) : ℤ :=
  if Int.fract y < 1 / 2 then ⌊y⌋
  else if 1 / 2 < Int.fract y then ⌊y⌋ + 1
  else if ⌊y⌋ % 2 = 0 then ⌊y⌋ else ⌊y⌋ + 1

/-- Function `operator<<(std::ostream&, double)` on a stream set to
`std::fixed << std::setprecision(6)`: the sign if the number is negative, the integer part
in decimal, a point and exactly six decimals, the last one rounded. -/
noncomputable def fixed6 (x : ℝ) : String :=
  let n := (roundHalfEven (|x| * 1000000)).toNat
  (if x < 0 then "-" else "") ++ Nat.repr (n / 1000000) ++ "." ++
    (Nat.repr (1000000 + n % 1000000)).drop 1

/-- The loop `for (size_t i = 0; i < values.size(); ++i)` of `ICoordinate::toString` and
of `GeoCoordinate::toString`, from index `i` on, `oss` being what the stream holds. -/
noncomputable def toStringLoop (values : List ℝ) (i : Nat) (oss : String) : String :=
  if h : i < values.length then
    toStringLoop values (i + 1)
      (if i ≠ values.length - 1 then oss ++ fixed6 values[i] ++ ", " else oss ++ fixed6 values[i])
  else oss
termination_by values.length - i

/-- The default `ICoordinate::toString` of the interface, on the list that `getValues`
returns. -/
noncomputable def ICoordinate.toStringDefault (values : List ℝ) : String :=
  toStringLoop values 0 "[" ++ "]"

/-- Method `GeoCoordinate::toString`. -/
noncomputable def GeoCoordinate.toString (c : GeoCoordinate) : String :=
  toStringLoop c.getValues 0 "[" ++ "]"

/-- Method `ECEFCoordinate::toString`. -/
noncomputable def ECEFCoordinate.toString (c : ECEFCoordinate) : String :=
  "[" ++ fixed6 c.x_ ++ ", " ++ fixed6 c.y_ ++ ", " ++ fixed6 c.z_ ++ "]"

/-- Method `ENUCoordinate::toString`. -/
noncomputable def ENUCoordinate.toString (c : ENUCoordinate) : String :=
  "[" ++ fixed6 c.east_ ++ ", " ++ fixed6 c.north_ ++ ", " ++ fixed6 c.up_ ++ "]"

/-! ## src/converter/geo_to_ECEF_converter.cpp -/

/-- Class `GeoToECEFConverter`, holding the ellipsoid given at construction. -/
structure GeoToECEFConverter where
  ellipsoid_ : Ellipsoid

/-- Method `GeoToECEFConverter::convert`. -/
noncomputable def GeoToECEFConverter.convert (self : GeoToECEFConverter)
    (input : ICoordinate) : Except Exception ICoordinate :=
  match input.asGeo with
  | none => .error (Exception.invalid_argument
      "GeoToECEFConverter::convert expects input to be a GeoCoordinate.")
  | some geo => do
    let geoValues := geo.getValues
    let lat_deg ← vecAt geoValues 0
    let lon_deg ← vecAt geoValues 1
    let h ← if geoValues.length = 3 then vecAt geoValues 2 else pure 0
    let lat := degToRad lat_deg
    let lon := degToRad lon_deg
    let a := self.ellipsoid_.a
    let e2 := self.ellipsoid_.e2
    let sinLat := Real.sin lat
    let cosLat := Real.cos lat
    let N_val := calcN a e2 lat
    let x := (N_val + h) * cosLat * Real.cos lon
    let y := (N_val + h) * cosLat * Real.sin lon
    let z := ((1 - e2) * N_val + h) * sinLat
    pure (ICoordinate.ecef { x_ := x, y_ := y, z_ := z })

/-! ## src/converter/ECEF_to_ENU_converter.cpp -/

/-- Class `ECEFToENUConverter`, holding the ellipsoid and the origin given at construction. -/
structure ECEFToENUConverter where
  ellipsoid_ : Ellipsoid
  origin_ : GeoCoordinate

/-- Method `ECEFToENUConverter::convert`. -/
noncomputable def ECEFToENUConverter.convert (self : ECEFToENUConverter)
    (input : ICoordinate) : Except Exception ICoordinate :=
  match input.asECEF with
  | none => .error (Exception.invalid_argument
      "ECEFToENUConverter::convert expects input to be an ECEFCoordinate.")
  | some ecef =>
    let ecefValues := ecef.getValues
    if ecefValues.length ≠ 3 then
      .error (Exception.invalid_argument "ECEFCoordinate must have exactly 3 values.")
    else do
    let X ← vecAt ecefValues 0
    let Y ← vecAt ecefValues 1
    let Z ← vecAt ecefValues 2
    let geoValues := self.origin_.getValues
    if geoValues.length < 2 then
      .error (Exception.invalid_argument
        "Origin GeoCoordinate does not contain enough values.")
    else do
    let lat_deg ← vecAt geoValues 0
    let lon_deg ← vecAt geoValues 1
    let h_origin ← if geoValues.length = 3 then vecAt geoValues 2 else pure 0
    let lat := degToRad lat_deg
    let lon := degToRad lon_deg
    let a := self.ellipsoid_.a
    let e2 := self.ellipsoid_.e2
    let sinLat := Real.sin lat
    let cosLat := Real.cos lat
    let sinLon := Real.sin lon
    let cosLon := Real.cos lon
    let N := a / Real.sqrt (1 - e2 * sinLat * sinLat)
    let X0 := (N + h_origin) * cosLat * cosLon
    let Y0 := (N + h_origin) * cosLat * sinLon
    let Z0 := ((1 - e2) * N + h_origin) * sinLat
    let dX := X - X0
    let dY := Y - Y0
    let dZ := Z - Z0
    let R : Matrix (Fin 3) (Fin 3) ℝ :=
      !![-sinLon, cosLon, 0;
         -sinLat * cosLon, -sinLat * sinLon, cosLat;
         cosLat * cosLon, cosLat * sinLon, sinLat]
    let dVec : Fin 3 → ℝ := ![dX, dY, dZ]
    let enuVec := R.mulVec dVec
    let E := enuVec 0
    let N_val := enuVec 1
    let U := enuVec 2
    let result ← ENUCoordinate.make E N_val U (ICoordinate.geo self.origin_)
    pure result.toICoordinate

/-! ## src/converter/ENU_to_ECEF_converter.cpp -/

/-- Class `ENUToECEFConverter`, holding the ellipsoid and the origin given at construction. -/
structure ENUToECEFConverter where
  ellipsoid_ : Ellipsoid
  origin_ : GeoCoordinate

/-- Method `ENUToECEFConverter::convert`.  The matrix `R` is filled entry by entry as in the
source, then transposed, then applied to the input vector. -/
noncomputable def ENUToECEFConverter.convert (self : ENUToECEFConverter)
    (input : ICoordinate) : Except Exception ICoordinate :=
  match input.asENU with
  | none => .error (Exception.invalid_argument
      "ENUToECEFConverter::convert expects input to be an ENUCoordinate.")
  | some enu =>
    let E := enu.getEast
    let N := enu.getNorth
    let U := enu.getUp
    let geoValues := self.origin_.getValues
    if geoValues.length < 2 then
      .error (Exception.invalid_argument
        "Origin GeoCoordinate does not contain enough values.")
    else do
    let lat_deg ← vecAt geoValues 0
    let lon_deg ← vecAt geoValues 1
    let h_origin ← if geoValues.length = 3 then vecAt geoValues 2 else pure 0
    let lat := degToRad lat_deg
    let lon := degToRad lon_deg
    let a := self.ellipsoid_.a
    let e2 := self.ellipsoid_.e2
    let sinLat := Real.sin lat
    let cosLat := Real.cos lat
    let sinLon := Real.sin lon
    let cosLon := Real.cos lon
    let N_val := a / Real.sqrt (1 - e2 * sinLat * sinLat)
    let X0 := (N_val + h_origin) * cosLat * cosLon
    let Y0 := (N_val + h_origin) * cosLat * sinLon
    let Z0 := ((1 - e2) * N_val + h_origin) * sinLat
    let R : Matrix (Fin 3) (Fin 3) ℝ :=
      !![-sinLon, -Real.sin lat * cosLon, Real.cos lat * cosLon;
         cosLon, -Real.sin lat * sinLon, Real.cos lat * sinLon;
         0, Real.cos lat, Real.sin lat]
    let R_transpose := R.transpose
    let enuVec : Fin 3 → ℝ := ![E, N, U]
    let delta := R_transpose.mulVec enuVec
    let X := X0 + delta 0
    let Y := Y0 + delta 1
    let Z := Z0 + delta 2
    pure (ICoordinate.ecef { x_ := X, y_ := Y, z_ := Z })

/-! ## src/converter/ECEF_to_geo_converter.cpp -/

/-- The iteration cap `maxIter = 100`. -/
def maxIter : Nat := 100

/-- The tolerance `tol = 1e-12`. -/
noncomputable def tol : ℝ := 1e-12

/-- The `while` loop of `ECEFToGeoConverter::convert`, started from the loop variables
`lat`, `lat_prev`, `iter`; it returns their values when the loop is left. -/
noncomputable def ECEFToGeoConverter.iterate (a e2 Z p : ℝ) (lat lat_prev : ℝ) (iter : Nat) :
    ℝ × ℝ × Nat :=
  if |lat - lat_prev| > tol ∧ iter < maxIter then
    let sinLat := Real.sin lat
    let N := a / Real.sqrt (1 - e2 * sinLat * sinLat)
    ECEFToGeoConverter.iterate a e2 Z p (atan2 (Z + e2 * N * sinLat) p) lat (iter + 1)
  else
    (lat, lat_prev, iter)
termination_by maxIter - iter
decreasing_by omega

/-- The value assigned to `lat` by one pass of the body of the loop of
`ECEFToGeoConverter::convert`, from the current `lat`. -/
noncomputable def ECEFToGeoConverter.latStep (a e2 Z p lat : ℝ) : ℝ :=
  atan2 (Z + e2 * (a / Real.sqrt (1 - e2 * Real.sin lat * Real.sin lat)) * Real.sin lat) p

/-- Class `ECEFToGeoConverter`, holding the ellipsoid given at construction. -/
structure ECEFToGeoConverter where
  ellipsoid_ : Ellipsoid

/-- Method `ECEFToGeoConverter::convert`. -/
noncomputable def ECEFToGeoConverter.convert (self : ECEFToGeoConverter)
    (input : ICoordinate) : Except Exception ICoordinate :=
  match input.asECEF with
  | none => .error (Exception.invalid_argument
      "ECEFToGeoConverter::convert expects input to be an ECEFCoordinate.")
  | some ecef =>
    let ecefValues := ecef.getValues
    if ecefValues.length ≠ 3 then
      .error (Exception.invalid_argument "ECEFCoordinate must have exactly 3 values.")
    else do
    let X ← vecAt ecefValues 0
    let Y ← vecAt ecefValues 1
    let Z ← vecAt ecefValues 2
    let a := self.ellipsoid_.a
    let e2 := self.ellipsoid_.e2
    let p := Real.sqrt (X * X + Y * Y)
    let lon := atan2 Y X
    let lat := (ECEFToGeoConverter.iterate a e2 Z p (atan2 Z (p * (1 - e2))) 0 0).1
    let sinLat := Real.sin lat
    let N := a / Real.sqrt (1 - e2 * sinLat * sinLat)
    let h := p / Real.cos lat - N
    let lat_deg := radToDeg lat
    let lon_deg := radToDeg lon
    pure (ICoordinate.geo (GeoCoordinate.make3 lat_deg lon_deg h))

/-! ## src/converter/geo_to_ENU_converter.cpp -/

/-- Class `GeoToENUConverter`: ellipsoid, origin and the two inner converters. -/
structure GeoToENUConverter where
  ellipsoid_ : Ellipsoid
  origin_ : GeoCoordinate
  geoToEcefConverter_ : GeoToECEFConverter
  ecefToEnuConverter_ : ECEFToENUConverter

/-- The constructor `GeoToENUConverter(ellipsoid, origin)`. -/
def GeoToENUConverter.make (ellipsoid : Ellipsoid) (origin : GeoCoordinate) :
    GeoToENUConverter :=
  { ellipsoid_ := ellipsoid
    origin_ := origin
    geoToEcefConverter_ := { ellipsoid_ := ellipsoid }
    ecefToEnuConverter_ := { ellipsoid_ := ellipsoid, origin_ := origin } }

/-- Method `GeoToENUConverter::convert`. -/
noncomputable def GeoToENUConverter.convert (self : GeoToENUConverter)
    (input : ICoordinate) : Except Exception ICoordinate :=
  match input.asGeo with
  | none => .error (Exception.invalid_argument
      "GeoToENUConverter::convert expects input to be a GeoCoordinate.")
  | some _ => do
    let ecefCoord ← self.geoToEcefConverter_.convert input
    let enuCoord ← self.ecefToEnuConverter_.convert ecefCoord
    pure enuCoord

/-! ## src/converter/ENU_to_geo_converter.cpp -/

/-- Class `ENUToGeoConverter`: ellipsoid, origin and the two inner converters. -/
structure ENUToGeoConverter where
  ellipsoid_ : Ellipsoid
  origin_ : GeoCoordinate
  enuToEcefConverter_ : ENUToECEFConverter
  ecefToGeoConverter_ : ECEFToGeoConverter

/-- The constructor `ENUToGeoConverter(ellipsoid, origin)`. -/
def ENUToGeoConverter.make (ellipsoid : Ellipsoid) (origin : GeoCoordinate) :
    ENUToGeoConverter :=
  { ellipsoid_ := ellipsoid
    origin_ := origin
    enuToEcefConverter_ := { ellipsoid_ := ellipsoid, origin_ := origin }
    ecefToGeoConverter_ := { ellipsoid_ := ellipsoid } }

/-- Method `ENUToGeoConverter::convert`. -/
noncomputable def ENUToGeoConverter.convert (self : ENUToGeoConverter)
    (input : ICoordinate) : Except Exception ICoordinate :=
  match input.asENU with
  | none => .error (Exception.invalid_argument
      "ENUToGeoConverter::convert expects input to be an ENUCoordinate.")
  | some _ => do
    let ecefCoord ← self.enuToEcefConverter_.convert input
    let geoCoord ← self.ecefToGeoConverter_.convert ecefCoord
    pure geoCoord

/-! ## The latitude sequence in the words of the specification -/

/-- The sequence `lat_k` as the specification words it: `lat_0 = atan2(z, p·(1−e2))` and
`lat_{k+1} = atan2(z + e2·N(lat_k)·sin(lat_k), p)` with `N(t) = a/√(1 − e2·sin²(t))`. -/
noncomputable def claimedLatSeq (a e2 z p : ℝ) : Nat → ℝ
  | 0 => atan2 z (p * (1 - e2))
  | k + 1 =>
    atan2 (z + e2 * (a / Real.sqrt (1 - e2 * Real.sin (claimedLatSeq a e2 z p k) ^ 2)) *
      Real.sin (claimedLatSeq a e2 z p k)) p

open Classical in
/-- The latitude (radians) as the specification words it, for the input `(x, y, z)` with
`p = √(x² + y²)`: `lat_{k+1}` for the least `k ≥ 0` with `|lat_{k+1} − lat_k| ≤ 1e-12`, or
`lat_100` if there is no such `k` below 100. -/
noncomputable def claimedLatitude (a e2 x y z : ℝ) : ℝ :=
  if h : ∃ k, k < 100 ∧
      |claimedLatSeq a e2 z (Real.sqrt (x ^ 2 + y ^ 2)) (k + 1) -
        claimedLatSeq a e2 z (Real.sqrt (x ^ 2 + y ^ 2)) k| ≤ 1e-12 then
    claimedLatSeq a e2 z (Real.sqrt (x ^ 2 + y ^ 2)) (Nat.find h + 1)
  else
    claimedLatSeq a e2 z (Real.sqrt (x ^ 2 + y ^ 2)) 100

/-! ## Quantities shared by the two ENU converters -/

/-- The matrix `R` that `ECEFToENUConverter::convert` fills in (and that the comments of
both ENU converters display), for an origin at latitude `lat` and longitude `lon`
(radians). -/
noncomputable def rotationECEFToENU (lat lon : ℝ) : Matrix (Fin 3) (Fin 3) ℝ :=
  !![-Real.sin lon, Real.cos lon, 0;
     -Real.sin lat * Real.cos lon, -Real.sin lat * Real.sin lon, Real.cos lat;
     Real.cos lat * Real.cos lon, Real.cos lat * Real.sin lon, Real.sin lat]

/-- The geocentric projection `(X0, Y0, Z0)` of an origin at `lat`, `lon` (radians) and
altitude `h`, as computed inline by the two ENU converters. -/
noncomputable def originECEF (E : Ellipsoid) (lat lon h : ℝ) : Fin 3 → ℝ :=
  ![(E.a / Real.sqrt (1 - E.e2 * Real.sin lat * Real.sin lat) + h) * Real.cos lat * Real.cos lon,
    (E.a / Real.sqrt (1 - E.e2 * Real.sin lat * Real.sin lat) + h) * Real.cos lat * Real.sin lon,
    ((1 - E.e2) * (E.a / Real.sqrt (1 - E.e2 * Real.sin lat * Real.sin lat)) + h) * Real.sin lat]

/-! ## Objects behind pointers

`ENUCoordinate::origin_` is a `std::shared_ptr<ICoordinate>`, the constructor of
`ENUCoordinate` and `setOrigin` take the origin by reference, and `clone` returns a pointer.
To tell a copy from an alias, the objects are put on a heap: an address is a natural
number, `std::make_unique` takes the next free address, and a method called through a
pointer reads and writes the cell at that address.  An outcome `none` stands for a call the
program cannot make: through a pointer to no object, on an object of another class, or
with a chain of origins longer than the bound given to `Heap.clone`. -/

/-- An object on the heap; the origin of an `ENUCoordinate` is the address its `origin_`
holds. -/
inductive Obj where
  | geo (c : GeoCoordinate)
  | ecef (c : ECEFCoordinate)
  | enu (east_ north_ up_ : ℝ) (origin_ : Nat)
  | foreign (values : List ℝ)

/-- Virtual `ICoordinate::getValues` of an object on the heap. -/
def Obj.getValues : Obj → List ℝ
  | .geo c => c.getValues
  | .ecef c => c.getValues
  | .enu e n u _ => [e, n, u]
  | .foreign values => values

/-- Virtual `ICoordinate::toString` of an object on the heap. -/
noncomputable def Obj.toString : Obj → String
  | .geo c => c.toString
  | .ecef c => c.toString
  | .enu e n u _ => "[" ++ fixed6 e ++ ", " ++ fixed6 n ++ ", " ++ fixed6 u ++ "]"
  | .foreign values => ICoordinate.toStringDefault values

/-- The heap: the next free address and the object, if any, at each address. -/
structure Heap where
  next : Nat
  cell : Nat → Option Obj

/-- The heap after `std::make_unique` has built the object `o`; its address is `h.next`. -/
def Heap.alloc (h : Heap) (o : Obj) : Heap :=
  { next := h.next + 1, cell := fun a => if a = h.next then some o else h.cell a }

/-- The heap after the fields of the object at `p` have been assigned. -/
def Heap.write (h : Heap) (p : Nat) (o : Obj) : Heap :=
  { next := h.next, cell := fun a => if a = p then some o else h.cell a }

/-- Call `p->getValues()`. -/
def Heap.getValues (h : Heap) (p : Nat) : Option (List ℝ) := (h.cell p).map Obj.getValues

/-- Call `p->toString()`. -/
noncomputable def Heap.toString (h : Heap) (p : Nat) : Option String :=
  (h.cell p).map Obj.toString

/-- The body of the constructor `ENUCoordinate(east, north, up, origin)` once
`origin.clone()` has returned the address `origin_`, and the `std::make_unique` around it. -/
def Heap.construct (h : Heap) (east north up : ℝ) (origin_ : Nat) :
    Option (Except Exception Nat) × Heap :=
  match h.cell origin_ with
  | none => (none, h)
  | some o =>
    if o.getValues.length ≠ 2 ∧ o.getValues.length ≠ 3 then
      (some (.error (Exception.invalid_argument
        "ENUCoordinate::ENUCoordinate requires origin coordinate with 2 or 3 values.")), h)
    else
      (some (.ok h.next), h.alloc (.enu east north up origin_))

/-- Call `p->clone()`: the address of the copy and the heap after the call.  The first
argument bounds the length of the chain of origins that is followed; an implementation
from outside the library is taken to copy its values. -/
def Heap.clone : Nat → Heap → Nat → Option (Except Exception Nat) × Heap
  | 0, h, _ => (none, h)
  | fuel + 1, h, p =>
    match h.cell p with
    | none => (none, h)
    | some (.geo c) => (some (.ok h.next), h.alloc (.geo c.clone))
    | some (.ecef c) => (some (.ok h.next), h.alloc (.ecef c.clone))
    | some (.foreign values) => (some (.ok h.next), h.alloc (.foreign values))
    | some (.enu e n u o) =>
      match Heap.clone fuel h o with
      | (some (.ok origin_), h1) => h1.construct e n u origin_
      | r => r

/-- Expression `std::make_unique<ENUCoordinate>(east, north, up, *origin)`. -/
def Heap.makeENU (fuel : Nat) (h : Heap) (east north up : ℝ) (origin : Nat) :
    Option (Except Exception Nat) × Heap :=
  match Heap.clone fuel h origin with
  | (some (.ok origin_), h1) => h1.construct east north up origin_
  | r => r

/-- A call that changes an object: `setValues`, a setter of one field, or `setOrigin` with
a reference to the object at the address `origin`. -/
inductive Mutation where
  | setValues (values : List ℝ)
  | setLatitude (latitude : ℝ)
  | setLongitude (longitude : ℝ)
  | setAltitude (altitude : ℝ)
  | setX (x : ℝ)
  | setY (y : ℝ)
  | setZ (z : ℝ)
  | setEast (east : ℝ)
  | setNorth (north : ℝ)
  | setUp (up : ℝ)
  | setOrigin (origin : Nat)

/-- The call `m` made through the pointer `p`: what it returns or throws, and the heap
after the call. -/
def Heap.mutate (fuel : Nat) (h : Heap) (p : Nat) :
    Mutation → Option (Except Exception Unit) × Heap
  | .setValues values =>
    match h.cell p with
    | some (.geo c) => (some (c.setValues values).1, h.write p (.geo (c.setValues values).2))
    | some (.ecef c) => (some (c.setValues values).1, h.write p (.ecef (c.setValues values).2))
    | some (.enu _ _ _ o) =>
      if hlen : values.length = 3 then
        (some (.ok ()), h.write p (.enu values[0] values[1] values[2] o))
      else
        (some (.error (Exception.invalid_argument
          "ENUCoordinate::setValues requires a vector of size 3.")), h)
    | _ => (none, h)
  | .setLatitude latitude =>
    match h.cell p with
    | some (.geo c) => (some (.ok ()), h.write p (.geo (c.setLatitude latitude)))
    | _ => (none, h)
  | .setLongitude longitude =>
    match h.cell p with
    | some (.geo c) => (some (.ok ()), h.write p (.geo (c.setLongitude longitude)))
    | _ => (none, h)
  | .setAltitude altitude =>
    match h.cell p with
    | some (.geo c) => (some (.ok ()), h.write p (.geo (c.setAltitude altitude)))
    | _ => (none, h)
  | .setX x =>
    match h.cell p with
    | some (.ecef c) => (some (.ok ()), h.write p (.ecef (c.setX x)))
    | _ => (none, h)
  | .setY y =>
    match h.cell p with
    | some (.ecef c) => (some (.ok ()), h.write p (.ecef (c.setY y)))
    | _ => (none, h)
  | .setZ z =>
    match h.cell p with
    | some (.ecef c) => (some (.ok ()), h.write p (.ecef (c.setZ z)))
    | _ => (none, h)
  | .setEast east =>
    match h.cell p with
    | some (.enu _ n u o) => (some (.ok ()), h.write p (.enu east n u o))
    | _ => (none, h)
  | .setNorth north =>
    match h.cell p with
    | some (.enu e _ u o) => (some (.ok ()), h.write p (.enu e north u o))
    | _ => (none, h)
  | .setUp up =>
    match h.cell p with
    | some (.enu e n _ o) => (some (.ok ()), h.write p (.enu e n up o))
    | _ => (none, h)
  | .setOrigin origin =>
    match h.cell p, h.cell origin with
    | some (.enu e n u _), some o =>
      if o.getValues.length ≠ 2 ∧ o.getValues.length ≠ 3 then
        (some (.error (Exception.invalid_argument
          "ENUCoordinate::setOrigin requires origin coordinate with 2 or 3 values.")), h)
      else
        match Heap.clone fuel h origin with
        | (some (.ok origin_), h1) => (some (.ok ()), h1.write p (.enu e n u origin_))
        | (some (.error err), h1) => (some (.error err), h1)
        | (none, h1) => (none, h1)
    | _, _ => (none, h)

/-- The heap after the calls `ms`, made one after the other through the pointer `p`; a call
that throws is caught and the next one is made. -/
def Heap.mutateAll (fuel : Nat) (h : Heap) (p : Nat) : List Mutation → Heap
  | [] => h
  | m :: ms => Heap.mutateAll fuel (h.mutate fuel p m).2 p ms

/-- The heap with no object. -/
def Heap.empty : Heap := { next := 0, cell := fun _ => none }

/-- The fixture `ENUCoordinateTest::SetUp` of test/coordinate/ENU_coordinate_test.cpp:
`origin = std::make_unique<GeoCoordinate>(35.0, 139.0, 50.0)`, at address 0, then
`enu = std::make_unique<ENUCoordinate>(100.0, 200.0, 300.0, *origin)`, at address 2, the
copy of the origin that it owns being at address 1. -/
def ENUCoordinateTest.SetUp : Heap :=
  ((Heap.empty.alloc (.geo (GeoCoordinate.make3 35 139 50))).makeENU 1 100 200 300 0).2

/-! ## Converters and positions on the heap, as values

The value of a converter is the converter object of the sections above, whatever its
class; the value of a position on the heap is the object with the origins it owns. -/

/-- Any object behind a reference to `ICoordinateConverter`: one of the six converters. -/
inductive ICoordinateConverter where
  | geoToECEF (c : GeoToECEFConverter)
  | ecefToGeo (c : ECEFToGeoConverter)
  | ecefToENU (c : ECEFToENUConverter)
  | enuToECEF (c : ENUToECEFConverter)
  | geoToENU (c : GeoToENUConverter)
  | enuToGeo (c : ENUToGeoConverter)

/-- Virtual `ICoordinateConverter::convert`. -/
noncomputable def ICoordinateConverter.convert :
    ICoordinateConverter → ICoordinate → Except Exception ICoordinate
  | .geoToECEF c => c.convert
  | .ecefToGeo c => c.convert
  | .ecefToENU c => c.convert
  | .enuToECEF c => c.convert
  | .geoToENU c => c.convert
  | .enuToGeo c => c.convert

/-- The object at the address `p`, with the origins it owns, as a value.  The first argument
bounds the length of the chain of origins that is followed. -/
def Heap.read : Nat → Heap → Nat → Option ICoordinate
  | 0, _, _ => none
  | fuel + 1, h, p =>
    match h.cell p with
    | none => none
    | some (.geo c) => some (.geo c)
    | some (.ecef c) => some (.ecef c)
    | some (.foreign values) => some (.foreign values)
    | some (.enu e n u o) =>
      match Heap.read fuel h o with
      | none => none
      | some origin => some (.enu e n u origin)

/-! ## Converter objects, and `convert` called through pointers

A converter is an object too.  Its members `ellipsoid_` and `origin_` are held by value, a
composite converter holds its two inner converters through `std::unique_ptr`, and `convert`
takes its input by reference and returns a `std::unique_ptr` to a new object.  To tell what a
call reads, what it writes and what it keeps, the converter objects are put in memory next
to the heap of positions, and each `convert` is translated once more, statement by
statement, as a call through the address `self` of the converter and the address `input` of
the position.  An outcome `none` stands for a call the program cannot make: through a
pointer to no object or to an object of another class, or with converters nested deeper
than the bound given to `Memory.convert`. -/

/-- The heap once the object at `p` is no more. -/
def Heap.free (h : Heap) (p : Nat) : Heap :=
  { next := h.next, cell := fun a => if a = p then none else h.cell a }

/-- A converter object in memory: its class and its members.  `ellipsoid_` and `origin_` are
held by value; the inner converters of a composite are the addresses that its
`std::unique_ptr` members hold. -/
inductive ConverterObj where
  | geoToECEF (ellipsoid_ : Ellipsoid)
  | ecefToGeo (ellipsoid_ : Ellipsoid)
  | ecefToENU (ellipsoid_ : Ellipsoid) (origin_ : GeoCoordinate)
  | enuToECEF (ellipsoid_ : Ellipsoid) (origin_ : GeoCoordinate)
  | geoToENU (ellipsoid_ : Ellipsoid) (origin_ : GeoCoordinate)
      (geoToEcefConverter_ ecefToEnuConverter_ : Nat)
  | enuToGeo (ellipsoid_ : Ellipsoid) (origin_ : GeoCoordinate)
      (enuToEcefConverter_ ecefToGeoConverter_ : Nat)

/-- The memory of a program: the heap of positions, and the converter objects with the next
free address for one. -/
structure Memory where
  heap : Heap
  nextConverter : Nat
  converter : Nat → Option ConverterObj

/-- The memory after a converter object has been built; its address is `m.nextConverter`. -/
def Memory.allocConverter (m : Memory) (c : ConverterObj) : Memory :=
  { heap := m.heap
    nextConverter := m.nextConverter + 1
    converter := fun a => if a = m.nextConverter then some c else m.converter a }

/-- The constructor `GeoToENUConverter(ellipsoid, origin)`: the members `ellipsoid_` and
`origin_` are copies of the arguments, the two inner converters are built from these
members by `std::make_unique`.  It returns the address of the new converter. -/
def Memory.makeGeoToENU (m : Memory) (ellipsoid : Ellipsoid) (origin : GeoCoordinate) :
    Nat × Memory :=
  let m1 := m.allocConverter (.geoToECEF ellipsoid)
  let m2 := m1.allocConverter (.ecefToENU ellipsoid origin)
  (m2.nextConverter,
    m2.allocConverter (.geoToENU ellipsoid origin m.nextConverter m1.nextConverter))

/-- The constructor `ENUToGeoConverter(ellipsoid, origin)`: the members `ellipsoid_` and
`origin_` are copies of the arguments, the two inner converters are built from these
members by `std::make_unique`.  It returns the address of the new converter. -/
def Memory.makeENUToGeo (m : Memory) (ellipsoid : Ellipsoid) (origin : GeoCoordinate) :
    Nat × Memory :=
  let m1 := m.allocConverter (.enuToECEF ellipsoid origin)
  let m2 := m1.allocConverter (.ecefToGeo ellipsoid)
  (m2.nextConverter,
    m2.allocConverter (.enuToGeo ellipsoid origin m.nextConverter m1.nextConverter))

/-- The memory after the position at `p` has been destroyed, as the `std::unique_ptr` that
owns it does when it goes out of scope. -/
def Memory.destroy (m : Memory) (p : Nat) : Memory :=
  { heap := m.heap.free p, nextConverter := m.nextConverter, converter := m.converter }

/-- The end of a body that has read its operands and has computed, without writing
anywhere, the object to return, or has thrown: `return std::make_unique<T>(...)` builds
the object at the next free address of the heap, and an exception leaves the memory as it
is. -/
def Memory.returnNew (m : Memory) :
    Except Exception Obj → Option (Except Exception Nat) × Memory
  | .error err => (some (.error err), m)
  | .ok result =>
    (some (.ok m.heap.next),
      { heap := m.heap.alloc result, nextConverter := m.nextConverter, converter := m.converter })

/-- Method `GeoToECEFConverter::convert`, called on the converter at `self` with a reference to
the position at `input`. -/
noncomputable def Memory.convertGeoToECEF (m : Memory) (self input : Nat) :
    Option (Except Exception Nat) × Memory :=
  match m.converter self with
  | some (.geoToECEF ellipsoid_) =>
    match m.heap.cell input with
    | none => (none, m)
    | some (.geo geo) => m.returnNew (do
      let geoValues := geo.getValues
      let lat_deg ← vecAt geoValues 0
      let lon_deg ← vecAt geoValues 1
      let h ← if geoValues.length = 3 then vecAt geoValues 2 else pure 0
      let lat := degToRad lat_deg
      let lon := degToRad lon_deg
      let a := ellipsoid_.a
      let e2 := ellipsoid_.e2
      let sinLat := Real.sin lat
      let cosLat := Real.cos lat
      let N_val := calcN a e2 lat
      let x := (N_val + h) * cosLat * Real.cos lon
      let y := (N_val + h) * cosLat * Real.sin lon
      let z := ((1 - e2) * N_val + h) * sinLat
      pure (Obj.ecef { x_ := x, y_ := y, z_ := z }))
    | some _ => (some (.error (Exception.invalid_argument
        "GeoToECEFConverter::convert expects input to be a GeoCoordinate.")), m)
  | _ => (none, m)

/-- Method `ECEFToGeoConverter::convert`, called on the converter at `self` with a reference to
the position at `input`. -/
noncomputable def Memory.convertECEFToGeo (m : Memory) (self input : Nat) :
    Option (Except Exception Nat) × Memory :=
  match m.converter self with
  | some (.ecefToGeo ellipsoid_) =>
    match m.heap.cell input with
    | none => (none, m)
    | some (.ecef ecef) => m.returnNew (
      let ecefValues := ecef.getValues
      if ecefValues.length ≠ 3 then
        .error (Exception.invalid_argument "ECEFCoordinate must have exactly 3 values.")
      else do
      let X ← vecAt ecefValues 0
      let Y ← vecAt ecefValues 1
      let Z ← vecAt ecefValues 2
      let a := ellipsoid_.a
      let e2 := ellipsoid_.e2
      let p := Real.sqrt (X * X + Y * Y)
      let lon := atan2 Y X
      let lat := (ECEFToGeoConverter.iterate a e2 Z p (atan2 Z (p * (1 - e2))) 0 0).1
      let sinLat := Real.sin lat
      let N := a / Real.sqrt (1 - e2 * sinLat * sinLat)
      let h := p / Real.cos lat - N
      let lat_deg := radToDeg lat
      let lon_deg := radToDeg lon
      pure (Obj.geo (GeoCoordinate.make3 lat_deg lon_deg h)))
    | some _ => (some (.error (Exception.invalid_argument
        "ECEFToGeoConverter::convert expects input to be an ECEFCoordinate.")), m)
  | _ => (none, m)

/-- The end of the body of `ECEFToENUConverter::convert`, which has read its operands and has
computed, without writing anywhere, the vector `enuVec`, or has thrown:
`return std::make_unique<ENUCoordinate>(E, N_val, U, origin_)`.  The constructor of
`ENUCoordinate` clones the member `origin_` of the converter, which builds a
`GeoCoordinate` at the next free address of the heap, and goes on as `Heap.construct`. -/
def Memory.returnNewENU (m : Memory) (origin_ : GeoCoordinate) :
    Except Exception (Fin 3 → ℝ) → Option (Except Exception Nat) × Memory
  | .error err => (some (.error err), m)
  | .ok enuVec =>
    let E := enuVec 0
    let N_val := enuVec 1
    let U := enuVec 2
    (((m.heap.alloc (.geo origin_.clone)).construct E N_val U m.heap.next).1,
      { heap := ((m.heap.alloc (.geo origin_.clone)).construct E N_val U m.heap.next).2
        nextConverter := m.nextConverter
        converter := m.converter })

/-- Method `ECEFToENUConverter::convert`, called on the converter at `self` with a reference to
the position at `input`. -/
noncomputable def Memory.convertECEFToENU (m : Memory) (self input : Nat) :
    Option (Except Exception Nat) × Memory :=
  match m.converter self with
  | some (.ecefToENU ellipsoid_ origin_) =>
    match m.heap.cell input with
    | none => (none, m)
    | some (.ecef ecef) => m.returnNewENU origin_ (
      let ecefValues := ecef.getValues
      if ecefValues.length ≠ 3 then
        .error (Exception.invalid_argument "ECEFCoordinate must have exactly 3 values.")
      else do
      let X ← vecAt ecefValues 0
      let Y ← vecAt ecefValues 1
      let Z ← vecAt ecefValues 2
      let geoValues := origin_.getValues
      if geoValues.length < 2 then
        .error (Exception.invalid_argument
          "Origin GeoCoordinate does not contain enough values.")
      else do
      let lat_deg ← vecAt geoValues 0
      let lon_deg ← vecAt geoValues 1
      let h_origin ← if geoValues.length = 3 then vecAt geoValues 2 else pure 0
      let lat := degToRad lat_deg
      let lon := degToRad lon_deg
      let a := ellipsoid_.a
      let e2 := ellipsoid_.e2
      let sinLat := Real.sin lat
      let cosLat := Real.cos lat
      let sinLon := Real.sin lon
      let cosLon := Real.cos lon
      let N := a / Real.sqrt (1 - e2 * sinLat * sinLat)
      let X0 := (N + h_origin) * cosLat * cosLon
      let Y0 := (N + h_origin) * cosLat * sinLon
      let Z0 := ((1 - e2) * N + h_origin) * sinLat
      let dX := X - X0
      let dY := Y - Y0
      let dZ := Z - Z0
      let R : Matrix (Fin 3) (Fin 3) ℝ :=
        !![-sinLon, cosLon, 0;
           -sinLat * cosLon, -sinLat * sinLon, cosLat;
           cosLat * cosLon, cosLat * sinLon, sinLat]
      let dVec : Fin 3 → ℝ := ![dX, dY, dZ]
      let enuVec := R.mulVec dVec
      pure enuVec)
    | some _ => (some (.error (Exception.invalid_argument
        "ECEFToENUConverter::convert expects input to be an ECEFCoordinate.")), m)
  | _ => (none, m)

/-- Method `ENUToECEFConverter::convert`, called on the converter at `self` with a reference to
the position at `input`.  The matrix `R` is filled entry by entry as in the source, then
transposed, then applied to the input vector. -/
noncomputable def Memory.convertENUToECEF (m : Memory) (self input : Nat) :
    Option (Except Exception Nat) × Memory :=
  match m.converter self with
  | some (.enuToECEF ellipsoid_ origin_) =>
    match m.heap.cell input with
    | none => (none, m)
    | some (.enu east_ north_ up_ _) => m.returnNew (
      let E := east_
      let N := north_
      let U := up_
      let geoValues := origin_.getValues
      if geoValues.length < 2 then
        .error (Exception.invalid_argument
          "Origin GeoCoordinate does not contain enough values.")
      else do
      let lat_deg ← vecAt geoValues 0
      let lon_deg ← vecAt geoValues 1
      let h_origin ← if geoValues.length = 3 then vecAt geoValues 2 else pure 0
      let lat := degToRad lat_deg
      let lon := degToRad lon_deg
      let a := ellipsoid_.a
      let e2 := ellipsoid_.e2
      let sinLat := Real.sin lat
      let cosLat := Real.cos lat
      let sinLon := Real.sin lon
      let cosLon := Real.cos lon
      let N_val := a / Real.sqrt (1 - e2 * sinLat * sinLat)
      let X0 := (N_val + h_origin) * cosLat * cosLon
      let Y0 := (N_val + h_origin) * cosLat * sinLon
      let Z0 := ((1 - e2) * N_val + h_origin) * sinLat
      let R : Matrix (Fin 3) (Fin 3) ℝ :=
        !![-sinLon, -Real.sin lat * cosLon, Real.cos lat * cosLon;
           cosLon, -Real.sin lat * sinLon, Real.cos lat * sinLon;
           0, Real.cos lat, Real.sin lat]
      let R_transpose := R.transpose
      let enuVec : Fin 3 → ℝ := ![E, N, U]
      let delta := R_transpose.mulVec enuVec
      let X := X0 + delta 0
      let Y := Y0 + delta 1
      let Z := Z0 + delta 2
      pure (Obj.ecef { x_ := X, y_ := Y, z_ := Z }))
    | some _ => (some (.error (Exception.invalid_argument
        "ENUToECEFConverter::convert expects input to be an ENUCoordinate.")), m)
  | _ => (none, m)

/-- Method `GeoToENUConverter::convert`, called on the converter at `self` with a reference to
the position at `input`; `call` is the virtual `convert` reached through a pointer to
`ICoordinateConverter`.  The position `ecefCoord` is destroyed when the body is left,
by `return` or by an exception of the second call. -/
def Memory.convertGeoToENU
    (call : Memory → Nat → Nat → Option (Except Exception Nat) × Memory)
    (m : Memory) (self input : Nat) : Option (Except Exception Nat) × Memory :=
  match m.converter self with
  | some (.geoToENU _ _ geoToEcefConverter_ ecefToEnuConverter_) =>
    match m.heap.cell input with
    | none => (none, m)
    | some (.geo _) =>
      match call m geoToEcefConverter_ input with
      | (some (.ok ecefCoord), m1) =>
        ((call m1 ecefToEnuConverter_ ecefCoord).1, (call m1 ecefToEnuConverter_ ecefCoord).2.destroy ecefCoord)
      | r => r
    | some _ => (some (.error (Exception.invalid_argument
        "GeoToENUConverter::convert expects input to be a GeoCoordinate.")), m)
  | _ => (none, m)

/-- Method `ENUToGeoConverter::convert`, called on the converter at `self` with a reference to
the position at `input`; `call` is the virtual `convert` reached through a pointer to
`ICoordinateConverter`.  The position `ecefCoord` is destroyed when the body is left,
by `return` or by an exception of the second call. -/
def Memory.convertENUToGeo
    (call : Memory → Nat → Nat → Option (Except Exception Nat) × Memory)
    (m : Memory) (self input : Nat) : Option (Except Exception Nat) × Memory :=
  match m.converter self with
  | some (.enuToGeo _ _ enuToEcefConverter_ ecefToGeoConverter_) =>
    match m.heap.cell input with
    | none => (none, m)
    | some (.enu _ _ _ _) =>
      match call m enuToEcefConverter_ input with
      | (some (.ok ecefCoord), m1) =>
        ((call m1 ecefToGeoConverter_ ecefCoord).1, (call m1 ecefToGeoConverter_ ecefCoord).2.destroy ecefCoord)
      | r => r
    | some _ => (some (.error (Exception.invalid_argument
        "ENUToGeoConverter::convert expects input to be an ENUCoordinate.")), m)
  | _ => (none, m)

/-- Virtual `ICoordinateConverter::convert`, called through the pointer `self` with a
reference to the position at `input`: the body that runs is that of the class of the
object at `self`.  The first argument bounds the depth to which converters call
converters. -/
noncomputable def Memory.convert :
    Nat → Memory → Nat → Nat → Option (Except Exception Nat) × Memory
  | 0, m, _, _ => (none, m)
  | fuel + 1, m, self, input =>
    match m.converter self with
    | none => (none, m)
    | some (.geoToECEF _) => m.convertGeoToECEF self input
    | some (.ecefToGeo _) => m.convertECEFToGeo self input
    | some (.ecefToENU _ _) => m.convertECEFToENU self input
    | some (.enuToECEF _ _) => m.convertENUToECEF self input
    | some (.geoToENU _ _ _ _) => Memory.convertGeoToENU (Memory.convert fuel) m self input
    | some (.enuToGeo _ _ _ _) => Memory.convertENUToGeo (Memory.convert fuel) m self input

/-- The memory after the calls `self->convert(*input)` for the pairs `(self, input)` of the
list, made one after the other; a call that throws is caught and the next one is made, and
the positions returned are kept. -/
noncomputable def Memory.convertAll (fuel : Nat) (m : Memory) : List (Nat × Nat) → Memory
  | [] => m
  | c :: cs => Memory.convertAll fuel (m.convert fuel c.1 c.2).2 cs

/-- The converter object at the address `p`, with the inner converters it owns, as a value of
the class it belongs to. -/
def Memory.readConverter (m : Memory) (p : Nat) : Option ICoordinateConverter :=
  match m.converter p with
  | none => none
  | some (.geoToECEF e) => some (.geoToECEF { ellipsoid_ := e })
  | some (.ecefToGeo e) => some (.ecefToGeo { ellipsoid_ := e })
  | some (.ecefToENU e o) => some (.ecefToENU { ellipsoid_ := e, origin_ := o })
  | some (.enuToECEF e o) => some (.enuToECEF { ellipsoid_ := e, origin_ := o })
  | some (.geoToENU e o p1 p2) =>
    match m.converter p1 with
    | some (.geoToECEF e1) =>
      match m.converter p2 with
      | some (.ecefToENU e2 o2) =>
        some (.geoToENU
          { ellipsoid_ := e, origin_ := o
            geoToEcefConverter_ := { ellipsoid_ := e1 }
            ecefToEnuConverter_ := { ellipsoid_ := e2, origin_ := o2 } })
      | _ => none
    | _ => none
  | some (.enuToGeo e o p1 p2) =>
    match m.converter p1 with
    | some (.enuToECEF e1 o1) =>
      match m.converter p2 with
      | some (.ecefToGeo e2) =>
        some (.enuToGeo
          { ellipsoid_ := e, origin_ := o
            enuToEcefConverter_ := { ellipsoid_ := e1, origin_ := o1 }
            ecefToGeoConverter_ := { ellipsoid_ := e2 } })
      | _ => none
    | _ => none

/-- The fixture `GeoToENUConverterTest` of test/converter/geo_to_ENU_converter_test.cpp with
the input of its test `NonZeroInputProducesNonZeroENU`: the position `origin`,
`GeoCoordinate(0.0, 0.0, 0.0)`, at address 0 of the heap, the position `geo_input`,
`GeoCoordinate(1.0, 1.0, 0.0)`, at address 1, and `converter`, built by
`new GeoToENUConverter(ellipsoid, origin)` with `ellipsoid` a copy of `WGS84`, at address 2
of the converters, its inner converters being at the addresses 0 and 1. -/
noncomputable def GeoToENUConverterTest.SetUp : Memory :=
  (Memory.makeGeoToENU
    { heap := (Heap.empty.alloc (.geo (GeoCoordinate.make3 0 0 0))).alloc
        (.geo (GeoCoordinate.make3 1 1 0))
      nextConverter := 0
      converter := fun _ => none }
    WGS84 (GeoCoordinate.make3 0 0 0)).2

/-! ## Lemmas: each converter on an input of its own frame -/

/-- Lemma: `GeoToECEFConverter::convert` on a `GeoCoordinate`. -/
theorem geoToECEF_convert_geo (E : Ellipsoid) (lat lon : ℝ) (alt : Option ℝ) :
    (GeoToECEFConverter.mk E).convert
        (ICoordinate.geo { latitude_ := lat, longitude_ := lon, altitude_ := alt }) =
      .ok (ICoordinate.ecef
        { x_ := (calcN E.a E.e2 (degToRad lat) + alt.getD 0)
                  * Real.cos (degToRad lat) * Real.cos (degToRad lon),
          y_ := (calcN E.a E.e2 (degToRad lat) + alt.getD 0)
                  * Real.cos (degToRad lat) * Real.sin (degToRad lon),
          z_ := ((1 - E.e2) * calcN E.a E.e2 (degToRad lat) + alt.getD 0)
                  * Real.sin (degToRad lat) }) := by
  cases alt <;> rfl

/-- A 3×3 matrix times a vector, written out. -/
theorem mulVec3 (a b c d e f g h i x y z : ℝ) :
    Matrix.mulVec !![a, b, c; d, e, f; g, h, i] ![x, y, z] =
      ![a * x + b * y + c * z, d * x + e * y + f * z, g * x + h * y + i * z] := by
  funext k
  fin_cases k <;> simp [Matrix.mulVec, Matrix.dotProduct, Fin.sum_univ_three]

/-- The transpose of a 3×3 matrix, written out. -/
theorem transpose3 (a b c d e f g h i : ℝ) :
    Matrix.transpose !![a, b, c; d, e, f; g, h, i] = !![a, d, g; b, e, h; c, f, i] := by
  ext k l
  fin_cases k <;> fin_cases l <;> rfl

/-- The difference of two vectors of length 3, written out. -/
theorem vecSub3 (x y z x0 y0 z0 : ℝ) :
    (![x, y, z] - ![x0, y0, z0] : Fin 3 → ℝ) = ![x - x0, y - y0, z - z0] := by
  funext k
  fin_cases k <;> rfl

/-- Lemma: `ECEFToENUConverter::convert` on an `ECEFCoordinate`: the matrix it fills in is
`rotationECEFToENU` and the origin it subtracts is `originECEF`. -/
theorem ecefToENU_convert_ecef (E : Ellipsoid) (lat0 lon0 : ℝ) (alt0 : Option ℝ)
    (X Y Z : ℝ) :
    (ECEFToENUConverter.mk E { latitude_ := lat0, longitude_ := lon0, altitude_ := alt0 }).convert
        (ICoordinate.ecef { x_ := X, y_ := Y, z_ := Z }) =
      .ok (ICoordinate.enu
        ((rotationECEFToENU (degToRad lat0) (degToRad lon0)).mulVec
          (![X, Y, Z] - originECEF E (degToRad lat0) (degToRad lon0) (alt0.getD 0)) 0)
        ((rotationECEFToENU (degToRad lat0) (degToRad lon0)).mulVec
          (![X, Y, Z] - originECEF E (degToRad lat0) (degToRad lon0) (alt0.getD 0)) 1)
        ((rotationECEFToENU (degToRad lat0) (degToRad lon0)).mulVec
          (![X, Y, Z] - originECEF E (degToRad lat0) (degToRad lon0) (alt0.getD 0)) 2)
        (ICoordinate.geo { latitude_ := lat0, longitude_ := lon0, altitude_ := alt0 })) := by
  unfold originECEF
  rw [vecSub3]
  cases alt0 <;> rfl

/-- Lemma: `ENUToECEFConverter::convert` on an `ENUCoordinate`, with the matrix as the source
fills it in and the call of `transpose` still in place. -/
theorem enuToECEF_convert_enu (E : Ellipsoid) (lat0 lon0 : ℝ) (alt0 : Option ℝ)
    (e n u : ℝ) (o : ICoordinate) :
    (ENUToECEFConverter.mk E { latitude_ := lat0, longitude_ := lon0, altitude_ := alt0 }).convert
        (ICoordinate.enu e n u o) =
      .ok (ICoordinate.ecef
        { x_ := originECEF E (degToRad lat0) (degToRad lon0) (alt0.getD 0) 0 +
            (Matrix.transpose !![-Real.sin (degToRad lon0),
                -Real.sin (degToRad lat0) * Real.cos (degToRad lon0),
                Real.cos (degToRad lat0) * Real.cos (degToRad lon0);
              Real.cos (degToRad lon0),
                -Real.sin (degToRad lat0) * Real.sin (degToRad lon0),
                Real.cos (degToRad lat0) * Real.sin (degToRad lon0);
              0, Real.cos (degToRad lat0), Real.sin (degToRad lat0)]).mulVec ![e, n, u] 0
          y_ := originECEF E (degToRad lat0) (degToRad lon0) (alt0.getD 0) 1 +
            (Matrix.transpose !![-Real.sin (degToRad lon0),
                -Real.sin (degToRad lat0) * Real.cos (degToRad lon0),
                Real.cos (degToRad lat0) * Real.cos (degToRad lon0);
              Real.cos (degToRad lon0),
                -Real.sin (degToRad lat0) * Real.sin (degToRad lon0),
                Real.cos (degToRad lat0) * Real.sin (degToRad lon0);
              0, Real.cos (degToRad lat0), Real.sin (degToRad lat0)]).mulVec ![e, n, u] 1
          z_ := originECEF E (degToRad lat0) (degToRad lon0) (alt0.getD 0) 2 +
            (Matrix.transpose !![-Real.sin (degToRad lon0),
                -Real.sin (degToRad lat0) * Real.cos (degToRad lon0),
                Real.cos (degToRad lat0) * Real.cos (degToRad lon0);
              Real.cos (degToRad lon0),
                -Real.sin (degToRad lat0) * Real.sin (degToRad lon0),
                Real.cos (degToRad lat0) * Real.sin (degToRad lon0);
              0, Real.cos (degToRad lat0), Real.sin (degToRad lat0)]).mulVec ![e, n, u] 2 }) := by
  cases alt0 <;> rfl

/-- Lemma: `ENUToECEFConverter::convert` on an `ENUCoordinate`, with the transposition and the
product carried out. -/
theorem enuToECEF_convert_enu_expanded (E : Ellipsoid) (lat0 lon0 : ℝ)
    (alt0 : Option ℝ) (e n u : ℝ) (o : ICoordinate) :
    (ENUToECEFConverter.mk E { latitude_ := lat0, longitude_ := lon0, altitude_ := alt0 }).convert
        (ICoordinate.enu e n u o) =
      .ok (ICoordinate.ecef
        { x_ := originECEF E (degToRad lat0) (degToRad lon0) (alt0.getD 0) 0 +
            (-Real.sin (degToRad lon0) * e + Real.cos (degToRad lon0) * n + 0 * u)
          y_ := originECEF E (degToRad lat0) (degToRad lon0) (alt0.getD 0) 1 +
            (-Real.sin (degToRad lat0) * Real.cos (degToRad lon0) * e +
              -Real.sin (degToRad lat0) * Real.sin (degToRad lon0) * n +
              Real.cos (degToRad lat0) * u)
          z_ := originECEF E (degToRad lat0) (degToRad lon0) (alt0.getD 0) 2 +
            (Real.cos (degToRad lat0) * Real.cos (degToRad lon0) * e +
              Real.cos (degToRad lat0) * Real.sin (degToRad lon0) * n +
              Real.sin (degToRad lat0) * u) }) := by
  rw [enuToECEF_convert_enu, transpose3, mulVec3]
  rfl

/-- Lemma: `ECEFToGeoConverter::convert` on an `ECEFCoordinate`, in terms of the loop. -/
theorem ecefToGeo_convert_ecef (E : Ellipsoid) (X Y Z : ℝ) :
    (ECEFToGeoConverter.mk E).convert (ICoordinate.ecef { x_ := X, y_ := Y, z_ := Z }) =
      .ok (ICoordinate.geo (GeoCoordinate.make3
        (radToDeg (ECEFToGeoConverter.iterate E.a E.e2 Z (Real.sqrt (X * X + Y * Y))
          (atan2 Z (Real.sqrt (X * X + Y * Y) * (1 - E.e2))) 0 0).1)
        (radToDeg (atan2 Y X))
        (Real.sqrt (X * X + Y * Y) /
            Real.cos (ECEFToGeoConverter.iterate E.a E.e2 Z (Real.sqrt (X * X + Y * Y))
              (atan2 Z (Real.sqrt (X * X + Y * Y) * (1 - E.e2))) 0 0).1 -
          E.a / Real.sqrt (1 - E.e2 *
            Real.sin (ECEFToGeoConverter.iterate E.a E.e2 Z (Real.sqrt (X * X + Y * Y))
              (atan2 Z (Real.sqrt (X * X + Y * Y) * (1 - E.e2))) 0 0).1 *
            Real.sin (ECEFToGeoConverter.iterate E.a E.e2 Z (Real.sqrt (X * X + Y * Y))
              (atan2 Z (Real.sqrt (X * X + Y * Y) * (1 - E.e2))) 0 0).1)))) := by
  rfl

/-- The loop body is not entered when the two latitudes are within the tolerance. -/
theorem ecefToGeo_iterate_of_close (a e2 Z p lat lat_prev : ℝ) (iter : Nat)
    (h : |lat - lat_prev| ≤ tol) :
    ECEFToGeoConverter.iterate a e2 Z p lat lat_prev iter = (lat, lat_prev, iter) := by
  rw [ECEFToGeoConverter.iterate]
  simp [not_lt.mpr h]

/-- Lemma: `atan2(0, x) = 0` for `x ≥ 0`. -/
theorem atan2_zero_of_nonneg (x : ℝ) (h : 0 ≤ x) : atan2 0 x = 0 := by
  have : (⟨x, 0⟩ : ℂ) = (x : ℂ) := rfl
  unfold atan2
  rw [this, Complex.arg_ofReal_of_nonneg h]

/-- Sequencing after a call that returned normally. -/
theorem ok_bind {α β : Type} (a : α) (f : α → Except Exception β) :
    (Except.ok a >>= f) = f a := rfl

/-- Lemma: `GeoToENUConverter::convert` on a `GeoCoordinate` is the chain of its inner
converters. -/
theorem geoToENU_convert_geo (E : Ellipsoid) (O g : GeoCoordinate) :
    (GeoToENUConverter.make E O).convert (ICoordinate.geo g) =
      ((GeoToECEFConverter.mk E).convert (ICoordinate.geo g) >>=
        (ECEFToENUConverter.mk E O).convert) := by
  show (do
      let ecefCoord ← (GeoToECEFConverter.mk E).convert (ICoordinate.geo g)
      let enuCoord ← (ECEFToENUConverter.mk E O).convert ecefCoord
      pure enuCoord) = _
  simp

/-- Lemma: `ENUToGeoConverter::convert` on an `ENUCoordinate` is the chain of its inner
converters. -/
theorem enuToGeo_convert_enu (E : Ellipsoid) (O : GeoCoordinate) (e n u : ℝ)
    (o : ICoordinate) :
    (ENUToGeoConverter.make E O).convert (ICoordinate.enu e n u o) =
      ((ENUToECEFConverter.mk E O).convert (ICoordinate.enu e n u o) >>=
        (ECEFToGeoConverter.mk E).convert) := by
  show (do
      let ecefCoord ← (ENUToECEFConverter.mk E O).convert (ICoordinate.enu e n u o)
      let geoCoord ← (ECEFToGeoConverter.mk E).convert ecefCoord
      pure geoCoord) = _
  simp

/-- Lemma: `atan2(r·sin θ, r·cos θ) = θ` for `r > 0` and `−π < θ ≤ π`. -/
theorem atan2_polar (r θ : ℝ) (hr : 0 < r) (hlo : -Real.pi < θ) (hhi : θ ≤ Real.pi) :
    atan2 (r * Real.sin θ) (r * Real.cos θ) = θ := by
  have h : (⟨r * Real.cos θ, r * Real.sin θ⟩ : ℂ) =
      (r : ℂ) * (Complex.cos θ + Complex.sin θ * Complex.I) := by
    apply Complex.ext <;> simp [← Complex.ofReal_cos, ← Complex.ofReal_sin]
  unfold atan2
  rw [h, Complex.arg_mul_cos_add_sin_mul_I hr ⟨hlo, hhi⟩]

/-- Lemma: `ECEFToGeoConverter::convert` on a point of the equatorial plane: the seed latitude is
0, the loop body is not entered, and the altitude is `√(x² + y²) − a`. -/
theorem ecefToGeo_convert_equatorial (E : Ellipsoid) (he2 : E.e2 ≤ 1) (x y : ℝ) :
    (ECEFToGeoConverter.mk E).convert (ICoordinate.ecef { x_ := x, y_ := y, z_ := 0 }) =
      .ok (ICoordinate.geo (GeoCoordinate.make3 0 (radToDeg (atan2 y x))
        (Real.sqrt (x * x + y * y) - E.a))) := by
  have hp : 0 ≤ Real.sqrt (x * x + y * y) * (1 - E.e2) :=
    mul_nonneg (Real.sqrt_nonneg _) (by linarith)
  rw [ecefToGeo_convert_ecef, atan2_zero_of_nonneg _ hp,
    ecefToGeo_iterate_of_close _ _ _ _ _ _ _
      (by unfold tol; simp only [sub_self, abs_zero]; norm_num)]
  unfold radToDeg
  simp

/-- Lemma: `ECEFToENU` anchored at `O` maps the geocentric projection of `O` to the zero offset. -/
theorem ecefToENU_convert_origin (E : Ellipsoid) (lat0 lon0 : ℝ) (alt0 : Option ℝ) :
    ((GeoToECEFConverter.mk E).convert
          (ICoordinate.geo { latitude_ := lat0, longitude_ := lon0, altitude_ := alt0 }) >>=
        (ECEFToENUConverter.mk E
          { latitude_ := lat0, longitude_ := lon0, altitude_ := alt0 }).convert) =
        .ok (ICoordinate.enu 0 0 0
          (ICoordinate.geo { latitude_ := lat0, longitude_ := lon0, altitude_ := alt0 })) := by
  rw [geoToECEF_convert_geo, ok_bind, ecefToENU_convert_ecef]
  unfold originECEF calcN
  simp [vecSub3]

/-- Once the loop variable `lat` is a fixed point of the loop body, the loop returns it:
either the loop is left at once, or one more pass reproduces `lat` and the loop is left. -/
theorem ecefToGeo_iterate_fixed (a e2 Z p lat lat_prev : ℝ) (iter : Nat)
    (hfix : atan2 (Z + e2 * (a / Real.sqrt (1 - e2 * Real.sin lat * Real.sin lat)) *
      Real.sin lat) p = lat) :
    (ECEFToGeoConverter.iterate a e2 Z p lat lat_prev iter).1 = lat := by
  rw [ECEFToGeoConverter.iterate]
  split_ifs with h
  · simp only [hfix]
    rw [ecefToGeo_iterate_of_close _ _ _ _ _ _ _
      (by unfold tol; simp only [sub_self, abs_zero]; norm_num)]
  · rfl

/-! ## Lemmas: the latitude loop -/

/-- One pass of the loop: when the test of the `while` holds, the loop continues from the
updated variables. -/
theorem ecefToGeo_iterate_step (a e2 Z p lat lat_prev : ℝ) (iter : Nat)
    (h1 : tol < |lat - lat_prev|) (h2 : iter < maxIter) :
    ECEFToGeoConverter.iterate a e2 Z p lat lat_prev iter =
      ECEFToGeoConverter.iterate a e2 Z p
        (atan2 (Z + e2 * (a / Real.sqrt (1 - e2 * Real.sin lat * Real.sin lat)) *
          Real.sin lat) p) lat (iter + 1) := by
  rw [ECEFToGeoConverter.iterate]
  simp [h1, h2]

/-- The loop is left with its variables unchanged when the iteration cap is reached. -/
theorem ecefToGeo_iterate_of_cap (a e2 Z p lat lat_prev : ℝ) (iter : Nat)
    (h : maxIter ≤ iter) :
    ECEFToGeoConverter.iterate a e2 Z p lat lat_prev iter = (lat, lat_prev, iter) := by
  rw [ECEFToGeoConverter.iterate]
  simp [not_lt.mpr h]

/-- The counter `iter` never passes the cap: started at or below `maxIter`, the loop is
left with `iter ≤ maxIter`. -/
theorem ecefToGeo_iterate_count (a e2 Z p : ℝ) (n : Nat) :
    ∀ (lat lat_prev : ℝ) (iter : Nat), maxIter - iter = n → iter ≤ maxIter →
      (ECEFToGeoConverter.iterate a e2 Z p lat lat_prev iter).2.2 ≤ maxIter := by
  induction n with
  | zero =>
    intro lat lat_prev iter hn hle
    rw [ecefToGeo_iterate_of_cap _ _ _ _ _ _ _ (by omega)]
    exact hle
  | succ n ih =>
    intro lat lat_prev iter hn hle
    by_cases h1 : tol < |lat - lat_prev|
    · rw [ecefToGeo_iterate_step _ _ _ _ _ _ _ h1 (by omega)]
      exact ih _ _ _ (by omega) (by omega)
    · rw [ecefToGeo_iterate_of_close _ _ _ _ _ _ _ (not_lt.mp h1)]
      exact hle

/-- For `x > 0`, `atan2(y, x) = arctan(y / x)`. -/
theorem atan2_eq_arctan (y x : ℝ) (hx : 0 < x) : atan2 y x = Real.arctan (y / x) := by
  have h1 : |Complex.arg ⟨x, y⟩| < Real.pi / 2 :=
    Complex.abs_arg_lt_pi_div_two_iff.mpr (Or.inl hx)
  have h2 := Complex.tan_arg ⟨x, y⟩
  unfold atan2
  rw [← h2, Real.arctan_tan (abs_lt.mp h1).1 (abs_lt.mp h1).2]

/-- Lemma: `GeoCoordinate::clone` rebuilds the same value. -/
theorem geoCoordinate_clone_eq (c : GeoCoordinate) : c.clone = c := by
  rcases c with ⟨lat, lon, alt⟩
  cases alt <;> rfl

/-- Lemma: `ENUToGeo` anchored at an origin on the equator, applied to the zero offset,
before any fact about `atan2` is used. -/
theorem enuToGeo_zero_equatorial (E : Ellipsoid) (he2 : E.e2 ≤ 1) (lon : ℝ)
    (alt : Option ℝ) (o : ICoordinate) :
    (ENUToGeoConverter.make E
          { latitude_ := 0, longitude_ := lon, altitude_ := alt }).convert
        (ICoordinate.enu 0 0 0 o) =
      .ok (ICoordinate.geo (GeoCoordinate.make3 0
        (radToDeg (atan2 ((E.a + alt.getD 0) * Real.sin (degToRad lon))
          ((E.a + alt.getD 0) * Real.cos (degToRad lon))))
        (Real.sqrt (((E.a + alt.getD 0) * Real.cos (degToRad lon)) *
              ((E.a + alt.getD 0) * Real.cos (degToRad lon)) +
            ((E.a + alt.getD 0) * Real.sin (degToRad lon)) *
              ((E.a + alt.getD 0) * Real.sin (degToRad lon))) - E.a))) := by
  rw [enuToGeo_convert_enu, enuToECEF_convert_enu_expanded, ok_bind]
  have h0 : degToRad 0 = 0 := by unfold degToRad; simp
  unfold originECEF
  simp only [h0, Real.sin_zero, Real.cos_zero, mul_zero, sub_zero, Real.sqrt_one,
    div_one, mul_one, add_zero, zero_mul, neg_zero, zero_add,
    Matrix.cons_val_zero, Matrix.cons_val_one, Matrix.head_cons, Matrix.cons_val_two,
    Matrix.tail_cons]
  rw [ecefToGeo_convert_equatorial E he2]

/-! ## Lemmas: the loop and the sequence of the specification -/

/-- The sequence of the specification advances by the body of the loop. -/
theorem claimedLatSeq_succ (a e2 z p : ℝ) (k : Nat) :
    claimedLatSeq a e2 z p (k + 1) =
      atan2 (z + e2 * (a / Real.sqrt (1 - e2 * Real.sin (claimedLatSeq a e2 z p k) *
        Real.sin (claimedLatSeq a e2 z p k))) * Real.sin (claimedLatSeq a e2 z p k)) p := by
  show atan2 (z + e2 * (a / Real.sqrt (1 - e2 * Real.sin (claimedLatSeq a e2 z p k) ^ 2)) *
    Real.sin (claimedLatSeq a e2 z p k)) p = _
  simp only [pow_two, mul_assoc]

/-- While the successive differences stay above the tolerance and the cap is not reached,
the loop walks along the sequence of the specification. -/
theorem ecefToGeo_iterate_run (a e2 z p : ℝ) (k : Nat) :
    (∀ j, j < k → tol < |claimedLatSeq a e2 z p (j + 1) - claimedLatSeq a e2 z p j|) →
    k < maxIter →
    ECEFToGeoConverter.iterate a e2 z p (claimedLatSeq a e2 z p 1) (claimedLatSeq a e2 z p 0) 1 =
      ECEFToGeoConverter.iterate a e2 z p (claimedLatSeq a e2 z p (k + 1))
        (claimedLatSeq a e2 z p k) (k + 1) := by
  induction k with
  | zero => intro _ _; rfl
  | succ k ih =>
    intro hgt hk
    rw [ih (fun j hj => hgt j (by omega)) (by omega),
      ecefToGeo_iterate_step _ _ _ _ _ _ _ (hgt k (by omega)) (by omega),
      ← claimedLatSeq_succ]

/-- The latitude the loop is left with, in terms of the sequence of the specification:
`lat_0` when `|lat_0| ≤ 1e-12`, and otherwise the latitude the specification words. -/
theorem ecefToGeo_iterate_eq_claimed (a e2 x y z : ℝ) :
    (ECEFToGeoConverter.iterate a e2 z (Real.sqrt (x * x + y * y))
        (atan2 z (Real.sqrt (x * x + y * y) * (1 - e2))) 0 0).1 =
      if |claimedLatSeq a e2 z (Real.sqrt (x ^ 2 + y ^ 2)) 0| ≤ 1e-12 then
        claimedLatSeq a e2 z (Real.sqrt (x ^ 2 + y ^ 2)) 0
      else claimedLatitude a e2 x y z := by
  have hp : Real.sqrt (x * x + y * y) = Real.sqrt (x ^ 2 + y ^ 2) := by
    rw [pow_two, pow_two]
  rw [hp]
  unfold claimedLatitude
  generalize Real.sqrt (x ^ 2 + y ^ 2) = p
  have h0 : atan2 z (p * (1 - e2)) = claimedLatSeq a e2 z p 0 := rfl
  rw [h0]
  split_ifs with hseed h
  · rw [ecefToGeo_iterate_of_close _ _ _ _ _ _ _ (by rw [sub_zero]; exact hseed)]
  · have hseed' : tol < |claimedLatSeq a e2 z p 0 - 0| := by
      rw [sub_zero]
      exact not_le.mp hseed
    have hspec := Nat.find_spec h
    have hmin : ∀ j, j < Nat.find h →
        tol < |claimedLatSeq a e2 z p (j + 1) - claimedLatSeq a e2 z p j| := by
      intro j hj
      have := Nat.find_min h hj
      rw [not_and] at this
      exact not_le.mp (this (by omega))
    rw [ecefToGeo_iterate_step _ _ _ _ _ _ _ hseed' (by decide), ← claimedLatSeq_succ,
      ecefToGeo_iterate_run a e2 z p (Nat.find h) hmin hspec.1,
      ecefToGeo_iterate_of_close _ _ _ _ _ _ _ hspec.2]
  · have hseed' : tol < |claimedLatSeq a e2 z p 0 - 0| := by
      rw [sub_zero]
      exact not_le.mp hseed
    have hall : ∀ j, j < 99 →
        tol < |claimedLatSeq a e2 z p (j + 1) - claimedLatSeq a e2 z p j| := by
      intro j hj
      by_contra hcon
      exact h ⟨j, by omega, not_lt.mp hcon⟩
    rw [ecefToGeo_iterate_step _ _ _ _ _ _ _ hseed' (by decide), ← claimedLatSeq_succ,
      ecefToGeo_iterate_run a e2 z p 99 hall (by decide),
      ecefToGeo_iterate_of_cap _ _ _ _ _ _ _ (by decide)]

/-- For `t ≥ 0`, `0 ≤ arctan t ≤ t`. -/
theorem arctan_nonneg_le (t : ℝ) (ht : 0 ≤ t) : 0 ≤ Real.arctan t ∧ Real.arctan t ≤ t := by
  have h0 : 0 ≤ Real.arctan t := by
    have := Real.arctan_strictMono.monotone ht
    rwa [Real.arctan_zero] at this
  refine ⟨h0, ?_⟩
  have hpi := Real.pi_lt_d2
  have hlt := Real.arctan_lt_pi_div_two t
  have hcos : 0 < Real.cos (Real.arctan t) := Real.cos_arctan_pos t
  have htan : Real.sin (Real.arctan t) = t * Real.cos (Real.arctan t) := by
    have h := Real.tan_arctan t
    rw [Real.tan_eq_sin_div_cos, div_eq_iff hcos.ne'] at h
    exact h
  -- on `[0, 1]` the series bounds give `h * cos h ≤ sin h`
  have hhalf : Real.arctan t / 2 * Real.cos (Real.arctan t / 2) ≤ Real.sin (Real.arctan t / 2) := by
    have hh0 : 0 ≤ Real.arctan t / 2 := by linarith
    have hh1 : Real.arctan t / 2 ≤ 1 := by linarith
    rcases hh0.eq_or_lt with hz | hpos
    · rw [← hz]; simp
    · have hs := Real.sin_gt_sub_cube hpos hh1
      have hc := (abs_le.mp (Real.cos_bound (abs_le.mpr ⟨by linarith, hh1⟩))).2
      rw [abs_of_pos hpos] at hc
      generalize Real.arctan t / 2 = h at *
      generalize Real.sin h = s at *
      generalize Real.cos h = c at *
      have h2 : h ^ 2 ≤ 1 := by nlinarith
      have h3 : 0 < h ^ 3 := by positivity
      have h4 : h * c ≤ h * (1 - h ^ 2 / 2 + h ^ 4 * (5 / 96)) :=
        mul_le_mul_of_nonneg_left (by linarith) hpos.le
      nlinarith
  have hch : 0 < Real.cos (Real.arctan t / 2) :=
    Real.cos_pos_of_mem_Ioo ⟨by linarith, by linarith⟩
  have hsh : 0 ≤ Real.sin (Real.arctan t / 2) :=
    Real.sin_nonneg_of_nonneg_of_le_pi (by linarith) (by linarith)
  have hs2 : Real.sin (Real.arctan t) =
      2 * Real.sin (Real.arctan t / 2) * Real.cos (Real.arctan t / 2) := by
    rw [← Real.sin_two_mul]; congr 1; ring
  have hc2 : Real.cos (Real.arctan t) =
      2 * Real.cos (Real.arctan t / 2) ^ 2 - 1 := by
    rw [← Real.cos_two_mul]; congr 1; ring
  have hsq := Real.sin_sq_add_cos_sq (Real.arctan t / 2)
  generalize Real.arctan t = l at *
  generalize Real.sin (l / 2) = s at *
  generalize Real.cos (l / 2) = c at *
  generalize Real.sin l = S at *
  generalize Real.cos l = C at *
  -- `l * C ≤ S`
  have key : l * C ≤ S := by
    rw [hs2, hc2]
    have e1 : l / 2 * c * c ≤ s * c := mul_le_mul_of_nonneg_right hhalf hch.le
    have e2 : 0 ≤ l * s ^ 2 := by positivity
    nlinarith
  rw [htan] at key
  exact le_of_mul_le_mul_right key hcos

/-- Numeric core of the counterexample of C12: on an ellipsoid with `a = 6378137` and
`0 < e2 < 0.0067`, at `p = 6379137` and `z = 10⁻⁶` the seed `lat_0` is within the tolerance
of 0, `lat_1` is within the tolerance of `lat_0`, and `lat_1 ≠ lat_0`. -/
theorem claimedLatSeq_near_equator (e : ℝ) (he0 : 0 < e) (he1 : e < 67 / 10000) :
    |claimedLatSeq 6378137 e (1 / 1000000) 6379137 0| ≤ 1e-12 ∧
      |claimedLatSeq 6378137 e (1 / 1000000) 6379137 1 -
        claimedLatSeq 6378137 e (1 / 1000000) 6379137 0| ≤ 1e-12 ∧
      claimedLatSeq 6378137 e (1 / 1000000) 6379137 1 ≠
        claimedLatSeq 6378137 e (1 / 1000000) 6379137 0 := by
  have htol : (1e-12 : ℝ) = 1 / 10 ^ 12 := by norm_num
  -- the seed `lat_0 = arctan t0`
  have hden : (0 : ℝ) < 6379137 * (1 - e) := by nlinarith
  have hL0 : claimedLatSeq 6378137 e (1 / 1000000) 6379137 0 =
      Real.arctan (1 / 1000000 / (6379137 * (1 - e))) :=
    atan2_eq_arctan _ _ hden
  have ht0 : 0 < (1 / 1000000 : ℝ) / (6379137 * (1 - e)) := by positivity
  have ht0' : (1 / 1000000 : ℝ) / (6379137 * (1 - e)) ≤ 2 / 10 ^ 13 := by
    rw [div_le_iff₀ hden]
    nlinarith
  obtain ⟨-, hL0b⟩ := arctan_nonneg_le _ ht0.le
  have hL0pos : 0 < Real.arctan (1 / 1000000 / (6379137 * (1 - e))) := by
    have := Real.arctan_strictMono ht0
    rwa [Real.arctan_zero] at this
  -- `lat_1 = arctan t1`
  have hL1 : claimedLatSeq 6378137 e (1 / 1000000) 6379137 1 =
      Real.arctan ((1 / 1000000 + e * (6378137 / Real.sqrt (1 - e *
        Real.sin (Real.arctan (1 / 1000000 / (6379137 * (1 - e)))) ^ 2)) *
        Real.sin (Real.arctan (1 / 1000000 / (6379137 * (1 - e))))) / 6379137) := by
    show atan2 (1 / 1000000 + e * (6378137 / Real.sqrt (1 - e *
      Real.sin (claimedLatSeq 6378137 e (1 / 1000000) 6379137 0) ^ 2)) *
      Real.sin (claimedLatSeq 6378137 e (1 / 1000000) 6379137 0)) 6379137 = _
    rw [hL0]
    exact atan2_eq_arctan _ _ (by norm_num)
  rw [hL1, hL0]
  have ht0eq : (1 / 1000000 : ℝ) / (6379137 * (1 - e)) * (6379137 * (1 - e)) = 1 / 1000000 :=
    div_mul_cancel₀ _ hden.ne'
  generalize (1 / 1000000 : ℝ) / (6379137 * (1 - e)) = t0 at *
  generalize hl : Real.arctan t0 = l at *
  have hlpi : l < Real.pi := by
    have := Real.pi_gt_three
    linarith
  have hs0 : 0 < Real.sin l := Real.sin_pos_of_pos_of_lt_pi hL0pos hlpi
  have hs1 : Real.sin l ≤ l := Real.sin_le hL0pos.le
  generalize Real.sin l = s at *
  have hs2 : s ≤ 2 / 10 ^ 13 := by linarith
  have hrad : (9999 / 10000 : ℝ) ^ 2 ≤ 1 - e * s ^ 2 := by nlinarith
  have hA : (9999 / 10000 : ℝ) ≤ Real.sqrt (1 - e * s ^ 2) :=
    Real.le_sqrt_of_sq_le hrad
  have hN0 : 0 < 6378137 / Real.sqrt (1 - e * s ^ 2) := by positivity
  have hN1 : 6378137 / Real.sqrt (1 - e * s ^ 2) ≤ 6378775 := by
    rw [div_le_iff₀ (by linarith)]
    nlinarith
  generalize (6378137 : ℝ) / Real.sqrt (1 - e * s ^ 2) = N at *
  have hst : s ≤ t0 := by linarith
  have hNs : N * s < 6379137 * t0 := by nlinarith
  have hnum : 1 / 1000000 + e * N * s < 6379137 * t0 := by
    have h1 : e * (N * s) < e * (6379137 * t0) := mul_lt_mul_of_pos_left hNs he0
    nlinarith
  have ht1 : (1 / 1000000 + e * N * s) / 6379137 < t0 := by
    rw [div_lt_iff₀ (by norm_num)]
    linarith
  have ht1pos : 0 < (1 / 1000000 + e * N * s) / 6379137 := by positivity
  obtain ⟨hL1a, hL1b⟩ := arctan_nonneg_le _ ht1pos.le
  have hlt : Real.arctan ((1 / 1000000 + e * N * s) / 6379137) < l := by
    rw [← hl]
    exact Real.arctan_strictMono ht1
  refine ⟨?_, ?_, hlt.ne⟩
  · rw [abs_of_pos hL0pos, htol]
    have : (2 : ℝ) / 10 ^ 13 ≤ 1 / 10 ^ 12 := by norm_num
    linarith
  · rw [abs_sub_comm, abs_of_pos (sub_pos.mpr hlt), htol]
    have : (2 : ℝ) / 10 ^ 13 ≤ 1 / 10 ^ 12 := by norm_num
    linarith

/-! ## Lemmas: accuracy of the latitude loop -/

/-- Lemma: `sin` is 1-Lipschitz. -/
theorem abs_sin_sub_sin_le (x y : ℝ) : |Real.sin x - Real.sin y| ≤ |x - y| := by
  rw [Real.sin_sub_sin, abs_mul, abs_mul]
  have h1 : |Real.sin ((x - y) / 2)| ≤ |(x - y) / 2| := Real.abs_sin_le_abs
  have h2 : |Real.cos ((x + y) / 2)| ≤ 1 := Real.abs_cos_le_one _
  have h3 : |(x - y) / 2| = |x - y| / 2 := by
    rw [abs_div, abs_of_pos (by norm_num : (0 : ℝ) < 2)]
  have h4 : (0 : ℝ) ≤ |Real.sin ((x - y) / 2)| := abs_nonneg _
  have h5 : (0 : ℝ) ≤ |Real.cos ((x + y) / 2)| := abs_nonneg _
  rw [abs_of_pos (by norm_num : (0 : ℝ) < 2)]
  nlinarith

/-- Lemma: `cos` is 1-Lipschitz. -/
theorem abs_cos_sub_cos_le (x y : ℝ) : |Real.cos x - Real.cos y| ≤ |x - y| := by
  rw [Real.cos_sub_cos, abs_mul, abs_mul]
  have h1 : |Real.sin ((x - y) / 2)| ≤ |(x - y) / 2| := Real.abs_sin_le_abs
  have h2 : |Real.sin ((x + y) / 2)| ≤ 1 := Real.abs_sin_le_one _
  have h3 : |(x - y) / 2| = |x - y| / 2 := by
    rw [abs_div, abs_of_pos (by norm_num : (0 : ℝ) < 2)]
  have h4 : (0 : ℝ) ≤ |Real.sin ((x - y) / 2)| := abs_nonneg _
  have h5 : (0 : ℝ) ≤ |Real.sin ((x + y) / 2)| := abs_nonneg _
  have h6 : |(-2 : ℝ)| = 2 := by norm_num
  rw [h6]
  nlinarith

/-- Lemma: `arctan` is 1-Lipschitz. -/
theorem abs_arctan_sub_arctan_le (x y : ℝ) : |Real.arctan x - Real.arctan y| ≤ |x - y| := by
  have main : ∀ u v : ℝ, v ≤ u → Real.arctan u - Real.arctan v ≤ u - v := by
    intro u v huv
    have hd0 : 0 ≤ Real.arctan u - Real.arctan v :=
      sub_nonneg.mpr (Real.arctan_strictMono.monotone huv)
    have hu1 := Real.arctan_lt_pi_div_two u
    have hu2 := Real.neg_pi_div_two_lt_arctan u
    have hv1 := Real.arctan_lt_pi_div_two v
    have hv2 := Real.neg_pi_div_two_lt_arctan v
    have hcu : 0 < Real.cos (Real.arctan u) := Real.cos_arctan_pos u
    have hcv : 0 < Real.cos (Real.arctan v) := Real.cos_arctan_pos v
    have hsu : Real.sin (Real.arctan u) = u * Real.cos (Real.arctan u) := by
      have h := Real.tan_arctan u
      rw [Real.tan_eq_sin_div_cos, div_eq_iff hcu.ne'] at h
      exact h
    have hsv : Real.sin (Real.arctan v) = v * Real.cos (Real.arctan v) := by
      have h := Real.tan_arctan v
      rw [Real.tan_eq_sin_div_cos, div_eq_iff hcv.ne'] at h
      exact h
    -- half of the difference
    have hh0 : 0 ≤ (Real.arctan u - Real.arctan v) / 2 := by linarith
    have hh1 : (Real.arctan u - Real.arctan v) / 2 < Real.pi / 2 := by linarith
    have hch : 0 < Real.cos ((Real.arctan u - Real.arctan v) / 2) :=
      Real.cos_pos_of_mem_Ioo ⟨by linarith, hh1⟩
    have hth : 0 ≤ Real.tan ((Real.arctan u - Real.arctan v) / 2) := by
      rw [Real.tan_eq_sin_div_cos]
      exact div_nonneg (Real.sin_nonneg_of_nonneg_of_le_pi hh0 (by linarith)) hch.le
    have hhalf : (Real.arctan u - Real.arctan v) / 2 *
        Real.cos ((Real.arctan u - Real.arctan v) / 2) ≤
        Real.sin ((Real.arctan u - Real.arctan v) / 2) := by
      have h := (arctan_nonneg_le _ hth).2
      rw [Real.arctan_tan (by linarith) hh1, Real.tan_eq_sin_div_cos, le_div_iff₀ hch] at h
      exact h
    have hsd : Real.sin (Real.arctan u - Real.arctan v) =
        2 * Real.sin ((Real.arctan u - Real.arctan v) / 2) *
          Real.cos ((Real.arctan u - Real.arctan v) / 2) := by
      rw [← Real.sin_two_mul]; congr 1; ring
    have hcd : Real.cos (Real.arctan u - Real.arctan v) =
        2 * Real.cos ((Real.arctan u - Real.arctan v) / 2) ^ 2 - 1 := by
      rw [← Real.cos_two_mul]; congr 1; ring
    have hsd2 := Real.sin_sub (Real.arctan u) (Real.arctan v)
    have hcd2 := Real.cos_sub (Real.arctan u) (Real.arctan v)
    have hca := Real.cos_add (Real.arctan u) (Real.arctan v)
    have hle1 := Real.cos_le_one (Real.arctan u + Real.arctan v)
    generalize Real.arctan u - Real.arctan v = d at *
    generalize Real.sin (d / 2) = s at *
    generalize Real.cos (d / 2) = c at *
    rw [hsu, hsv] at hsd2 hcd2 hca
    generalize Real.cos (Real.arctan u) = cu at *
    generalize Real.cos (Real.arctan v) = cv at *
    generalize Real.cos (Real.arctan u + Real.arctan v) = ca at *
    generalize Real.sin d = sd at *
    generalize Real.cos d = cd at *
    -- `cu * cv ≤ c ^ 2` and `sd = (u - v) * cu * cv`
    have hP : 0 < cu * cv := mul_pos hcu hcv
    have h1 : cu * cv ≤ c ^ 2 := by nlinarith
    have h2 : sd = (u - v) * (cu * cv) := by rw [hsd2]; ring
    have h3 : d * (cu * cv) ≤ d * c ^ 2 := mul_le_mul_of_nonneg_left h1 (by linarith)
    have h4 : d / 2 * c * c ≤ s * c := mul_le_mul_of_nonneg_right hhalf hch.le
    have h5 : d * (cu * cv) ≤ (u - v) * (cu * cv) := by
      rw [← h2, hsd]; nlinarith
    exact le_of_mul_le_mul_right h5 hP
  rcases le_total y x with h | h
  · rw [abs_of_nonneg (sub_nonneg.mpr (Real.arctan_strictMono.monotone h)),
      abs_of_nonneg (sub_nonneg.mpr h)]
    exact main x y h
  · rw [abs_sub_comm, abs_sub_comm x y,
      abs_of_nonneg (sub_nonneg.mpr (Real.arctan_strictMono.monotone h)),
      abs_of_nonneg (sub_nonneg.mpr h)]
    exact main y x h

/-- Lemma: on `[-1, 1]` the map `u ↦ u / √(1 − e2·u²)` is Lipschitz with constant
`(1 + e2/c0)/c0²`, where `c0 > 0` is any number with `c0² ≤ 1 − e2`. -/
theorem abs_radial_sub_le (e2 c0 u v : ℝ) (he0 : 0 ≤ e2) (hc0 : 0 < c0)
    (hc : c0 ^ 2 ≤ 1 - e2) (hu : |u| ≤ 1) (hv : |v| ≤ 1) :
    |u / Real.sqrt (1 - e2 * u * u) - v / Real.sqrt (1 - e2 * v * v)| ≤
      (1 + e2 / c0) / c0 ^ 2 * |u - v| := by
  obtain ⟨hu1, hu2⟩ := abs_le.mp hu
  obtain ⟨hv1, hv2⟩ := abs_le.mp hv
  have huu : u * u ≤ 1 := by nlinarith
  have hvv : v * v ≤ 1 := by nlinarith
  have hradu : c0 ^ 2 ≤ 1 - e2 * u * u := by nlinarith [mul_nonneg he0 (mul_self_nonneg u)]
  have hradv : c0 ^ 2 ≤ 1 - e2 * v * v := by nlinarith [mul_nonneg he0 (mul_self_nonneg v)]
  have hA0 : c0 ≤ Real.sqrt (1 - e2 * u * u) := Real.le_sqrt_of_sq_le hradu
  have hB0 : c0 ≤ Real.sqrt (1 - e2 * v * v) := Real.le_sqrt_of_sq_le hradv
  have hA2 : Real.sqrt (1 - e2 * u * u) * Real.sqrt (1 - e2 * u * u) = 1 - e2 * u * u :=
    Real.mul_self_sqrt (by nlinarith)
  have hB2 : Real.sqrt (1 - e2 * v * v) * Real.sqrt (1 - e2 * v * v) = 1 - e2 * v * v :=
    Real.mul_self_sqrt (by nlinarith)
  generalize Real.sqrt (1 - e2 * u * u) = A at *
  generalize Real.sqrt (1 - e2 * v * v) = B at *
  have hA : 0 < A := by linarith
  have hB : 0 < B := by linarith
  have hA1 : A ≤ 1 := by nlinarith [mul_nonneg he0 (mul_self_nonneg u)]
  have hB1 : B ≤ 1 := by nlinarith [mul_nonneg he0 (mul_self_nonneg v)]
  have hkey : (u * B - v * A) * (A + B) = (u - v) * (B * (A + B) + e2 * v * (u + v)) := by
    linear_combination (-v) * hA2 + v * hB2
  have habsv : |e2 * v * (u + v)| ≤ 2 * e2 := by
    rw [abs_mul, abs_mul, abs_of_nonneg he0]
    have h1 : |u + v| ≤ 2 := (abs_add u v).trans (by linarith)
    have h2 : |v| * |u + v| ≤ 1 * 2 :=
      mul_le_mul hv h1 (abs_nonneg _) (by norm_num)
    nlinarith [mul_le_mul_of_nonneg_left h2 he0]
  have hnum : |u * B - v * A| ≤ (1 + e2 / c0) * |u - v| := by
    have hAB : 0 < A + B := by linarith
    have h1 : |u * B - v * A| * (A + B) = |u - v| * |B * (A + B) + e2 * v * (u + v)| := by
      rw [← abs_of_pos hAB, ← abs_mul, hkey, abs_mul, abs_of_pos hAB]
    have h2 : |B * (A + B) + e2 * v * (u + v)| ≤ B * (A + B) + 2 * e2 := by
      refine (abs_add _ _).trans ?_
      rw [abs_of_pos (mul_pos hB hAB)]
      linarith
    have h3 : B * (A + B) + 2 * e2 ≤ (1 + e2 / c0) * (A + B) := by
      have h4 : 2 * e2 ≤ e2 / c0 * (A + B) := by
        rw [div_mul_eq_mul_div, le_div_iff₀ hc0]
        have := mul_le_mul_of_nonneg_left (by linarith : 2 * c0 ≤ A + B) he0
        linarith
      have h6 : B * (A + B) ≤ 1 * (A + B) := mul_le_mul_of_nonneg_right hB1 hAB.le
      have h7 : (1 + e2 / c0) * (A + B) = 1 * (A + B) + e2 / c0 * (A + B) := by ring
      linarith
    have h5 : |u * B - v * A| * (A + B) ≤ (1 + e2 / c0) * |u - v| * (A + B) := by
      rw [h1]
      calc |u - v| * |B * (A + B) + e2 * v * (u + v)|
          ≤ |u - v| * ((1 + e2 / c0) * (A + B)) :=
            mul_le_mul_of_nonneg_left (h2.trans h3) (abs_nonneg _)
        _ = (1 + e2 / c0) * |u - v| * (A + B) := by ring
    exact le_of_mul_le_mul_right h5 hAB
  have hdiff : u / A - v / B = (u * B - v * A) / (A * B) := by
    rw [div_sub_div _ _ hA.ne' hB.ne', mul_comm A v]
  rw [hdiff, abs_div, abs_of_pos (mul_pos hA hB), div_le_iff₀ (mul_pos hA hB)]
  have hAB2 : c0 ^ 2 ≤ A * B := by
    have := mul_le_mul hA0 hB0 hc0.le hA.le
    rw [pow_two]
    exact this
  have hK : 0 ≤ (1 + e2 / c0) * |u - v| :=
    mul_nonneg (add_nonneg zero_le_one (div_nonneg he0 hc0.le)) (abs_nonneg _)
  have hc2 : 0 < c0 ^ 2 := pow_pos hc0 2
  have hre : (1 + e2 / c0) / c0 ^ 2 * |u - v| * (A * B) =
      (1 + e2 / c0) * |u - v| * (A * B) / c0 ^ 2 := by ring
  rw [hre, le_div_iff₀ hc2]
  exact (mul_le_mul_of_nonneg_right hnum hc2.le).trans (mul_le_mul_of_nonneg_left hAB2 hK)

/-- Lemma: for `p > 0` one pass of the loop body is Lipschitz in the latitude, with
constant `e2·a·(1 + e2/c0)/c0² / p`. -/
theorem latStep_lipschitz (a e2 c0 Z p l m : ℝ) (ha : 0 ≤ a) (he0 : 0 ≤ e2) (hc0 : 0 < c0)
    (hc : c0 ^ 2 ≤ 1 - e2) (hp : 0 < p) :
    |ECEFToGeoConverter.latStep a e2 Z p l - ECEFToGeoConverter.latStep a e2 Z p m| ≤
      e2 * a * ((1 + e2 / c0) / c0 ^ 2) / p * |l - m| := by
  unfold ECEFToGeoConverter.latStep
  rw [atan2_eq_arctan _ _ hp, atan2_eq_arctan _ _ hp]
  refine (abs_arctan_sub_arctan_le _ _).trans ?_
  have h1 : (Z + e2 * (a / Real.sqrt (1 - e2 * Real.sin l * Real.sin l)) * Real.sin l) / p -
      (Z + e2 * (a / Real.sqrt (1 - e2 * Real.sin m * Real.sin m)) * Real.sin m) / p =
      e2 * a / p * (Real.sin l / Real.sqrt (1 - e2 * Real.sin l * Real.sin l) -
        Real.sin m / Real.sqrt (1 - e2 * Real.sin m * Real.sin m)) := by
    ring
  have h2 := abs_radial_sub_le e2 c0 (Real.sin l) (Real.sin m) he0 hc0 hc
    (Real.abs_sin_le_one l) (Real.abs_sin_le_one m)
  have h3 := abs_sin_sub_sin_le l m
  have hK : 0 ≤ (1 + e2 / c0) / c0 ^ 2 := by positivity
  have hE : 0 ≤ e2 * a / p := by positivity
  rw [h1, abs_mul, abs_of_nonneg hE]
  calc e2 * a / p * |Real.sin l / Real.sqrt (1 - e2 * Real.sin l * Real.sin l) -
        Real.sin m / Real.sqrt (1 - e2 * Real.sin m * Real.sin m)|
      ≤ e2 * a / p * ((1 + e2 / c0) / c0 ^ 2 * |l - m|) :=
        mul_le_mul_of_nonneg_left (h2.trans (mul_le_mul_of_nonneg_left h3 hK)) hE
    _ = e2 * a * ((1 + e2 / c0) / c0 ^ 2) / p * |l - m| := by ring

/-- Lemma: the error of the latitude the loop is left with, when one pass of the body
brings every latitude at least twice as close to `φ`: started right after a pass, the
loop ends within the tolerance of `φ`, or within `q^(n+1)` times the error before that pass
where `n` is the number of passes still allowed. -/
theorem ecefToGeo_iterate_error (a e2 Z p φ q : ℝ) (hq0 : 0 ≤ q) (hq : q ≤ 1 / 2)
    (hc : ∀ l, |ECEFToGeoConverter.latStep a e2 Z p l - φ| ≤ q * |l - φ|) (n : Nat) :
    ∀ (prev : ℝ) (iter : Nat), maxIter - iter = n →
      |(ECEFToGeoConverter.iterate a e2 Z p (ECEFToGeoConverter.latStep a e2 Z p prev)
          prev iter).1 - φ| ≤ max tol (q ^ (n + 1) * |prev - φ|) := by
  induction n with
  | zero =>
    intro prev iter hn
    rw [ecefToGeo_iterate_of_cap _ _ _ _ _ _ _ (by omega)]
    refine le_max_of_le_right ?_
    simpa using hc prev
  | succ n ih =>
    intro prev iter hn
    by_cases h1 : tol < |ECEFToGeoConverter.latStep a e2 Z p prev - prev|
    · rw [ecefToGeo_iterate_step _ _ _ _ _ _ _ h1 (by omega)]
      refine (ih _ _ (by omega)).trans (max_le_max le_rfl ?_)
      have := mul_le_mul_of_nonneg_left (hc prev) (pow_nonneg hq0 (n + 1))
      calc q ^ (n + 1) * |ECEFToGeoConverter.latStep a e2 Z p prev - φ|
          ≤ q ^ (n + 1) * (q * |prev - φ|) := this
        _ = q ^ (n + 1 + 1) * |prev - φ| := by ring
    · rw [ecefToGeo_iterate_of_close _ _ _ _ _ _ _ (not_lt.mp h1)]
      refine le_max_of_le_left ?_
      have h2 := hc prev
      have h3 : |prev - φ| ≤ |ECEFToGeoConverter.latStep a e2 Z p prev - prev| +
          |ECEFToGeoConverter.latStep a e2 Z p prev - φ| := by
        have := abs_sub_le prev (ECEFToGeoConverter.latStep a e2 Z p prev) φ
        rwa [abs_sub_comm prev (ECEFToGeoConverter.latStep a e2 Z p prev)] at this
      have h4 := not_lt.mp h1
      have h5 : 0 ≤ |prev - φ| := abs_nonneg _
      nlinarith

/-- Lemma: the true latitude is a fixed point of the loop body.  Here `N` stands for the
prime-vertical radius at `φ`, and the point is `p = (N + h)·cos φ`,
`Z = ((1 − e2)·N + h)·sin φ`. -/
theorem latStep_fixed (a e2 φ h : ℝ) (hφ1 : -(Real.pi / 2) < φ) (hφ2 : φ < Real.pi / 2)
    (hr : 0 < a / Real.sqrt (1 - e2 * Real.sin φ * Real.sin φ) + h) :
    ECEFToGeoConverter.latStep a e2
        (((1 - e2) * (a / Real.sqrt (1 - e2 * Real.sin φ * Real.sin φ)) + h) * Real.sin φ)
        ((a / Real.sqrt (1 - e2 * Real.sin φ * Real.sin φ) + h) * Real.cos φ) φ = φ := by
  unfold ECEFToGeoConverter.latStep
  generalize a / Real.sqrt (1 - e2 * Real.sin φ * Real.sin φ) = N at *
  have h1 : ((1 - e2) * N + h) * Real.sin φ + e2 * N * Real.sin φ = (N + h) * Real.sin φ := by
    ring
  rw [h1]
  exact atan2_polar _ _ hr (by linarith [Real.pi_pos]) (by linarith [Real.pi_pos])

/-- Lemma: the seed latitude `lat_0 = atan2(Z, p·(1 − e2))` of a point at latitude `φ` and
altitude `h ≥ 0` lies on the same side of the equator as `φ` and beyond it, so that
`|lat_0 − φ| ≤ |lat_0| < π/2`. -/
theorem seed_error (e2 N φ h : ℝ) (hφ1 : -(Real.pi / 2) < φ) (hφ2 : φ < Real.pi / 2)
    (he0 : 0 ≤ e2) (he1 : e2 < 1) (hN : 0 < N) (hh : 0 ≤ h) :
    |atan2 (((1 - e2) * N + h) * Real.sin φ) ((N + h) * Real.cos φ * (1 - e2)) - φ| ≤
        |atan2 (((1 - e2) * N + h) * Real.sin φ) ((N + h) * Real.cos φ * (1 - e2))| ∧
      |atan2 (((1 - e2) * N + h) * Real.sin φ) ((N + h) * Real.cos φ * (1 - e2))| <
        Real.pi / 2 := by
  have hcos : 0 < Real.cos φ := Real.cos_pos_of_mem_Ioo ⟨hφ1, hφ2⟩
  have hden : 0 < (N + h) * Real.cos φ * (1 - e2) :=
    mul_pos (mul_pos (by linarith) hcos) (by linarith)
  rw [atan2_eq_arctan _ _ hden]
  have hφ : Real.arctan (Real.sin φ / Real.cos φ) = φ := by
    rw [← Real.tan_eq_sin_div_cos, Real.arctan_tan hφ1 hφ2]
  have hlt : |Real.arctan (((1 - e2) * N + h) * Real.sin φ / ((N + h) * Real.cos φ * (1 - e2)))| <
      Real.pi / 2 :=
    abs_lt.mpr ⟨Real.neg_pi_div_two_lt_arctan _, Real.arctan_lt_pi_div_two _⟩
  refine ⟨?_, hlt⟩
  have heh : 0 ≤ e2 * h := mul_nonneg he0 hh
  rcases le_or_lt 0 (Real.sin φ) with hs | hs
  · -- northern side: 0 ≤ tan φ ≤ t0
    have ht : Real.sin φ / Real.cos φ ≤
        ((1 - e2) * N + h) * Real.sin φ / ((N + h) * Real.cos φ * (1 - e2)) := by
      rw [div_le_div_iff₀ hcos hden]
      nlinarith [mul_nonneg hs hcos.le, mul_nonneg (mul_nonneg hs hcos.le) heh]
    have h0 : 0 ≤ Real.sin φ / Real.cos φ := div_nonneg hs hcos.le
    have hφ0 : 0 ≤ φ := by
      rw [← hφ]
      exact (arctan_nonneg_le _ h0).1
    have hle := Real.arctan_strictMono.monotone ht
    rw [hφ] at hle
    rw [abs_of_nonneg (by linarith), abs_of_nonneg (by linarith)]
    linarith
  · -- southern side: t0 ≤ tan φ ≤ 0
    have ht : ((1 - e2) * N + h) * Real.sin φ / ((N + h) * Real.cos φ * (1 - e2)) ≤
        Real.sin φ / Real.cos φ := by
      rw [div_le_div_iff₀ hden hcos]
      nlinarith [mul_nonneg (neg_nonneg.mpr hs.le) hcos.le,
        mul_nonneg (mul_nonneg (neg_nonneg.mpr hs.le) hcos.le) heh]
    have h0 : Real.sin φ / Real.cos φ ≤ 0 := div_nonpos_of_nonpos_of_nonneg hs.le hcos.le
    have hφ0 : φ ≤ 0 := by
      rw [← hφ]
      have := Real.arctan_strictMono.monotone h0
      rwa [Real.arctan_zero] at this
    have hle := Real.arctan_strictMono.monotone ht
    rw [hφ] at hle
    rw [abs_of_nonpos (by linarith), abs_of_nonpos (by linarith)]
    linarith



/-- Lemma: the altitude recomputed at a latitude `l` within `δ` of the true latitude `φ`
differs from the true altitude `h` by at most `(N + h)·δ/(c1 − δ) + a·e2·δ/c0³`, where
`N` is the prime-vertical radius at `φ`, `c1 ≤ cos φ` and `c0² ≤ 1 − e2`. -/
theorem altitude_error (a e2 c0 c1 δ φ l h : ℝ) (ha : 0 ≤ a) (he0 : 0 ≤ e2) (hc0 : 0 < c0)
    (hc : c0 ^ 2 ≤ 1 - e2) (hδ : |l - φ| ≤ δ) (hc1 : c1 ≤ Real.cos φ) (hδ1 : δ < c1)
    (hh : 0 ≤ h) :
    |(a / Real.sqrt (1 - e2 * Real.sin φ * Real.sin φ) + h) * Real.cos φ / Real.cos l -
        a / Real.sqrt (1 - e2 * Real.sin l * Real.sin l) - h| ≤
      (a / Real.sqrt (1 - e2 * Real.sin φ * Real.sin φ) + h) * δ / (c1 - δ) +
        a * e2 * δ / c0 ^ 3 := by
  have hδ0 : 0 ≤ δ := (abs_nonneg _).trans hδ
  -- the two radicals
  have hsφ : Real.sin φ * Real.sin φ ≤ 1 := by
    have := Real.sin_sq_le_one φ
    rwa [pow_two] at this
  have hsl : Real.sin l * Real.sin l ≤ 1 := by
    have := Real.sin_sq_le_one l
    rwa [pow_two] at this
  have hradφ : c0 ^ 2 ≤ 1 - e2 * Real.sin φ * Real.sin φ := by
    have := mul_le_mul_of_nonneg_left hsφ he0
    rw [mul_assoc]
    linarith
  have hradl : c0 ^ 2 ≤ 1 - e2 * Real.sin l * Real.sin l := by
    have := mul_le_mul_of_nonneg_left hsl he0
    rw [mul_assoc]
    linarith
  have hc2 : 0 < c0 ^ 2 := pow_pos hc0 2
  have hA0 : c0 ≤ Real.sqrt (1 - e2 * Real.sin φ * Real.sin φ) := Real.le_sqrt_of_sq_le hradφ
  have hB0 : c0 ≤ Real.sqrt (1 - e2 * Real.sin l * Real.sin l) := Real.le_sqrt_of_sq_le hradl
  have hA2 : Real.sqrt (1 - e2 * Real.sin φ * Real.sin φ) *
      Real.sqrt (1 - e2 * Real.sin φ * Real.sin φ) = 1 - e2 * Real.sin φ * Real.sin φ :=
    Real.mul_self_sqrt (by linarith)
  have hB2 : Real.sqrt (1 - e2 * Real.sin l * Real.sin l) *
      Real.sqrt (1 - e2 * Real.sin l * Real.sin l) = 1 - e2 * Real.sin l * Real.sin l :=
    Real.mul_self_sqrt (by linarith)
  have hsin : |Real.sin l - Real.sin φ| ≤ δ := (abs_sin_sub_sin_le l φ).trans hδ
  have hcosd : |Real.cos φ - Real.cos l| ≤ δ := by
    rw [abs_sub_comm]
    exact (abs_cos_sub_cos_le l φ).trans hδ
  have hsum : |Real.sin l + Real.sin φ| ≤ 2 := by
    refine (abs_add _ _).trans ?_
    have := Real.abs_sin_le_one l
    have := Real.abs_sin_le_one φ
    linarith
  have hcosl : c1 - δ ≤ Real.cos l := by
    have := (abs_le.mp hcosd).2
    linarith
  generalize Real.sqrt (1 - e2 * Real.sin φ * Real.sin φ) = A at *
  generalize Real.sqrt (1 - e2 * Real.sin l * Real.sin l) = B at *
  generalize Real.sin φ = s at *
  generalize Real.sin l = t at *
  generalize Real.cos φ = cφ at *
  generalize Real.cos l = cl at *
  have hA : 0 < A := by linarith
  have hB : 0 < B := by linarith
  have hcl : 0 < cl := by linarith
  have hNh : 0 ≤ a / A + h := add_nonneg (div_nonneg ha hA.le) hh
  -- split the error
  have hsplit : (a / A + h) * cφ / cl - a / B - h =
      (a / A + h) * ((cφ - cl) / cl) + a * ((B - A) / (A * B)) := by
    field_simp
    ring
  have h1 : |(a / A + h) * ((cφ - cl) / cl)| ≤ (a / A + h) * δ / (c1 - δ) := by
    rw [abs_mul, abs_of_nonneg hNh, abs_div, abs_of_pos hcl, mul_div_assoc]
    apply mul_le_mul_of_nonneg_left _ hNh
    exact div_le_div₀ hδ0 hcosd (by linarith) hcosl
  have hBA : |B - A| ≤ e2 * δ / c0 := by
    have hAB : 0 < A + B := by linarith
    have hid : (B - A) * (A + B) = e2 * ((s - t) * (t + s)) := by
      linear_combination hB2 - hA2
    have h3 : |B - A| * (A + B) ≤ e2 * (δ * 2) := by
      rw [← abs_of_pos hAB, ← abs_mul, hid, abs_mul, abs_of_nonneg he0, abs_mul,
        abs_sub_comm s t]
      exact mul_le_mul_of_nonneg_left (mul_le_mul hsin hsum (abs_nonneg _) hδ0) he0
    rw [le_div_iff₀ hc0]
    have h4 : |B - A| * (2 * c0) ≤ |B - A| * (A + B) :=
      mul_le_mul_of_nonneg_left (by linarith) (abs_nonneg _)
    linarith
  have h2 : |a * ((B - A) / (A * B))| ≤ a * e2 * δ / c0 ^ 3 := by
    rw [abs_mul, abs_of_nonneg ha, abs_div, abs_of_pos (mul_pos hA hB)]
    have hAB2 : c0 ^ 2 ≤ A * B := by
      rw [pow_two]
      exact mul_le_mul hA0 hB0 hc0.le hA.le
    have h5 : |B - A| / (A * B) ≤ e2 * δ / c0 / c0 ^ 2 :=
      div_le_div₀ (div_nonneg (mul_nonneg he0 hδ0) hc0.le) hBA hc2 hAB2
    have h6 : a * e2 * δ / c0 ^ 3 = a * (e2 * δ / c0 / c0 ^ 2) := by
      field_simp
      ring
    rw [h6]
    exact mul_le_mul_of_nonneg_left h5 ha
  rw [hsplit]
  exact (abs_add _ _).trans (add_le_add h1 h2)




/-- Lemma: `cos φ ≥ 0.0174` for a latitude within 89° of the equator. -/
theorem cos_ge_of_abs_le_89 (φ : ℝ) (hφ : |φ| ≤ 89 * Real.pi / 180) :
    (174 / 10000 : ℝ) ≤ Real.cos φ := by
  have hpi1 := Real.pi_gt_d2
  have hpi2 := Real.pi_lt_d2
  have h1 : Real.cos (89 * Real.pi / 180) ≤ Real.cos |φ| :=
    Real.cos_le_cos_of_nonneg_of_le_pi (abs_nonneg _) (by linarith) hφ
  rw [Real.cos_abs] at h1
  have h2 : Real.cos (89 * Real.pi / 180) = Real.sin (Real.pi / 180) := by
    rw [← Real.cos_pi_div_two_sub]
    congr 1
    ring
  have h3 : Real.pi / 180 - (Real.pi / 180) ^ 3 / 4 < Real.sin (Real.pi / 180) :=
    Real.sin_gt_sub_cube (by positivity) (by linarith)
  have h4 : (174 / 10000 : ℝ) ≤ Real.pi / 180 - (Real.pi / 180) ^ 3 / 4 := by
    have hx1 : (314 / 18000 : ℝ) < Real.pi / 180 := by linarith
    have hx2 : Real.pi / 180 < 315 / 18000 := by linarith
    generalize Real.pi / 180 = x at *
    have hx3 : x ^ 3 ≤ (315 / 18000) ^ 3 := pow_le_pow_left₀ (by linarith) hx2.le 3
    norm_num at hx3 ⊢
    linarith
  linarith



/-- Lemma: for a point at latitude `φ` (strictly between the poles) and altitude `h ≥ 0`
on an ellipsoid with `a > 0`, `0 ≤ e2` and `c0² ≤ 1 − e2`, if the Lipschitz constant of the
loop body is at most 1/2, the latitude the loop is left with is within the tolerance of
`φ`. -/
theorem ecefToGeo_latitude_error (a e2 c0 φ h : ℝ) (ha : 0 < a) (he0 : 0 ≤ e2)
    (hc0 : 0 < c0) (hc : c0 ^ 2 ≤ 1 - e2)
    (hφ1 : -(Real.pi / 2) < φ) (hφ2 : φ < Real.pi / 2) (hh : 0 ≤ h)
    (hq : e2 * a * ((1 + e2 / c0) / c0 ^ 2) ≤
      1 / 2 * ((a / Real.sqrt (1 - e2 * Real.sin φ * Real.sin φ) + h) * Real.cos φ)) :
    |(ECEFToGeoConverter.iterate a e2
        (((1 - e2) * (a / Real.sqrt (1 - e2 * Real.sin φ * Real.sin φ)) + h) * Real.sin φ)
        ((a / Real.sqrt (1 - e2 * Real.sin φ * Real.sin φ) + h) * Real.cos φ)
        (atan2
          (((1 - e2) * (a / Real.sqrt (1 - e2 * Real.sin φ * Real.sin φ)) + h) * Real.sin φ)
          ((a / Real.sqrt (1 - e2 * Real.sin φ * Real.sin φ) + h) * Real.cos φ * (1 - e2)))
        0 0).1 - φ| ≤ tol := by
  have hc2 : 0 < c0 ^ 2 := pow_pos hc0 2
  have he1 : e2 < 1 := by linarith
  have hcos : 0 < Real.cos φ := Real.cos_pos_of_mem_Ioo ⟨hφ1, hφ2⟩
  have hsφ : Real.sin φ * Real.sin φ ≤ 1 := by
    have := Real.sin_sq_le_one φ
    rwa [pow_two] at this
  have hrad : 0 < 1 - e2 * Real.sin φ * Real.sin φ := by
    have := mul_le_mul_of_nonneg_left hsφ he0
    rw [mul_assoc]
    linarith
  have hN : 0 < a / Real.sqrt (1 - e2 * Real.sin φ * Real.sin φ) :=
    div_pos ha (Real.sqrt_pos.mpr hrad)
  have hfix := latStep_fixed a e2 φ h hφ1 hφ2 (by linarith)
  obtain ⟨hseed1, hseed2⟩ := seed_error e2 _ φ h hφ1 hφ2 he0 he1 hN hh
  generalize a / Real.sqrt (1 - e2 * Real.sin φ * Real.sin φ) = N at *
  have hp : 0 < (N + h) * Real.cos φ := mul_pos (by linarith) hcos
  generalize ((1 - e2) * N + h) * Real.sin φ = Z at *
  generalize (N + h) * Real.cos φ = p at *
  have hq0 : 0 ≤ e2 * a * ((1 + e2 / c0) / c0 ^ 2) / p := by positivity
  have hq1 : e2 * a * ((1 + e2 / c0) / c0 ^ 2) / p ≤ 1 / 2 := by
    rw [div_le_iff₀ hp]
    exact hq
  have hcontr : ∀ l, |ECEFToGeoConverter.latStep a e2 Z p l - φ| ≤
      e2 * a * ((1 + e2 / c0) / c0 ^ 2) / p * |l - φ| := by
    intro l
    have := latStep_lipschitz a e2 c0 Z p l φ ha.le he0 hc0 hc hp
    rwa [hfix] at this
  generalize atan2 Z (p * (1 - e2)) = seed at *
  have htol : tol = 1 / 10 ^ 12 := by
    unfold tol
    norm_num
  by_cases h0 : tol < |seed - 0|
  · rw [ecefToGeo_iterate_step _ _ _ _ _ _ _ h0 (by decide)]
    have herr := ecefToGeo_iterate_error a e2 Z p φ _ hq0 hq1 hcontr 99 seed 1 (by decide)
    refine herr.trans (max_le le_rfl ?_)
    have hpow : (e2 * a * ((1 + e2 / c0) / c0 ^ 2) / p) ^ (99 + 1) ≤ (1 / 2 : ℝ) ^ (99 + 1) :=
      pow_le_pow_left₀ hq0 hq1 _
    have hpi := Real.pi_lt_d2
    have hs : |seed - φ| ≤ 2 := by linarith
    have h3 : (e2 * a * ((1 + e2 / c0) / c0 ^ 2) / p) ^ (99 + 1) * |seed - φ| ≤
        (1 / 2 : ℝ) ^ (99 + 1) * 2 :=
      mul_le_mul hpow hs (abs_nonneg _) (by positivity)
    refine h3.trans ?_
    rw [htol]
    norm_num
  · rw [ecefToGeo_iterate_of_close _ _ _ _ _ _ _ (not_lt.mp h0)]
    have := not_lt.mp h0
    rw [sub_zero] at this
    exact hseed1.trans this


/-- Lemma: the distance from the polar axis of the point `(r·cos l, r·sin l)`, `r ≥ 0`. -/
theorem sqrt_planar (r l : ℝ) (hr : 0 ≤ r) :
    Real.sqrt (r * Real.cos l * (r * Real.cos l) + r * Real.sin l * (r * Real.sin l)) = r := by
  have h1 : r * Real.cos l * (r * Real.cos l) + r * Real.sin l * (r * Real.sin l) = r * r := by
    linear_combination r * r * Real.sin_sq_add_cos_sq l
  rw [h1, Real.sqrt_mul_self hr]

/-! ## Lemmas: clones, rendering and the heap -/

/-- Lemma: `clone` of an object that satisfies the class invariant returns an equal value. -/
theorem clone_of_wellFormed (p : ICoordinate) (hp : p.wellFormed = true) : p.clone = .ok p := by
  induction p with
  | geo c => exact congrArg (fun g => Except.ok (ICoordinate.geo g)) (geoCoordinate_clone_eq c)
  | ecef c => rfl
  | foreign values => rfl
  | enu e n u o ih =>
    have hp2 : (o.wellFormed && (o.getValues.length == 2 || o.getValues.length == 3)) = true :=
      hp
    rw [Bool.and_eq_true, Bool.or_eq_true, beq_iff_eq, beq_iff_eq] at hp2
    have hlen : ¬(o.getValues.length ≠ 2 ∧ o.getValues.length ≠ 3) := by
      rintro ⟨h2, h3⟩
      rcases hp2.2 with h | h
      · exact h2 h
      · exact h3 h
    show (o.clone >>= fun origin_ =>
      if origin_.getValues.length ≠ 2 ∧ origin_.getValues.length ≠ 3 then
        Except.error (Exception.invalid_argument
          "ENUCoordinate::ENUCoordinate requires origin coordinate with 2 or 3 values.")
      else Except.ok (ICoordinate.enu e n u origin_)) = _
    rw [ih hp2.1, ok_bind]
    exact if_neg hlen

/-- Lemma: the loop of `toString` writes the rendered values separated by `", "`. -/
theorem toStringLoop_eq (values : List ℝ) :
    toStringLoop values 0 "[" ++ "]" =
      "[" ++ ", ".intercalate (values.map fixed6) ++ "]" := by
  have hgo : ∀ (l : List String) (x acc : String),
      String.intercalate.go (x ++ acc) ", " l = x ++ String.intercalate.go acc ", " l := by
    intro l
    induction l with
    | nil => intro x acc; rfl
    | cons b l ih =>
      intro x acc
      show String.intercalate.go (x ++ acc ++ ", " ++ b) ", " l =
        x ++ String.intercalate.go (acc ++ ", " ++ b) ", " l
      rw [String.append_assoc, String.append_assoc, ← String.append_assoc acc, ih]
  have hend : ∀ (l : List ℝ) (oss : String), toStringLoop l l.length oss = oss := by
    intro l oss
    rw [toStringLoop, dif_neg (lt_irrefl _)]
  have hloop : ∀ (t pre : List ℝ) (a : ℝ) (oss : String),
      toStringLoop (pre ++ a :: t) pre.length oss =
        String.intercalate.go (oss ++ fixed6 a) ", " (t.map fixed6) := by
    intro t
    induction t with
    | nil =>
      intro pre a oss
      have hlt : pre.length < (pre ++ [a]).length := by simp
      have hget : (pre ++ [a])[pre.length] = a := by
        rw [List.getElem_append_right (le_refl _)]
        simp
      have hne : ¬ pre.length ≠ (pre ++ [a]).length - 1 := by simp
      have hlast := hend (pre ++ [a]) (oss ++ fixed6 a)
      rw [List.length_append, List.length_singleton] at hlast
      rw [toStringLoop, dif_pos hlt, hget, if_neg hne, hlast]
      rfl
    | cons b t ih =>
      intro pre a oss
      have hlt : pre.length < (pre ++ a :: b :: t).length := by simp
      have hget : (pre ++ a :: b :: t)[pre.length] = a := by
        rw [List.getElem_append_right (le_refl _)]
        simp
      have hne : pre.length ≠ (pre ++ a :: b :: t).length - 1 := by simp
      have hstep := ih (pre ++ [a]) b (oss ++ fixed6 a ++ ", ")
      rw [List.append_assoc, List.singleton_append, List.length_append,
        List.length_singleton] at hstep
      rw [toStringLoop, dif_pos hlt, hget, if_pos hne, hstep]
      rfl
  cases values with
  | nil =>
    have := hend [] "["
    rw [List.length_nil] at this
    rw [this]
    rfl
  | cons a t =>
    have := hloop t [] a "["
    rw [List.nil_append, List.length_nil] at this
    rw [this, hgo]
    rfl

/-- Lemma: `clone` only allocates: the objects already on the heap are as before, and the
address returned is a new one. -/
theorem heap_clone_frame (fuel : Nat) : ∀ (h : Heap) (p : Nat),
    h.next ≤ (h.clone fuel p).2.next ∧
      (∀ a, a < h.next → (h.clone fuel p).2.cell a = h.cell a) ∧
      (∀ q, (h.clone fuel p).1 = some (.ok q) → h.next ≤ q ∧ q < (h.clone fuel p).2.next) := by
  have halloc : ∀ (h : Heap) (o : Obj),
      h.next ≤ (h.alloc o).next ∧ (∀ a, a < h.next → (h.alloc o).cell a = h.cell a) ∧
      (∀ q, (some (Except.ok h.next) : Option (Except Exception Nat)) = some (.ok q) →
        h.next ≤ q ∧ q < (h.alloc o).next) := by
    intro h o
    refine ⟨Nat.le_succ _, fun a ha => if_neg (Nat.ne_of_lt ha), fun q hq => ?_⟩
    have : h.next = q := by injection hq with hq; injection hq
    rw [← this]
    exact ⟨le_refl _, Nat.lt_succ_self _⟩
  induction fuel with
  | zero =>
    intro h p
    exact ⟨le_refl _, fun _ _ => rfl, fun q hq => by cases hq⟩
  | succ fuel ih =>
    intro h p
    rw [Heap.clone]
    rcases hc : h.cell p with _ | (c | c | ⟨e, n, u, o⟩ | v)
    · exact ⟨le_refl _, fun _ _ => rfl, fun q hq => by cases hq⟩
    · exact halloc h _
    · exact halloc h _
    · obtain ⟨ih1, ih2, ih3⟩ := ih h o
      dsimp only
      rcases hres : h.clone fuel o with ⟨_ | (err | origin_), h1⟩
      · rw [hres] at ih1 ih2 ih3
        exact ⟨ih1, ih2, ih3⟩
      · rw [hres] at ih1 ih2 ih3
        exact ⟨ih1, ih2, ih3⟩
      · rw [hres] at ih1 ih2 ih3
        show _ ≤ (h1.construct e n u origin_).2.next ∧
          (∀ a, a < h.next → (h1.construct e n u origin_).2.cell a = h.cell a) ∧
          (∀ q, (h1.construct e n u origin_).1 = some (.ok q) →
            h.next ≤ q ∧ q < (h1.construct e n u origin_).2.next)
        unfold Heap.construct
        rcases h1.cell origin_ with _ | ob
        · exact ⟨ih1, ih2, fun q hq => by cases hq⟩
        · by_cases hlen : ob.getValues.length ≠ 2 ∧ ob.getValues.length ≠ 3
          · simp only [if_pos hlen]
            exact ⟨ih1, ih2, fun q hq => by cases hq⟩
          · simp only [if_neg hlen]
            obtain ⟨a1, a2, a3⟩ := halloc h1 (.enu e n u origin_)
            refine ⟨ih1.trans a1, fun a ha => ?_, fun q hq => ?_⟩
            · exact (a2 a (lt_of_lt_of_le ha ih1)).trans (ih2 a ha)
            · exact ⟨ih1.trans (a3 q hq).1, (a3 q hq).2⟩
    · exact halloc h _

/-- Lemma: a call made through the pointer `p` changes no other object that is already on
the heap. -/
theorem heap_mutate_frame (fuel : Nat) (h : Heap) (p : Nat) (m : Mutation) :
    h.next ≤ (h.mutate fuel p m).2.next ∧
      (∀ a, a < h.next → a ≠ p → (h.mutate fuel p m).2.cell a = h.cell a) := by
  have hw : ∀ (k : Heap) (o : Obj), h.next ≤ k.next →
      (∀ a, a < h.next → k.cell a = h.cell a) →
      h.next ≤ (k.write p o).next ∧
        (∀ a, a < h.next → a ≠ p → (k.write p o).cell a = h.cell a) :=
    fun k o hk1 hk2 => ⟨hk1, fun a ha hne => (if_neg hne).trans (hk2 a ha)⟩
  have hid : h.next ≤ h.next ∧ (∀ a, a < h.next → a ≠ p → h.cell a = h.cell a) :=
    ⟨le_refl _, fun _ _ _ => rfl⟩
  have hw0 : ∀ o : Obj, h.next ≤ (h.write p o).next ∧
      (∀ a, a < h.next → a ≠ p → (h.write p o).cell a = h.cell a) :=
    fun o => hw h o (le_refl _) (fun _ _ => rfl)
  have hc0 := heap_clone_frame fuel h
  unfold Heap.mutate
  cases m with
  | setValues values =>
    dsimp only
    rcases h.cell p with _ | (c | c | ⟨e, n, u, o⟩ | v)
    · exact hid
    · exact hw0 _
    · exact hw0 _
    · by_cases hlen : values.length = 3
      · simp only [dif_pos hlen]
        exact hw0 _
      · simp only [dif_neg hlen]
        exact ⟨le_refl _, fun _ _ _ => trivial⟩
    · exact hid
  | setOrigin origin =>
    dsimp only
    rcases h.cell p with _ | (c | c | ⟨e, n, u, o⟩ | v)
    · exact hid
    · exact hid
    · exact hid
    · rcases h.cell origin with _ | ob
      · exact hid
      · by_cases hlen : ob.getValues.length ≠ 2 ∧ ob.getValues.length ≠ 3
        · simp only [if_pos hlen]
          exact ⟨le_refl _, fun _ _ _ => trivial⟩
        · simp only [if_neg hlen]
          obtain ⟨c1, c2, -⟩ := hc0 origin
          rcases hres : h.clone fuel origin with ⟨_ | (err | origin_), h1⟩
          · rw [hres] at c1 c2
            exact ⟨c1, fun a ha _ => c2 a ha⟩
          · rw [hres] at c1 c2
            exact ⟨c1, fun a ha _ => c2 a ha⟩
          · rw [hres] at c1 c2
            exact hw h1 _ c1 c2
    · exact hid
  | _ =>
    dsimp only
    rcases h.cell p with _ | (c | c | ⟨e, n, u, o⟩ | v)
    all_goals first | exact hid | exact hw0 _

/-- Lemma: calls made one after the other through the pointer `p` change no other object
that is already on the heap. -/
theorem heap_mutateAll_frame (fuel : Nat) (p : Nat) (ms : List Mutation) : ∀ h : Heap,
    h.next ≤ (Heap.mutateAll fuel h p ms).next ∧
      (∀ a, a < h.next → a ≠ p → (Heap.mutateAll fuel h p ms).cell a = h.cell a) := by
  induction ms with
  | nil => exact fun h => ⟨le_refl _, fun _ _ _ => rfl⟩
  | cons m ms ih =>
    intro h
    obtain ⟨m1, m2⟩ := heap_mutate_frame fuel h p m
    obtain ⟨i1, i2⟩ := ih (h.mutate fuel p m).2
    exact ⟨m1.trans i1, fun a ha hne => (i2 a (lt_of_lt_of_le ha m1) hne).trans (m2 a ha hne)⟩

/-! ## Lemmas: converters called through pointers -/

/-- Lemma: an object that can be read as a value is on the heap, and the value has its class
and its fields. -/
theorem heap_read_top (h : Heap) (k p : Nat) (v : ICoordinate) (hv : h.read k p = some v) :
    ∃ ob, h.cell p = some ob ∧
      ((∃ c, ob = .geo c ∧ v = .geo c) ∨ (∃ c, ob = .ecef c ∧ v = .ecef c) ∨
        (∃ e n u o ov, ob = .enu e n u o ∧ v = .enu e n u ov) ∨
        (∃ values, ob = .foreign values ∧ v = .foreign values)) := by
  rcases k with _ | k
  · cases hv
  · rw [Heap.read] at hv
    rcases hc : h.cell p with _ | (c | c | ⟨e, n, u, o⟩ | values)
    · rw [hc] at hv
      cases hv
    · rw [hc] at hv
      injection hv with hv
      exact ⟨_, rfl, Or.inl ⟨c, rfl, hv.symm⟩⟩
    · rw [hc] at hv
      injection hv with hv
      exact ⟨_, rfl, Or.inr (Or.inl ⟨c, rfl, hv.symm⟩)⟩
    · rw [hc] at hv
      dsimp only at hv
      rcases hr : h.read k o with _ | ov
      · rw [hr] at hv
        cases hv
      · rw [hr] at hv
        injection hv with hv
        exact ⟨_, rfl, Or.inr (Or.inr (Or.inl ⟨e, n, u, o, ov, rfl, hv.symm⟩))⟩
    · rw [hc] at hv
      injection hv with hv
      exact ⟨_, rfl, Or.inr (Or.inr (Or.inr ⟨values, rfl, hv.symm⟩))⟩

/-- Lemma: on a heap with no object beyond its next free address, the value read at an
address is read again from any heap on which the objects already there are the same. -/
theorem heap_read_frame (h h2 : Heap) (hclosed : ∀ a, h.next ≤ a → h.cell a = none)
    (hsame : ∀ a, a < h.next → h2.cell a = h.cell a) :
    ∀ (k p : Nat) (v : ICoordinate), h.read k p = some v → h2.read k p = some v := by
  intro k
  induction k with
  | zero =>
    intro p v hv
    cases hv
  | succ k ih =>
    intro p v hv
    have hp : p < h.next := by
      by_contra hge
      rw [Heap.read, hclosed p (not_lt.mp hge)] at hv
      cases hv
    rw [Heap.read] at hv
    rw [Heap.read, hsame p hp]
    rcases hc : h.cell p with _ | (c | c | ⟨e, n, u, o⟩ | values)
    · rw [hc] at hv
      cases hv
    · rw [hc] at hv
      exact hv
    · rw [hc] at hv
      exact hv
    · rw [hc] at hv
      dsimp only at hv ⊢
      rcases hr : h.read k o with _ | ov
      · rw [hr] at hv
        cases hv
      · rw [hr] at hv
        rw [ih o ov hr]
        exact hv
    · rw [hc] at hv
      exact hv

/-- Lemma: a call of `convert` writes to no converter object and to no position that is
already on the heap, and the address it returns is a new one. -/
theorem memory_convert_frame (fuel : Nat) : ∀ (m : Memory) (self input : Nat),
    (m.convert fuel self input).2.converter = m.converter ∧
      (m.convert fuel self input).2.nextConverter = m.nextConverter ∧
      m.heap.next ≤ (m.convert fuel self input).2.heap.next ∧
      (∀ a, a < m.heap.next → (m.convert fuel self input).2.heap.cell a = m.heap.cell a) ∧
      (∀ q, (m.convert fuel self input).1 = some (.ok q) → m.heap.next ≤ q) := by
  have hnone : ∀ m : Memory,
      ((none : Option (Except Exception Nat)), m).2.converter = m.converter ∧
        ((none : Option (Except Exception Nat)), m).2.nextConverter = m.nextConverter ∧
        m.heap.next ≤ ((none : Option (Except Exception Nat)), m).2.heap.next ∧
        (∀ a, a < m.heap.next →
          ((none : Option (Except Exception Nat)), m).2.heap.cell a = m.heap.cell a) ∧
        (∀ q, ((none : Option (Except Exception Nat)), m).1 = some (.ok q) →
          m.heap.next ≤ q) :=
    fun m => ⟨rfl, rfl, le_refl _, fun _ _ => rfl, fun q hq => by cases hq⟩
  have herr : ∀ (m : Memory) (err : Exception),
      ((some (.error err) : Option (Except Exception Nat)), m).2.converter = m.converter ∧
        ((some (.error err) : Option (Except Exception Nat)), m).2.nextConverter =
          m.nextConverter ∧
        m.heap.next ≤ ((some (.error err) : Option (Except Exception Nat)), m).2.heap.next ∧
        (∀ a, a < m.heap.next →
          ((some (.error err) : Option (Except Exception Nat)), m).2.heap.cell a =
            m.heap.cell a) ∧
        (∀ q, ((some (.error err) : Option (Except Exception Nat)), m).1 = some (.ok q) →
          m.heap.next ≤ q) :=
    fun m err => ⟨rfl, rfl, le_refl _, fun _ _ => rfl, fun q hq => by cases hq⟩
  have hret : ∀ (m : Memory) (r : Except Exception Obj),
      (m.returnNew r).2.converter = m.converter ∧
        (m.returnNew r).2.nextConverter = m.nextConverter ∧
        m.heap.next ≤ (m.returnNew r).2.heap.next ∧
        (∀ a, a < m.heap.next → (m.returnNew r).2.heap.cell a = m.heap.cell a) ∧
        (∀ q, (m.returnNew r).1 = some (.ok q) → m.heap.next ≤ q) := by
    intro m r
    rcases r with err | result
    · exact herr m err
    · refine ⟨rfl, rfl, Nat.le_succ _, fun a ha => if_neg (Nat.ne_of_lt ha), fun q hq => ?_⟩
      have : m.heap.next = q := by injection hq with hq; injection hq
      exact le_of_eq this
  have hretENU : ∀ (m : Memory) (O : GeoCoordinate) (r : Except Exception (Fin 3 → ℝ)),
      (m.returnNewENU O r).2.converter = m.converter ∧
        (m.returnNewENU O r).2.nextConverter = m.nextConverter ∧
        m.heap.next ≤ (m.returnNewENU O r).2.heap.next ∧
        (∀ a, a < m.heap.next → (m.returnNewENU O r).2.heap.cell a = m.heap.cell a) ∧
        (∀ q, (m.returnNewENU O r).1 = some (.ok q) → m.heap.next ≤ q) := by
    intro m O r
    rcases r with err | enuVec
    · exact herr m err
    · unfold Memory.returnNewENU Heap.construct
      dsimp only
      rcases (m.heap.alloc (Obj.geo O.clone)).cell m.heap.next with _ | ob
      · exact ⟨rfl, rfl, Nat.le_succ _, fun a ha => if_neg (Nat.ne_of_lt ha),
          fun q hq => by cases hq⟩
      · by_cases hlen : ob.getValues.length ≠ 2 ∧ ob.getValues.length ≠ 3
        · simp only [if_pos hlen]
          exact ⟨trivial, trivial, Nat.le_succ _, fun a ha => if_neg (Nat.ne_of_lt ha),
            fun q hq => by cases hq⟩
        · simp only [if_neg hlen]
          refine ⟨trivial, trivial, (Nat.le_succ _).trans (Nat.le_succ _), fun a ha => ?_,
            fun q hq => ?_⟩
          · exact (if_neg (Nat.ne_of_lt (Nat.lt_succ_of_lt ha))).trans
              (if_neg (Nat.ne_of_lt ha))
          · have : (m.heap.alloc (Obj.geo O.clone)).next = q := by
              injection hq with hq; injection hq
            rw [← this]
            exact Nat.le_succ _
  have hcomp : ∀ (m m1 : Memory) (q1 : Nat) (out : Option (Except Exception Nat) × Memory),
      (m1.converter = m.converter ∧ m1.nextConverter = m.nextConverter ∧
        m.heap.next ≤ m1.heap.next ∧
        (∀ a, a < m.heap.next → m1.heap.cell a = m.heap.cell a) ∧
        m.heap.next ≤ q1) →
      (out.2.converter = m1.converter ∧ out.2.nextConverter = m1.nextConverter ∧
        m1.heap.next ≤ out.2.heap.next ∧
        (∀ a, a < m1.heap.next → out.2.heap.cell a = m1.heap.cell a) ∧
        (∀ q, out.1 = some (.ok q) → m1.heap.next ≤ q)) →
      ((out.2.destroy q1).converter = m.converter ∧
        (out.2.destroy q1).nextConverter = m.nextConverter ∧
        m.heap.next ≤ (out.2.destroy q1).heap.next ∧
        (∀ a, a < m.heap.next → (out.2.destroy q1).heap.cell a = m.heap.cell a) ∧
        (∀ q, out.1 = some (.ok q) → m.heap.next ≤ q)) := by
    intro m m1 q1 out ha hb
    obtain ⟨a1, a2, a3, a4, a5⟩ := ha
    obtain ⟨b1, b2, b3, b4, b5⟩ := hb
    refine ⟨b1.trans a1, b2.trans a2, a3.trans b3, fun a ha => ?_,
      fun q hq => a3.trans (b5 q hq)⟩
    show (if a = q1 then none else out.2.heap.cell a) = m.heap.cell a
    rw [if_neg (Nat.ne_of_lt (lt_of_lt_of_le ha a5))]
    exact (b4 a (lt_of_lt_of_le ha a3)).trans (a4 a ha)
  induction fuel with
  | zero => exact fun m _ _ => hnone m
  | succ fuel ih =>
    intro m self input
    rw [Memory.convert]
    rcases hs : m.converter self with
      _ | (e | e | ⟨e, o⟩ | ⟨e, o⟩ | ⟨e, o, p1, p2⟩ | ⟨e, o, p1, p2⟩)
    · exact hnone m
    · dsimp only
      unfold Memory.convertGeoToECEF
      rw [hs]
      dsimp only
      rcases m.heap.cell input with _ | (c | c | ⟨e1, n1, u1, o1⟩ | values)
      · exact hnone m
      · exact hret m _
      · exact herr m _
      · exact herr m _
      · exact herr m _
    · dsimp only
      unfold Memory.convertECEFToGeo
      rw [hs]
      dsimp only
      rcases m.heap.cell input with _ | (c | c | ⟨e1, n1, u1, o1⟩ | values)
      · exact hnone m
      · exact herr m _
      · exact hret m _
      · exact herr m _
      · exact herr m _
    · dsimp only
      unfold Memory.convertECEFToENU
      rw [hs]
      dsimp only
      rcases m.heap.cell input with _ | (c | c | ⟨e1, n1, u1, o1⟩ | values)
      · exact hnone m
      · exact herr m _
      · exact hretENU m _ _
      · exact herr m _
      · exact herr m _
    · dsimp only
      unfold Memory.convertENUToECEF
      rw [hs]
      dsimp only
      rcases m.heap.cell input with _ | (c | c | ⟨e1, n1, u1, o1⟩ | values)
      · exact hnone m
      · exact herr m _
      · exact herr m _
      · exact hret m _
      · exact herr m _
    · dsimp only
      unfold Memory.convertGeoToENU
      rw [hs]
      dsimp only
      rcases m.heap.cell input with _ | (c | c | ⟨e1, n1, u1, o1⟩ | values)
      · exact hnone m
      · have f1 := ih m p1 input
        rcases hc1 : Memory.convert fuel m p1 input with ⟨_ | (err | q1), m1⟩
        · rw [hc1] at f1
          exact f1
        · rw [hc1] at f1
          exact f1
        · rw [hc1] at f1
          exact hcomp m m1 q1 _ ⟨f1.1, f1.2.1, f1.2.2.1, f1.2.2.2.1, f1.2.2.2.2 q1 rfl⟩
            (ih m1 p2 q1)
      · exact herr m _
      · exact herr m _
      · exact herr m _
    · dsimp only
      unfold Memory.convertENUToGeo
      rw [hs]
      dsimp only
      rcases m.heap.cell input with _ | (c | c | ⟨e1, n1, u1, o1⟩ | values)
      · exact hnone m
      · exact herr m _
      · exact herr m _
      · have f1 := ih m p1 input
        rcases hc1 : Memory.convert fuel m p1 input with ⟨_ | (err | q1), m1⟩
        · rw [hc1] at f1
          exact f1
        · rw [hc1] at f1
          exact f1
        · rw [hc1] at f1
          exact hcomp m m1 q1 _ ⟨f1.1, f1.2.1, f1.2.2.1, f1.2.2.2.1, f1.2.2.2.2 q1 rfl⟩
            (ih m1 p2 q1)
      · exact herr m _

/-- Lemma: when the converter at `self` has the value `cv` and the position at `input` has the
value `v`, the call `self->convert(*input)` throws what `cv.convert v` throws, or returns
the address of new objects from which the position `cv.convert v` is read back. -/
theorem memory_convert_value (m : Memory) (self input : Nat) (cv : ICoordinateConverter)
    (v : ICoordinate) (k fuel : Nat) (hfuel : 2 ≤ fuel)
    (hcv : m.readConverter self = some cv) (hv : m.heap.read k input = some v) :
    (∀ err, cv.convert v = .error err → (m.convert fuel self input).1 = some (.error err)) ∧
      (∀ r, cv.convert v = .ok r →
        ∃ q, (m.convert fuel self input).1 = some (.ok q) ∧
          ∀ h2 : Heap,
            (∀ a, m.heap.next ≤ a → a < (m.convert fuel self input).2.heap.next →
              h2.cell a = (m.convert fuel self input).2.heap.cell a) →
            ∀ fuel2, 2 ≤ fuel2 → h2.read fuel2 q = some r) := by
  obtain ⟨f, rfl⟩ : ∃ f, fuel = f + 2 := ⟨fuel - 2, by omega⟩
  obtain ⟨ob, hi, hcase⟩ := heap_read_top m.heap k input v hv
  -- a position without origin, built by `returnNew`, is read back
  have hleaf : ∀ (ob : Obj) (w : ICoordinate),
      (∀ (fuel : Nat) (h2 : Heap), h2.cell m.heap.next = some ob →
        h2.read (fuel + 1) m.heap.next = some w) →
      ∃ q, (m.returnNew (.ok ob)).1 = some (.ok q) ∧
        ∀ h2 : Heap,
          (∀ a, m.heap.next ≤ a → a < (m.returnNew (.ok ob)).2.heap.next →
            h2.cell a = (m.returnNew (.ok ob)).2.heap.cell a) →
          ∀ fuel2, 2 ≤ fuel2 → h2.read fuel2 q = some w := by
    intro ob w hread
    refine ⟨m.heap.next, rfl, fun h2 hagree fuel2 hf2 => ?_⟩
    obtain ⟨f2, rfl⟩ : ∃ f2, fuel2 = f2 + 1 := ⟨fuel2 - 1, by omega⟩
    exact hread f2 h2 ((hagree m.heap.next (le_refl _) (Nat.lt_succ_self _)).trans (if_pos rfl))
  -- each of the four simple converters, called on a position of its source class, builds what
  -- its `convert` returns on the value of that position
  have hGeoToECEF : ∀ (m : Memory) (self input : Nat) (E : Ellipsoid) (g : GeoCoordinate),
      m.converter self = some (.geoToECEF E) → m.heap.cell input = some (.geo g) →
      ∃ c : ECEFCoordinate,
        (GeoToECEFConverter.mk E).convert (ICoordinate.geo g) = .ok (ICoordinate.ecef c) ∧
          m.convertGeoToECEF self input = m.returnNew (.ok (.ecef c)) := by
    intro m self input E g hs hi
    rcases g with ⟨lat, lon, alt⟩
    refine ⟨_, geoToECEF_convert_geo E lat lon alt, ?_⟩
    unfold Memory.convertGeoToECEF
    rw [hs, hi]
    cases alt <;> rfl
  have hECEFToGeo : ∀ (m : Memory) (self input : Nat) (E : Ellipsoid) (c : ECEFCoordinate),
      m.converter self = some (.ecefToGeo E) → m.heap.cell input = some (.ecef c) →
      ∃ g : GeoCoordinate,
        (ECEFToGeoConverter.mk E).convert (ICoordinate.ecef c) = .ok (ICoordinate.geo g) ∧
          m.convertECEFToGeo self input = m.returnNew (.ok (.geo g)) := by
    intro m self input E c hs hi
    rcases c with ⟨X, Y, Z⟩
    refine ⟨_, ecefToGeo_convert_ecef E X Y Z, ?_⟩
    unfold Memory.convertECEFToGeo
    rw [hs, hi]
    rfl
  have hENUToECEF : ∀ (m : Memory) (self input : Nat) (E : Ellipsoid) (O : GeoCoordinate)
      (e n u : ℝ) (o : Nat),
      m.converter self = some (.enuToECEF E O) → m.heap.cell input = some (.enu e n u o) →
      ∃ c : ECEFCoordinate,
        (∀ ov : ICoordinate, (ENUToECEFConverter.mk E O).convert (ICoordinate.enu e n u ov) =
          .ok (ICoordinate.ecef c)) ∧
          m.convertENUToECEF self input = m.returnNew (.ok (.ecef c)) := by
    intro m self input E O e n u o hs hi
    rcases O with ⟨lat0, lon0, alt0⟩
    refine ⟨_, fun ov => enuToECEF_convert_enu E lat0 lon0 alt0 e n u ov, ?_⟩
    unfold Memory.convertENUToECEF
    rw [hs, hi]
    cases alt0 <;> rfl
  -- `ECEFToENU` first builds a copy of the origin of the converter, which the position it
  -- returns has as its origin
  have hECEFToENU : ∀ (m : Memory) (self input : Nat) (E : Ellipsoid) (O : GeoCoordinate)
      (c : ECEFCoordinate),
      m.converter self = some (.ecefToENU E O) → m.heap.cell input = some (.ecef c) →
      ∃ e n u : ℝ,
        (ECEFToENUConverter.mk E O).convert (ICoordinate.ecef c) =
            .ok (ICoordinate.enu e n u (ICoordinate.geo O)) ∧
          m.convertECEFToENU self input =
            (some (.ok (m.heap.next + 1)),
              { heap := (m.heap.alloc (.geo O)).alloc (.enu e n u m.heap.next)
                nextConverter := m.nextConverter
                converter := m.converter }) := by
    intro m self input E O c hs hi
    rcases O with ⟨lat0, lon0, alt0⟩
    rcases c with ⟨X, Y, Z⟩
    refine ⟨_, _, _, ecefToENU_convert_ecef E lat0 lon0 alt0 X Y Z, ?_⟩
    unfold Memory.convertECEFToENU
    rw [hs, hi]
    unfold originECEF
    rw [vecSub3]
    have hcell : ∀ ob : Obj, (m.heap.alloc ob).cell m.heap.next = some ob :=
      fun ob => if_pos rfl
    cases alt0
    · show Memory.returnNewENU m _ (Except.ok _) = _
      unfold Memory.returnNewENU Heap.construct
      dsimp only
      rw [hcell]
      rfl
    · show Memory.returnNewENU m _ (Except.ok _) = _
      unfold Memory.returnNewENU Heap.construct
      dsimp only
      rw [hcell]
      rfl
  unfold Memory.readConverter at hcv
  rcases hs : m.converter self with
    _ | (E | E | ⟨E, O⟩ | ⟨E, O⟩ | ⟨E, O, p1, p2⟩ | ⟨E, O, p1, p2⟩)
  · rw [hs] at hcv
    cases hcv
  · -- GeoToECEF
    rw [hs] at hcv
    cases hcv
    have hconv : m.convert (f + 2) self input = m.convertGeoToECEF self input := by
      rw [Memory.convert, hs]
    rw [hconv]
    rcases hcase with
      ⟨g, rfl, rfl⟩ | ⟨c, rfl, rfl⟩ | ⟨e, n, u, o, ov, rfl, rfl⟩ | ⟨vals, rfl, rfl⟩
    · obtain ⟨c, hval, hheap⟩ := hGeoToECEF m self input E g hs hi
      rw [hheap]
      refine ⟨fun err herr => ?_, fun r hr => ?_⟩
      · cases hval.symm.trans herr
      · cases hval.symm.trans hr
        exact hleaf _ _ (fun fuel h2 hc => by rw [Heap.read, hc])
    · refine ⟨fun err herr => ?_, fun r hr => ?_⟩
      · cases herr
        unfold Memory.convertGeoToECEF
        rw [hs, hi]
      · cases hr
    · refine ⟨fun err herr => ?_, fun r hr => ?_⟩
      · cases herr
        unfold Memory.convertGeoToECEF
        rw [hs, hi]
      · cases hr
    · refine ⟨fun err herr => ?_, fun r hr => ?_⟩
      · cases herr
        unfold Memory.convertGeoToECEF
        rw [hs, hi]
      · cases hr
  · -- ECEFToGeo
    rw [hs] at hcv
    cases hcv
    have hconv : m.convert (f + 2) self input = m.convertECEFToGeo self input := by
      rw [Memory.convert, hs]
    rw [hconv]
    rcases hcase with
      ⟨g, rfl, rfl⟩ | ⟨c, rfl, rfl⟩ | ⟨e, n, u, o, ov, rfl, rfl⟩ | ⟨vals, rfl, rfl⟩
    · refine ⟨fun err herr => ?_, fun r hr => ?_⟩
      · cases herr
        unfold Memory.convertECEFToGeo
        rw [hs, hi]
      · cases hr
    · obtain ⟨g, hval, hheap⟩ := hECEFToGeo m self input E c hs hi
      rw [hheap]
      refine ⟨fun err herr => ?_, fun r hr => ?_⟩
      · cases hval.symm.trans herr
      · cases hval.symm.trans hr
        exact hleaf _ _ (fun fuel h2 hc => by rw [Heap.read, hc])
    · refine ⟨fun err herr => ?_, fun r hr => ?_⟩
      · cases herr
        unfold Memory.convertECEFToGeo
        rw [hs, hi]
      · cases hr
    · refine ⟨fun err herr => ?_, fun r hr => ?_⟩
      · cases herr
        unfold Memory.convertECEFToGeo
        rw [hs, hi]
      · cases hr
  · -- ECEFToENU
    rw [hs] at hcv
    cases hcv
    have hconv : m.convert (f + 2) self input = m.convertECEFToENU self input := by
      rw [Memory.convert, hs]
    rw [hconv]
    rcases hcase with
      ⟨g, rfl, rfl⟩ | ⟨c, rfl, rfl⟩ | ⟨e, n, u, o, ov, rfl, rfl⟩ | ⟨vals, rfl, rfl⟩
    · refine ⟨fun err herr => ?_, fun r hr => ?_⟩
      · cases herr
        unfold Memory.convertECEFToENU
        rw [hs, hi]
      · cases hr
    · obtain ⟨e, n, u, hval, hheap⟩ := hECEFToENU m self input E O c hs hi
      rw [hheap]
      refine ⟨fun err herr => ?_, fun r hr => ?_⟩
      · cases hval.symm.trans herr
      · cases hval.symm.trans hr
        refine ⟨m.heap.next + 1, rfl, fun h2 hagree fuel2 hf2 => ?_⟩
        obtain ⟨f2, rfl⟩ : ∃ f2, fuel2 = f2 + 2 := ⟨fuel2 - 2, by omega⟩
        have h1 : h2.cell (m.heap.next + 1) = some (.enu e n u m.heap.next) :=
          (hagree (m.heap.next + 1) (Nat.le_succ _) (Nat.lt_succ_self _)).trans (if_pos rfl)
        have h0 : h2.cell m.heap.next = some (.geo O) :=
          (hagree m.heap.next (le_refl _) (Nat.lt_succ_of_lt (Nat.lt_succ_self _))).trans
            ((if_neg (Nat.ne_of_lt (Nat.lt_succ_self _))).trans (if_pos rfl))
        rw [Heap.read, h1]
        dsimp only
        rw [Heap.read, h0]
    · refine ⟨fun err herr => ?_, fun r hr => ?_⟩
      · cases herr
        unfold Memory.convertECEFToENU
        rw [hs, hi]
      · cases hr
    · refine ⟨fun err herr => ?_, fun r hr => ?_⟩
      · cases herr
        unfold Memory.convertECEFToENU
        rw [hs, hi]
      · cases hr
  · -- ENUToECEF
    rw [hs] at hcv
    cases hcv
    have hconv : m.convert (f + 2) self input = m.convertENUToECEF self input := by
      rw [Memory.convert, hs]
    rw [hconv]
    rcases hcase with
      ⟨g, rfl, rfl⟩ | ⟨c, rfl, rfl⟩ | ⟨e, n, u, o, ov, rfl, rfl⟩ | ⟨vals, rfl, rfl⟩
    · refine ⟨fun err herr => ?_, fun r hr => ?_⟩
      · cases herr
        unfold Memory.convertENUToECEF
        rw [hs, hi]
      · cases hr
    · refine ⟨fun err herr => ?_, fun r hr => ?_⟩
      · cases herr
        unfold Memory.convertENUToECEF
        rw [hs, hi]
      · cases hr
    · obtain ⟨c, hval, hheap⟩ := hENUToECEF m self input E O e n u o hs hi
      rw [hheap]
      refine ⟨fun err herr => ?_, fun r hr => ?_⟩
      · cases (hval ov).symm.trans herr
      · cases (hval ov).symm.trans hr
        exact hleaf _ _ (fun fuel h2 hc => by rw [Heap.read, hc])
    · refine ⟨fun err herr => ?_, fun r hr => ?_⟩
      · cases herr
        unfold Memory.convertENUToECEF
        rw [hs, hi]
      · cases hr
  · -- GeoToENU
    rw [hs] at hcv
    dsimp only at hcv
    rcases hs1 : m.converter p1 with
      _ | (E1 | E1 | ⟨E1, O1⟩ | ⟨E1, O1⟩ | ⟨E1, O1, a1, b1⟩ | ⟨E1, O1, a1, b1⟩) <;>
      rw [hs1] at hcv <;> try cases hcv
    rcases hs2 : m.converter p2 with
      _ | (E2 | E2 | ⟨E2, O2⟩ | ⟨E2, O2⟩ | ⟨E2, O2, a2, b2⟩ | ⟨E2, O2, a2, b2⟩) <;>
      rw [hs2] at hcv <;> try cases hcv
    have hconv : m.convert (f + 2) self input =
        Memory.convertGeoToENU (Memory.convert (f + 1)) m self input := by
      rw [Memory.convert, hs]
    rw [hconv]
    rcases hcase with
      ⟨g, rfl, rfl⟩ | ⟨c, rfl, rfl⟩ | ⟨e, n, u, o, ov, rfl, rfl⟩ | ⟨vals, rfl, rfl⟩
    · obtain ⟨c1, hval1, hheap1⟩ := hGeoToECEF m p1 input E1 g hs1 hi
      have hcall1 : Memory.convert (f + 1) m p1 input = m.returnNew (.ok (.ecef c1)) := by
        rw [Memory.convert, hs1]
        exact hheap1
      obtain ⟨e, n, u, hval2, hheap2⟩ := hECEFToENU
        (m.returnNew (.ok (.ecef c1))).2 p2 m.heap.next E2 O2 c1 hs2 (if_pos rfl)
      have hcall2 : Memory.convert (f + 1) (m.returnNew (.ok (.ecef c1))).2 p2 m.heap.next =
          (m.returnNew (.ok (.ecef c1))).2.convertECEFToENU p2 m.heap.next := by
        have hs2c : (m.returnNew (.ok (.ecef c1))).2.converter p2 =
            some (.ecefToENU E2 O2) := hs2
        rw [Memory.convert, hs2c]
      have hout : Memory.convertGeoToENU (Memory.convert (f + 1)) m self input =
          (some (.ok (m.heap.next + 1 + 1)),
            Memory.destroy
              { heap := ((m.heap.alloc (.ecef c1)).alloc (.geo O2)).alloc
                  (.enu e n u (m.heap.next + 1))
                nextConverter := m.nextConverter
                converter := m.converter } m.heap.next) := by
        unfold Memory.convertGeoToENU
        rw [hs, hi]
        dsimp only
        rw [hcall1]
        show ((Memory.convert (f + 1) (m.returnNew (.ok (.ecef c1))).2 p2 m.heap.next).1,
          (Memory.convert (f + 1) (m.returnNew (.ok (.ecef c1))).2 p2 m.heap.next).2.destroy
            m.heap.next) = _
        rw [hcall2, hheap2]
        rfl
      have hval : (ICoordinateConverter.geoToENU
            { ellipsoid_ := E, origin_ := O, geoToEcefConverter_ := { ellipsoid_ := E1 },
              ecefToEnuConverter_ := { ellipsoid_ := E2, origin_ := O2 } }).convert
            (ICoordinate.geo g) = .ok (ICoordinate.enu e n u (ICoordinate.geo O2)) := by
        show (do
            let ecefCoord ← (GeoToECEFConverter.mk E1).convert (ICoordinate.geo g)
            let enuCoord ← (ECEFToENUConverter.mk E2 O2).convert ecefCoord
            pure enuCoord) = _
        rw [hval1, ok_bind, hval2]
        rfl
      rw [hout]
      refine ⟨fun err herr => ?_, fun r hr => ?_⟩
      · cases hval.symm.trans herr
      · cases hval.symm.trans hr
        refine ⟨m.heap.next + 1 + 1, rfl, fun h2 hagree fuel2 hf2 => ?_⟩
        obtain ⟨f2, rfl⟩ : ∃ f2, fuel2 = f2 + 2 := ⟨fuel2 - 2, by omega⟩
        have h1 : h2.cell (m.heap.next + 1 + 1) = some (.enu e n u (m.heap.next + 1)) :=
          (hagree (m.heap.next + 1 + 1) (by omega) (Nat.lt_succ_self _)).trans
            ((if_neg (by omega)).trans (if_pos rfl))
        have h0 : h2.cell (m.heap.next + 1) = some (.geo O2) :=
          (hagree (m.heap.next + 1) (by omega) (Nat.lt_succ_of_lt (Nat.lt_succ_self _))).trans
            ((if_neg (by omega)).trans
              ((if_neg (Nat.ne_of_lt (Nat.lt_succ_self _))).trans (if_pos rfl)))
        rw [Heap.read, h1]
        dsimp only
        rw [Heap.read, h0]
    · refine ⟨fun err herr => ?_, fun r hr => ?_⟩
      · cases herr
        unfold Memory.convertGeoToENU
        rw [hs, hi]
      · cases hr
    · refine ⟨fun err herr => ?_, fun r hr => ?_⟩
      · cases herr
        unfold Memory.convertGeoToENU
        rw [hs, hi]
      · cases hr
    · refine ⟨fun err herr => ?_, fun r hr => ?_⟩
      · cases herr
        unfold Memory.convertGeoToENU
        rw [hs, hi]
      · cases hr
  · -- ENUToGeo
    rw [hs] at hcv
    dsimp only at hcv
    rcases hs1 : m.converter p1 with
      _ | (E1 | E1 | ⟨E1, O1⟩ | ⟨E1, O1⟩ | ⟨E1, O1, a1, b1⟩ | ⟨E1, O1, a1, b1⟩) <;>
      rw [hs1] at hcv <;> try cases hcv
    rcases hs2 : m.converter p2 with
      _ | (E2 | E2 | ⟨E2, O2⟩ | ⟨E2, O2⟩ | ⟨E2, O2, a2, b2⟩ | ⟨E2, O2, a2, b2⟩) <;>
      rw [hs2] at hcv <;> try cases hcv
    have hconv : m.convert (f + 2) self input =
        Memory.convertENUToGeo (Memory.convert (f + 1)) m self input := by
      rw [Memory.convert, hs]
    rw [hconv]
    rcases hcase with
      ⟨g, rfl, rfl⟩ | ⟨c, rfl, rfl⟩ | ⟨e, n, u, o, ov, rfl, rfl⟩ | ⟨vals, rfl, rfl⟩
    · refine ⟨fun err herr => ?_, fun r hr => ?_⟩
      · cases herr
        unfold Memory.convertENUToGeo
        rw [hs, hi]
      · cases hr
    · refine ⟨fun err herr => ?_, fun r hr => ?_⟩
      · cases herr
        unfold Memory.convertENUToGeo
        rw [hs, hi]
      · cases hr
    · obtain ⟨c1, hval1, hheap1⟩ :=
        hENUToECEF m p1 input E1 O1 e n u o hs1 hi
      have hcall1 : Memory.convert (f + 1) m p1 input = m.returnNew (.ok (.ecef c1)) := by
        rw [Memory.convert, hs1]
        exact hheap1
      obtain ⟨g, hval2, hheap2⟩ := hECEFToGeo
        (m.returnNew (.ok (.ecef c1))).2 p2 m.heap.next E2 c1 hs2 (if_pos rfl)
      have hcall2 : Memory.convert (f + 1) (m.returnNew (.ok (.ecef c1))).2 p2 m.heap.next =
          (m.returnNew (.ok (.ecef c1))).2.convertECEFToGeo p2 m.heap.next := by
        have hs2c : (m.returnNew (.ok (.ecef c1))).2.converter p2 =
            some (.ecefToGeo E2) := hs2
        rw [Memory.convert, hs2c]
      have hout : Memory.convertENUToGeo (Memory.convert (f + 1)) m self input =
          (some (.ok (m.heap.next + 1)),
            Memory.destroy
              { heap := (m.heap.alloc (.ecef c1)).alloc (.geo g)
                nextConverter := m.nextConverter
                converter := m.converter } m.heap.next) := by
        unfold Memory.convertENUToGeo
        rw [hs, hi]
        dsimp only
        rw [hcall1]
        show ((Memory.convert (f + 1) (m.returnNew (.ok (.ecef c1))).2 p2 m.heap.next).1,
          (Memory.convert (f + 1) (m.returnNew (.ok (.ecef c1))).2 p2 m.heap.next).2.destroy
            m.heap.next) = _
        rw [hcall2, hheap2]
        rfl
      have hval : (ICoordinateConverter.enuToGeo
            { ellipsoid_ := E, origin_ := O,
              enuToEcefConverter_ := { ellipsoid_ := E1, origin_ := O1 },
              ecefToGeoConverter_ := { ellipsoid_ := E2 } }).convert
            (ICoordinate.enu e n u ov) = .ok (ICoordinate.geo g) := by
        show (do
            let ecefCoord ← (ENUToECEFConverter.mk E1 O1).convert (ICoordinate.enu e n u ov)
            let geoCoord ← (ECEFToGeoConverter.mk E2).convert ecefCoord
            pure geoCoord) = _
        rw [hval1 ov, ok_bind, hval2]
        rfl
      rw [hout]
      refine ⟨fun err herr => ?_, fun r hr => ?_⟩
      · cases hval.symm.trans herr
      · cases hval.symm.trans hr
        refine ⟨m.heap.next + 1, rfl, fun h2 hagree fuel2 hf2 => ?_⟩
        obtain ⟨f2, rfl⟩ : ∃ f2, fuel2 = f2 + 1 := ⟨fuel2 - 1, by omega⟩
        have h1 : h2.cell (m.heap.next + 1) = some (.geo g) :=
          (hagree (m.heap.next + 1) (by omega) (Nat.lt_succ_self _)).trans
            ((if_neg (by omega)).trans (if_pos rfl))
        rw [Heap.read, h1]
    · refine ⟨fun err herr => ?_, fun r hr => ?_⟩
      · cases herr
        unfold Memory.convertENUToGeo
        rw [hs, hi]
      · cases hr

/-! ## The claims -/

/-- C1: for every ellipsoid and every geodetic position (lat°, lon°, optional altitude,
taken as 0 when absent) `GeoToECEFConverter.convert` returns the geocentric position
`x = (N+h)·cos φ·cos λ`, `y = (N+h)·cos φ·sin λ`, `z = ((1−e2)·N+h)·sin φ`, with
`φ = lat·π/180`, `λ = lon·π/180` and `N = a/√(1 − e2·sin² φ)`. -/
theorem C1_geoToECEF_closed_form (E : Ellipsoid) (lat lon : ℝ) (alt : Option ℝ) :
    (GeoToECEFConverter.mk E).convert
        (ICoordinate.geo { latitude_ := lat, longitude_ := lon, altitude_ := alt }) =
      .ok (ICoordinate.ecef
        { x_ := (E.a / Real.sqrt (1 - E.e2 * Real.sin (lat * Real.pi / 180) ^ 2) + alt.getD 0)
                  * Real.cos (lat * Real.pi / 180) * Real.cos (lon * Real.pi / 180),
          y_ := (E.a / Real.sqrt (1 - E.e2 * Real.sin (lat * Real.pi / 180) ^ 2) + alt.getD 0)
                  * Real.cos (lat * Real.pi / 180) * Real.sin (lon * Real.pi / 180),
          z_ := ((1 - E.e2) * (E.a / Real.sqrt (1 - E.e2 * Real.sin (lat * Real.pi / 180) ^ 2))
                  + alt.getD 0) * Real.sin (lat * Real.pi / 180) }) := by
  rw [geoToECEF_convert_geo]
  unfold degToRad calcN
  simp only [pow_two, mul_assoc]

/-- C2: for every ellipsoid and every altitude `h`, the geodetic position (0°, 0°, h) is
converted to exactly `(a + h, 0, 0)`; (0°, 0°, 0) and (0°, 0°) without altitude both
give exactly `(a, 0, 0)`. -/
theorem C2_geoToECEF_at_equator (E : Ellipsoid) (h : ℝ) :
    (GeoToECEFConverter.mk E).convert (ICoordinate.geo (GeoCoordinate.make3 0 0 h)) =
        .ok (ICoordinate.ecef { x_ := E.a + h, y_ := 0, z_ := 0 }) ∧
      (GeoToECEFConverter.mk E).convert (ICoordinate.geo (GeoCoordinate.make3 0 0 0)) =
        .ok (ICoordinate.ecef { x_ := E.a, y_ := 0, z_ := 0 }) ∧
      (GeoToECEFConverter.mk E).convert (ICoordinate.geo (GeoCoordinate.make2 0 0)) =
        .ok (ICoordinate.ecef { x_ := E.a, y_ := 0, z_ := 0 }) := by
  refine ⟨?_, ?_, ?_⟩ <;>
    (simp only [GeoCoordinate.make3, GeoCoordinate.make2, geoToECEF_convert_geo]
     unfold degToRad calcN
     simp)

/-- C3: each of the six converters fails with `std::invalid_argument` whenever its input
is not of the frame it expects: `pg` is any position that is not a `GeoCoordinate`, `pe`
any that is not an `ECEFCoordinate`, `pl` any that is not an `ENUCoordinate`. -/
theorem C3_type_guard (E : Ellipsoid) (O : GeoCoordinate) (pg pe pl : ICoordinate)
    (hg : pg.asGeo = none) (he : pe.asECEF = none) (hl : pl.asENU = none) :
    (GeoToECEFConverter.mk E).convert pg = .error (Exception.invalid_argument
        "GeoToECEFConverter::convert expects input to be a GeoCoordinate.") ∧
      (ECEFToGeoConverter.mk E).convert pe = .error (Exception.invalid_argument
        "ECEFToGeoConverter::convert expects input to be an ECEFCoordinate.") ∧
      (ECEFToENUConverter.mk E O).convert pe = .error (Exception.invalid_argument
        "ECEFToENUConverter::convert expects input to be an ECEFCoordinate.") ∧
      (ENUToECEFConverter.mk E O).convert pl = .error (Exception.invalid_argument
        "ENUToECEFConverter::convert expects input to be an ENUCoordinate.") ∧
      (GeoToENUConverter.make E O).convert pg = .error (Exception.invalid_argument
        "GeoToENUConverter::convert expects input to be a GeoCoordinate.") ∧
      (ENUToGeoConverter.make E O).convert pl = .error (Exception.invalid_argument
        "ENUToGeoConverter::convert expects input to be an ENUCoordinate.") := by
  refine ⟨?_, ?_, ?_, ?_, ?_, ?_⟩
  · unfold GeoToECEFConverter.convert
    simp only [hg]
  · unfold ECEFToGeoConverter.convert
    simp only [he]
  · unfold ECEFToENUConverter.convert
    simp only [he]
  · unfold ENUToECEFConverter.convert
    simp only [hl]
  · unfold GeoToENUConverter.convert
    simp only [hg]
  · unfold ENUToGeoConverter.convert
    simp only [hl]

/-- Witness of C3 on the inputs of the tests: an `ECEFCoordinate` given to the converters
from geodetic positions, a `GeoCoordinate` given to the four others. -/
theorem C3_type_guard_witness :
    (GeoToECEFConverter.mk GRS80).convert
        (ICoordinate.ecef { x_ := 1, y_ := 2, z_ := 3 }) =
        .error (Exception.invalid_argument
          "GeoToECEFConverter::convert expects input to be a GeoCoordinate.") ∧
      (ECEFToGeoConverter.mk GRS80).convert (ICoordinate.geo (GeoCoordinate.make3 10 20 0)) =
        .error (Exception.invalid_argument
          "ECEFToGeoConverter::convert expects input to be an ECEFCoordinate.") ∧
      (ECEFToENUConverter.mk GRS80 (GeoCoordinate.make2 0 0)).convert
          (ICoordinate.geo (GeoCoordinate.make3 10 20 0)) =
        .error (Exception.invalid_argument
          "ECEFToENUConverter::convert expects input to be an ECEFCoordinate.") ∧
      (ENUToECEFConverter.mk GRS80 (GeoCoordinate.make2 0 0)).convert
          (ICoordinate.geo (GeoCoordinate.make3 10 20 0)) =
        .error (Exception.invalid_argument
          "ENUToECEFConverter::convert expects input to be an ENUCoordinate.") ∧
      (GeoToENUConverter.make GRS80 (GeoCoordinate.make2 0 0)).convert
          (ICoordinate.ecef { x_ := 1, y_ := 2, z_ := 3 }) =
        .error (Exception.invalid_argument
          "GeoToENUConverter::convert expects input to be a GeoCoordinate.") ∧
      (ENUToGeoConverter.make GRS80 (GeoCoordinate.make2 0 0)).convert
          (ICoordinate.geo (GeoCoordinate.make3 10 20 0)) =
        .error (Exception.invalid_argument
          "ENUToGeoConverter::convert expects input to be an ENUCoordinate.") :=
  C3_type_guard GRS80 (GeoCoordinate.make2 0 0)
    (ICoordinate.ecef { x_ := 1, y_ := 2, z_ := 3 })
    (ICoordinate.geo (GeoCoordinate.make3 10 20 0))
    (ICoordinate.geo (GeoCoordinate.make3 10 20 0)) rfl rfl rfl

/-- C4: for every ellipsoid, every origin (lat0°, lon0°, altitude `h0` taken as 0 when
absent) and every geocentric input `(X, Y, Z)`, `ECEFToENUConverter.convert` returns
`[east, north, up] = R·(X−X0, Y−Y0, Z−Z0)` with `(X0, Y0, Z0)` the closed-form geocentric
projection of the origin and `R` the matrix with rows `(−sin λ0, cos λ0, 0)`,
`(−sin φ0·cos λ0, −sin φ0·sin λ0, cos φ0)`, `(cos φ0·cos λ0, cos φ0·sin λ0, sin φ0)`. -/
theorem C4_ecefToENU_rotation (E : Ellipsoid) (lat0 lon0 : ℝ) (alt0 : Option ℝ)
    (X Y Z : ℝ) :
    let φ0 := lat0 * Real.pi / 180
    let l0 := lon0 * Real.pi / 180
    let h0 := alt0.getD 0
    let N0 := E.a / Real.sqrt (1 - E.e2 * Real.sin φ0 ^ 2)
    let X0 := (N0 + h0) * Real.cos φ0 * Real.cos l0
    let Y0 := (N0 + h0) * Real.cos φ0 * Real.sin l0
    let Z0 := ((1 - E.e2) * N0 + h0) * Real.sin φ0
    let R : Matrix (Fin 3) (Fin 3) ℝ :=
      !![-Real.sin l0, Real.cos l0, 0;
         -Real.sin φ0 * Real.cos l0, -Real.sin φ0 * Real.sin l0, Real.cos φ0;
         Real.cos φ0 * Real.cos l0, Real.cos φ0 * Real.sin l0, Real.sin φ0]
    let v := R.mulVec ![X - X0, Y - Y0, Z - Z0]
    (ECEFToENUConverter.mk E { latitude_ := lat0, longitude_ := lon0, altitude_ := alt0 }).convert
        (ICoordinate.ecef { x_ := X, y_ := Y, z_ := Z }) =
      .ok (ICoordinate.enu (v 0) (v 1) (v 2)
        (ICoordinate.geo { latitude_ := lat0, longitude_ := lon0, altitude_ := alt0 })) := by
  intro φ0 l0 h0 N0 X0 Y0 Z0 R v
  rw [ecefToENU_convert_ecef]
  simp only [v, R, X0, Y0, Z0, N0, h0, φ0, l0]
  unfold rotationECEFToENU originECEF degToRad
  simp only [vecSub3, pow_two, mul_assoc]

/-- C5, the code at a failing input: on WGS84 with the origin at (0°, 0°), the input
(east, north, up) = (100, 0, 0) is converted to `(a, 0, 100)`, whereas
`origin + Rᵗ·[east, north, up]`, with `R` the matrix used by `ECEFToENU`, is
`(a, 100, 0)`: the matrix is filled in already transposed and then transposed again. -/
theorem C5_enuToECEF_double_transpose :
    (ENUToECEFConverter.mk WGS84 (GeoCoordinate.make2 0 0)).convert
        (ICoordinate.enu 100 0 0 (ICoordinate.geo (GeoCoordinate.make2 0 0))) =
        .ok (ICoordinate.ecef { x_ := 6378137, y_ := 0, z_ := 100 }) ∧
      originECEF WGS84 (degToRad 0) (degToRad 0) 0 +
          (rotationECEFToENU (degToRad 0) (degToRad 0)).transpose.mulVec ![100, 0, 0] =
        ![6378137, 100, 0] := by
  constructor
  · rw [GeoCoordinate.make2, enuToECEF_convert_enu_expanded]
    unfold originECEF degToRad
    simp [WGS84, Ellipsoid.make]
    norm_num
  · unfold rotationECEFToENU originECEF degToRad
    rw [transpose3, mulVec3]
    simp [WGS84, Ellipsoid.make]
    norm_num

/-- C6, the code at a failing input: on WGS84 with the origin at (0°, 0°), the geocentric
position `(a + 100, 0, 0)` goes through `ECEFToENU` and then `ENUToECEF` to
`(a, 100, 0)`, which is 100 m away from the input in `x` and in `y`. -/
theorem C6_ecef_enu_roundtrip_diverges :
    ((ECEFToENUConverter.mk WGS84 (GeoCoordinate.make2 0 0)).convert
          (ICoordinate.ecef { x_ := 6378137 + 100, y_ := 0, z_ := 0 }) >>=
        (ENUToECEFConverter.mk WGS84 (GeoCoordinate.make2 0 0)).convert) =
        .ok (ICoordinate.ecef { x_ := 6378137, y_ := 100, z_ := 0 }) ∧
      (1e-3 : ℝ) < |6378137 - (6378137 + 100)| ∧ (1e-3 : ℝ) < |100 - 0| := by
  refine ⟨?_, ?_, ?_⟩
  · rw [GeoCoordinate.make2, ecefToENU_convert_ecef, ok_bind,
      enuToECEF_convert_enu_expanded]
    unfold rotationECEFToENU originECEF degToRad
    simp [vecSub3, mulVec3, WGS84, Ellipsoid.make]
    norm_num
  · norm_num
  · norm_num

/-- C7, the code at a failing input: on WGS84 with the origin `O` = (0°, 0°, 0 m), the
geodetic position `P` = (0°, 0°, 100 m), 100 m above `O`, goes through `GeoToENU` to
(east, north, up) = (0, 0, 100) and then through `ENUToGeo` to latitude 0°, longitude
`atan2(100, a)` in degrees and altitude `√(a² + 100²) − a`, which is less than 1 m: the
altitude is more than 0.01 m (in fact more than 99 m) away from the 100 m of `P`.
`ENUToECEF` multiplies by the matrix of `ECEFToENU` where its transpose is meant, and so
puts the 100 m of `up` on the `y` axis of the geocentric frame. -/
theorem C7_geo_enu_roundtrip_diverges :
    ((GeoToENUConverter.make WGS84 (GeoCoordinate.make3 0 0 0)).convert
          (ICoordinate.geo (GeoCoordinate.make3 0 0 100)) >>=
        (ENUToGeoConverter.make WGS84 (GeoCoordinate.make3 0 0 0)).convert) =
        .ok (ICoordinate.geo (GeoCoordinate.make3 0 (radToDeg (atan2 100 6378137))
          (Real.sqrt (6378137 * 6378137 + 100 * 100) - 6378137))) ∧
      (1e-2 : ℝ) < |(Real.sqrt (6378137 * 6378137 + 100 * 100) - 6378137) - 100| := by
  have ha : WGS84.a = 6378137 := by
    simp [WGS84, Ellipsoid.make]
    norm_num
  have he : 0 ≤ 1 - WGS84.e2 := by
    simp [WGS84, Ellipsoid.make, Ellipsoid.eccentricitySquared]
    norm_num
  have hp : (0 : ℝ) ≤ Real.sqrt (6378137 * 6378137 + 100 * 100) * (1 - WGS84.e2) :=
    mul_nonneg (Real.sqrt_nonneg _) he
  have hlt : Real.sqrt (6378137 * 6378137 + 100 * 100) < 6378137 + 1 := by
    rw [Real.sqrt_lt' (by norm_num)]
    norm_num
  have hge : (6378137 : ℝ) ≤ Real.sqrt (6378137 * 6378137 + 100 * 100) := by
    apply Real.le_sqrt_of_sq_le
    norm_num
  constructor
  · rw [GeoCoordinate.make3, GeoCoordinate.make3, geoToENU_convert_geo,
      geoToECEF_convert_geo, ok_bind, ecefToENU_convert_ecef, ok_bind,
      enuToGeo_convert_enu, enuToECEF_convert_enu_expanded, ok_bind]
    unfold rotationECEFToENU originECEF calcN degToRad
    simp only [vecSub3, mulVec3, ha]
    simp only [zero_mul, zero_div, Real.sin_zero, Real.cos_zero, mul_zero, sub_zero,
      Real.sqrt_one, div_one, mul_one, one_mul, Option.getD_some, add_zero, neg_zero, zero_add,
      Matrix.cons_val_zero, Matrix.cons_val_one, Matrix.head_cons, Matrix.cons_val_two,
      Matrix.tail_cons, add_sub_cancel_left, sub_self]
    rw [ecefToGeo_convert_ecef]
    simp only [ha]
    have h0 := atan2_zero_of_nonneg _ hp
    rw [h0]
    rw [ecefToGeo_iterate_of_close _ _ _ _ _ _ _ (by unfold tol; simp only [sub_self, abs_zero]; norm_num)]
    unfold radToDeg
    simp
  · have h2 : (1e-2 : ℝ) = 1 / 100 := by norm_num
    generalize Real.sqrt (6378137 * 6378137 + 100 * 100) = s at hlt hge ⊢
    rw [abs_sub_comm, abs_of_nonneg (by linarith), h2]
    linarith

/-- C8: for every ellipsoid and every origin `O` (with or without altitude), the
geocentric projection `GeoToECEF(O)` is converted by `ECEFToENU` anchored at `O` to
east = north = up = 0, and `GeoToENU` anchored at `O` maps `O` itself to `(0, 0, 0)`. -/
theorem C8_identity_at_origin (E : Ellipsoid) (lat0 lon0 : ℝ) (alt0 : Option ℝ) :
    ((GeoToECEFConverter.mk E).convert
          (ICoordinate.geo { latitude_ := lat0, longitude_ := lon0, altitude_ := alt0 }) >>=
        (ECEFToENUConverter.mk E
          { latitude_ := lat0, longitude_ := lon0, altitude_ := alt0 }).convert) =
        .ok (ICoordinate.enu 0 0 0
          (ICoordinate.geo { latitude_ := lat0, longitude_ := lon0, altitude_ := alt0 })) ∧
      (GeoToENUConverter.make E
          { latitude_ := lat0, longitude_ := lon0, altitude_ := alt0 }).convert
          (ICoordinate.geo { latitude_ := lat0, longitude_ := lon0, altitude_ := alt0 }) =
        .ok (ICoordinate.enu 0 0 0
          (ICoordinate.geo { latitude_ := lat0, longitude_ := lon0, altitude_ := alt0 })) := by
  exact ⟨ecefToENU_convert_origin E lat0 lon0 alt0,
    by rw [geoToENU_convert_geo]; exact ecefToENU_convert_origin E lat0 lon0 alt0⟩

/-- C9: with the origin at latitude 0°, longitude 0° and altitude 0 or absent, for every
ellipsoid and every geocentric input `(x, y, z)`, `ECEFToENU` returns east = `y`,
north = `z`, up = `x − a`; in particular `(a, 0, 0)` gives `(0, 0, 0)` and
`(a + 100, 0, 0)` gives `(0, 0, 100)`. -/
theorem C9_ecefToENU_origin_zero (E : Ellipsoid) (x y z : ℝ) :
    ((ECEFToENUConverter.mk E (GeoCoordinate.make3 0 0 0)).convert
          (ICoordinate.ecef { x_ := x, y_ := y, z_ := z }) =
        .ok (ICoordinate.enu y z (x - E.a) (ICoordinate.geo (GeoCoordinate.make3 0 0 0))) ∧
      (ECEFToENUConverter.mk E (GeoCoordinate.make2 0 0)).convert
          (ICoordinate.ecef { x_ := x, y_ := y, z_ := z }) =
        .ok (ICoordinate.enu y z (x - E.a) (ICoordinate.geo (GeoCoordinate.make2 0 0)))) ∧
      ((ECEFToENUConverter.mk E (GeoCoordinate.make2 0 0)).convert
          (ICoordinate.ecef { x_ := E.a, y_ := 0, z_ := 0 }) =
        .ok (ICoordinate.enu 0 0 0 (ICoordinate.geo (GeoCoordinate.make2 0 0))) ∧
      (ECEFToENUConverter.mk E (GeoCoordinate.make2 0 0)).convert
          (ICoordinate.ecef { x_ := E.a + 100, y_ := 0, z_ := 0 }) =
        .ok (ICoordinate.enu 0 0 100 (ICoordinate.geo (GeoCoordinate.make2 0 0)))) := by
  refine ⟨⟨?_, ?_⟩, ?_, ?_⟩ <;>
    (simp only [GeoCoordinate.make3, GeoCoordinate.make2, ecefToENU_convert_ecef]
     unfold rotationECEFToENU originECEF degToRad
     simp [vecSub3, mulVec3])

/-- C10: with the origin at latitude 0°, longitude 0° (altitude 0 or absent), for every
ellipsoid and every local-tangent-plane input `(e, n, u)` (whatever origin it carries),
`ENUToECEF` returns the geocentric position `(a + n, u, e)`; in particular `(100, 0, 0)`
gives `(a, 0, 100)`, `(0, 50, 0)` gives `(a + 50, 0, 0)` and `(0, 0, 30)` gives
`(a, 30, 0)`. -/
theorem C10_enuToECEF_origin_zero (E : Ellipsoid) (e n u : ℝ) (o : ICoordinate) :
    ((ENUToECEFConverter.mk E (GeoCoordinate.make2 0 0)).convert (ICoordinate.enu e n u o) =
        .ok (ICoordinate.ecef { x_ := E.a + n, y_ := u, z_ := e }) ∧
      (ENUToECEFConverter.mk E (GeoCoordinate.make3 0 0 0)).convert (ICoordinate.enu e n u o) =
        .ok (ICoordinate.ecef { x_ := E.a + n, y_ := u, z_ := e })) ∧
      ((ENUToECEFConverter.mk E (GeoCoordinate.make2 0 0)).convert
          (ICoordinate.enu 100 0 0 o) =
        .ok (ICoordinate.ecef { x_ := E.a, y_ := 0, z_ := 100 }) ∧
      (ENUToECEFConverter.mk E (GeoCoordinate.make2 0 0)).convert
          (ICoordinate.enu 0 50 0 o) =
        .ok (ICoordinate.ecef { x_ := E.a + 50, y_ := 0, z_ := 0 }) ∧
      (ENUToECEFConverter.mk E (GeoCoordinate.make2 0 0)).convert
          (ICoordinate.enu 0 0 30 o) =
        .ok (ICoordinate.ecef { x_ := E.a, y_ := 30, z_ := 0 })) := by
  refine ⟨⟨?_, ?_⟩, ?_, ?_, ?_⟩ <;>
    (simp only [GeoCoordinate.make3, GeoCoordinate.make2, enuToECEF_convert_enu_expanded]
     unfold originECEF degToRad
     simp)

/-- C11: for every ellipsoid and every origin `O`, `ENUToECEF` anchored at `O` maps the
zero offset (whatever origin the input carries) to exactly the geocentric position
`GeoToECEF(O)`; for WGS84 and the origin (0°, 0°) this is `(6378137, 0, 0)`. -/
theorem C11_enuToECEF_zero_offset (E : Ellipsoid) (lat0 lon0 : ℝ) (alt0 : Option ℝ)
    (o : ICoordinate) :
    (ENUToECEFConverter.mk E
          { latitude_ := lat0, longitude_ := lon0, altitude_ := alt0 }).convert
          (ICoordinate.enu 0 0 0 o) =
        (GeoToECEFConverter.mk E).convert
          (ICoordinate.geo { latitude_ := lat0, longitude_ := lon0, altitude_ := alt0 }) ∧
      (ENUToECEFConverter.mk WGS84 (GeoCoordinate.make2 0 0)).convert
          (ICoordinate.enu 0 0 0 o) =
        .ok (ICoordinate.ecef { x_ := 6378137, y_ := 0, z_ := 0 }) := by
  constructor
  · rw [enuToECEF_convert_enu_expanded, geoToECEF_convert_geo]
    unfold originECEF calcN
    simp
  · rw [GeoCoordinate.make2, enuToECEF_convert_enu_expanded]
    unfold originECEF degToRad
    simp [WGS84, Ellipsoid.make]
    norm_num

/-- C12, counterexample: on WGS84, at the geocentric input `(6379137, 0, 1e-6)` (1 km above
the equator at longitude 0°, one micrometre north of the equatorial plane) the seed `lat_0`
is within the tolerance of the initial `lat_prev = 0`, so the loop body is not entered and
the returned latitude is `lat_0`; the latitude of the claim is `lat_1`, the least `k` being
0, and `lat_1 ≠ lat_0`. -/
theorem C12_seed_within_tolerance :
    (∃ lon h : ℝ,
        (ECEFToGeoConverter.mk WGS84).convert
            (ICoordinate.ecef { x_ := 6379137, y_ := 0, z_ := 1e-6 }) =
          .ok (ICoordinate.geo (GeoCoordinate.make3
            (radToDeg (claimedLatSeq WGS84.a WGS84.e2 1e-6
              (Real.sqrt (6379137 ^ 2 + 0 ^ 2)) 0)) lon h))) ∧
      claimedLatitude WGS84.a WGS84.e2 6379137 0 1e-6 =
        claimedLatSeq WGS84.a WGS84.e2 1e-6 (Real.sqrt (6379137 ^ 2 + 0 ^ 2)) 1 ∧
      claimedLatSeq WGS84.a WGS84.e2 1e-6 (Real.sqrt (6379137 ^ 2 + 0 ^ 2)) 1 ≠
        claimedLatSeq WGS84.a WGS84.e2 1e-6 (Real.sqrt (6379137 ^ 2 + 0 ^ 2)) 0 := by
  have ha : WGS84.a = 6378137 := by
    simp [WGS84, Ellipsoid.make]
    norm_num
  have he0 : 0 < WGS84.e2 := by
    simp [WGS84, Ellipsoid.make, Ellipsoid.eccentricitySquared]
    norm_num
  have he1 : WGS84.e2 < 67 / 10000 := by
    simp [WGS84, Ellipsoid.make, Ellipsoid.eccentricitySquared]
    norm_num
  have hp : Real.sqrt ((6379137 : ℝ) ^ 2 + 0 ^ 2) = 6379137 := by
    rw [show ((6379137 : ℝ) ^ 2 + 0 ^ 2) = 6379137 ^ 2 by norm_num,
      Real.sqrt_sq (by norm_num)]
  have hz : (1e-6 : ℝ) = 1 / 1000000 := by norm_num
  obtain ⟨h0, h1, hne⟩ := claimedLatSeq_near_equator WGS84.e2 he0 he1
  rw [← ha, ← hp, ← hz] at h0 h1 hne
  refine ⟨?_, ?_, hne⟩
  · rw [ecefToGeo_convert_ecef, ecefToGeo_iterate_eq_claimed, if_pos h0]
    exact ⟨_, _, rfl⟩
  · unfold claimedLatitude
    have hex : ∃ k, k < 100 ∧
        |claimedLatSeq WGS84.a WGS84.e2 1e-6 (Real.sqrt (6379137 ^ 2 + 0 ^ 2)) (k + 1) -
          claimedLatSeq WGS84.a WGS84.e2 1e-6 (Real.sqrt (6379137 ^ 2 + 0 ^ 2)) k| ≤ 1e-12 :=
      ⟨0, by norm_num, h1⟩
    rw [dif_pos hex, (Nat.find_eq_zero hex).mpr ⟨by norm_num, h1⟩]

/-- C12, amended: for every ellipsoid and geocentric input `(x, y, z)`, with
`p = √(x² + y²)` and the sequence `lat_k` of the specification, the latitude returned by
`ECEFToGeo` is (in degrees) that of `lat_0` when `|lat_0| ≤ 1e-12` (the first test of the
loop compares `lat_0` with the initial `lat_prev = 0`), and otherwise that of `lat_{k+1}`
for the least `k ≥ 0` with `|lat_{k+1} − lat_k| ≤ 1e-12`, or of `lat_100` if there is no
such `k` below 100. -/
theorem C12_ecefToGeo_latitude (E : Ellipsoid) (x y z : ℝ) :
    ∃ lon h : ℝ,
      (ECEFToGeoConverter.mk E).convert (ICoordinate.ecef { x_ := x, y_ := y, z_ := z }) =
        .ok (ICoordinate.geo (GeoCoordinate.make3
          (radToDeg
            (if |claimedLatSeq E.a E.e2 z (Real.sqrt (x ^ 2 + y ^ 2)) 0| ≤ 1e-12 then
              claimedLatSeq E.a E.e2 z (Real.sqrt (x ^ 2 + y ^ 2)) 0
            else claimedLatitude E.a E.e2 x y z))
          lon h)) := by
  rw [ecefToGeo_convert_ecef, ecefToGeo_iterate_eq_claimed]
  exact ⟨_, _, rfl⟩

/-- C13: for every ellipsoid and every geocentric input, whether or not the latitude
iteration ever meets the tolerance, the loop of `ECEFToGeo` is left with `iter ≤ 100`
(`iter` starts at 0 and counts the passes through the body), and the conversion returns a
geodetic position built from the latitude the loop was left with, not an error. -/
theorem C13_ecefToGeo_loop_bounded (E : Ellipsoid) (X Y Z : ℝ) :
    (ECEFToGeoConverter.iterate E.a E.e2 Z (Real.sqrt (X * X + Y * Y))
        (atan2 Z (Real.sqrt (X * X + Y * Y) * (1 - E.e2))) 0 0).2.2 ≤ 100 ∧
      (ECEFToGeoConverter.mk E).convert (ICoordinate.ecef { x_ := X, y_ := Y, z_ := Z }) =
        .ok (ICoordinate.geo (GeoCoordinate.make3
          (radToDeg (ECEFToGeoConverter.iterate E.a E.e2 Z (Real.sqrt (X * X + Y * Y))
            (atan2 Z (Real.sqrt (X * X + Y * Y) * (1 - E.e2))) 0 0).1)
          (radToDeg (atan2 Y X))
          (Real.sqrt (X * X + Y * Y) /
              Real.cos (ECEFToGeoConverter.iterate E.a E.e2 Z (Real.sqrt (X * X + Y * Y))
                (atan2 Z (Real.sqrt (X * X + Y * Y) * (1 - E.e2))) 0 0).1 -
            E.a / Real.sqrt (1 - E.e2 *
              Real.sin (ECEFToGeoConverter.iterate E.a E.e2 Z (Real.sqrt (X * X + Y * Y))
                (atan2 Z (Real.sqrt (X * X + Y * Y) * (1 - E.e2))) 0 0).1 *
              Real.sin (ECEFToGeoConverter.iterate E.a E.e2 Z (Real.sqrt (X * X + Y * Y))
                (atan2 Z (Real.sqrt (X * X + Y * Y) * (1 - E.e2))) 0 0).1)))) :=
  ⟨ecefToGeo_iterate_count _ _ _ _ _ _ _ 0 rfl (Nat.zero_le _), ecefToGeo_convert_ecef E X Y Z⟩

/-- C14: for every ellipsoid and every geocentric input, `ECEFToGeo` returns a geodetic
position whose altitude is present, so that its value list has exactly 3 numbers. -/
theorem C14_ecefToGeo_altitude_present (E : Ellipsoid) (X Y Z : ℝ) :
    ∃ g : GeoCoordinate,
      (ECEFToGeoConverter.mk E).convert (ICoordinate.ecef { x_ := X, y_ := Y, z_ := Z }) =
        .ok (ICoordinate.geo g) ∧
      g.getAltitude.isSome = true ∧ g.getValues.length = 3 ∧
      (ICoordinate.geo g).getValues.length = 3 :=
  ⟨_, ecefToGeo_convert_ecef E X Y Z, rfl, rfl, rfl⟩

/-- C15, counterexample: for the ellipsoid built from `a = −1`, `f = 0` (so `e2 = 0 < 1`),
the input `(a, 0, 0) = (−1, 0, 0)` lies in the equatorial plane with `x² + y² > 0`, and
`ECEFToGeo` returns (0°, 180°, 2), not (0°, 0°, 0). -/
theorem C15_negative_axis_counterexample :
    (Ellipsoid.make (-1) 0).e2 < 1 ∧ (0 : ℝ) < (-1) * (-1) + 0 * 0 ∧
      (ECEFToGeoConverter.mk (Ellipsoid.make (-1) 0)).convert
          (ICoordinate.ecef { x_ := (Ellipsoid.make (-1) 0).a, y_ := 0, z_ := 0 }) =
        .ok (ICoordinate.geo (GeoCoordinate.make3 0 180 2)) ∧
      (180 : ℝ) ≠ 0 ∧ (2 : ℝ) ≠ 0 := by
  have he : (Ellipsoid.make (-1) 0).e2 = 0 := by
    simp [Ellipsoid.make, Ellipsoid.eccentricitySquared]
  have hat : atan2 0 (-1) = Real.pi := by
    have h : (⟨-1, 0⟩ : ℂ) = -1 := by
      apply Complex.ext <;> simp
    unfold atan2
    rw [h, Complex.arg_neg_one]
  have hdeg : radToDeg Real.pi = 180 := by
    unfold radToDeg
    field_simp
  refine ⟨by rw [he]; norm_num, by norm_num, ?_, by norm_num, by norm_num⟩
  rw [ecefToGeo_convert_equatorial _ (by rw [he]; norm_num)]
  simp only [Ellipsoid.make, hat, hdeg]
  norm_num

/-- C15, amended: for every ellipsoid with `e2 < 1` and every geocentric input `(x, y, 0)`
with `x² + y² > 0`, `ECEFToGeo` returns latitude exactly 0°, longitude `atan2(y, x)·180/π`
and altitude `√(x² + y²) − a`; in particular, when `a > 0`, `(a, 0, 0)` gives (0°, 0°, 0)
and `(a + 100, 0, 0)` gives (0°, 0°, 100). -/
theorem C15_ecefToGeo_equatorial_plane (E : Ellipsoid) (x y : ℝ) (he2 : E.e2 < 1)
    (_hxy : 0 < x * x + y * y) :
    (ECEFToGeoConverter.mk E).convert (ICoordinate.ecef { x_ := x, y_ := y, z_ := 0 }) =
        .ok (ICoordinate.geo (GeoCoordinate.make3 0 (atan2 y x * 180 / Real.pi)
          (Real.sqrt (x * x + y * y) - E.a))) ∧
      (0 < E.a →
        (ECEFToGeoConverter.mk E).convert
            (ICoordinate.ecef { x_ := E.a, y_ := 0, z_ := 0 }) =
          .ok (ICoordinate.geo (GeoCoordinate.make3 0 0 0)) ∧
        (ECEFToGeoConverter.mk E).convert
            (ICoordinate.ecef { x_ := E.a + 100, y_ := 0, z_ := 0 }) =
          .ok (ICoordinate.geo (GeoCoordinate.make3 0 0 100))) := by
  have key : ∀ r : ℝ, 0 < r →
      (ECEFToGeoConverter.mk E).convert (ICoordinate.ecef { x_ := r, y_ := 0, z_ := 0 }) =
        .ok (ICoordinate.geo (GeoCoordinate.make3 0 0 (r - E.a))) := by
    intro r hr
    rw [ecefToGeo_convert_equatorial E he2.le, atan2_zero_of_nonneg r hr.le]
    unfold radToDeg
    simp [Real.sqrt_mul_self hr.le]
  refine ⟨?_, fun ha => ⟨?_, ?_⟩⟩
  · rw [ecefToGeo_convert_equatorial E he2.le]
    rfl
  · rw [key E.a ha, sub_self]
  · rw [key (E.a + 100) (by linarith), add_sub_cancel_left]

/-- Witness of the amended C15: WGS84 and the input `(0, 6378237, 0)`, on the equator at
longitude 90° and 100 m above the ellipsoid, together with the two inputs of the tests. -/
theorem C15_ecefToGeo_equatorial_plane_witness :
    (ECEFToGeoConverter.mk WGS84).convert
          (ICoordinate.ecef { x_ := 0, y_ := 6378237, z_ := 0 }) =
        .ok (ICoordinate.geo (GeoCoordinate.make3 0 (atan2 6378237 0 * 180 / Real.pi)
          (Real.sqrt (0 * 0 + 6378237 * 6378237) - WGS84.a))) ∧
      (ECEFToGeoConverter.mk WGS84).convert
          (ICoordinate.ecef { x_ := WGS84.a, y_ := 0, z_ := 0 }) =
        .ok (ICoordinate.geo (GeoCoordinate.make3 0 0 0)) ∧
      (ECEFToGeoConverter.mk WGS84).convert
          (ICoordinate.ecef { x_ := WGS84.a + 100, y_ := 0, z_ := 0 }) =
        .ok (ICoordinate.geo (GeoCoordinate.make3 0 0 100)) :=
  have h := C15_ecefToGeo_equatorial_plane WGS84 0 6378237
    (by simp [WGS84, Ellipsoid.make, Ellipsoid.eccentricitySquared]; norm_num)
    (by norm_num)
  ⟨h.1, h.2 (by simp [WGS84, Ellipsoid.make]; norm_num)⟩

/-- C16: on WGS84, for every geodetic position `P = (lat, lon, h)` with |lat| ≤ 89°,
−180° < lon ≤ 180° and 0 ≤ h ≤ 100000 m, `ECEFToGeo(GeoToECEF(P))` is a geodetic position
that agrees with `P` within 1e-4° in latitude and in longitude and within 1e-2 m in
altitude (real arithmetic; the longitude comes back exactly). -/
theorem C16_geo_ecef_roundtrip_wgs84 (lat lon h : ℝ)
    (hlat : |lat| ≤ 89) (hlo : -180 < lon) (hhi : lon ≤ 180) (hh0 : 0 ≤ h)
    (hh1 : h ≤ 100000) :
    ∃ lat' lon' h' : ℝ,
      ((GeoToECEFConverter.mk WGS84).convert
            (ICoordinate.geo (GeoCoordinate.make3 lat lon h)) >>=
          (ECEFToGeoConverter.mk WGS84).convert) =
        .ok (ICoordinate.geo (GeoCoordinate.make3 lat' lon' h')) ∧
      |lat' - lat| ≤ 1e-4 ∧ |lon' - lon| ≤ 1e-4 ∧ |h' - h| ≤ 1e-2 := by
  have hpi := Real.pi_pos
  have hpi1 := Real.pi_gt_d2
  have hpi2 := Real.pi_lt_d2
  have ha : WGS84.a = 6378137 := by
    simp [WGS84, Ellipsoid.make]
    norm_num
  have he0 : 0 < WGS84.e2 := by
    simp [WGS84, Ellipsoid.make, Ellipsoid.eccentricitySquared]
    norm_num
  have he1 : WGS84.e2 < 67 / 10000 := by
    simp [WGS84, Ellipsoid.make, Ellipsoid.eccentricitySquared]
    norm_num
  -- the angles in radians
  have hφabs : |degToRad lat| ≤ 89 * Real.pi / 180 := by
    unfold degToRad
    rw [abs_div, abs_mul, abs_of_pos hpi, abs_of_pos (by norm_num : (0 : ℝ) < 180)]
    exact div_le_div_of_nonneg_right (mul_le_mul_of_nonneg_right hlat hpi.le) (by norm_num)
  have hφ1 : -(Real.pi / 2) < degToRad lat := by
    have := (abs_le.mp hφabs).1
    linarith
  have hφ2 : degToRad lat < Real.pi / 2 := by
    have := (abs_le.mp hφabs).2
    linarith
  have hl1 : -Real.pi < degToRad lon := by
    unfold degToRad
    rw [lt_div_iff₀ (by norm_num)]
    nlinarith
  have hl2 : degToRad lon ≤ Real.pi := by
    unfold degToRad
    rw [div_le_iff₀ (by norm_num)]
    nlinarith
  have hback : ∀ d : ℝ, radToDeg (degToRad d) = d := by
    intro d
    unfold radToDeg degToRad
    field_simp
  have hcosφ := cos_ge_of_abs_le_89 _ hφabs
  rw [GeoCoordinate.make3, geoToECEF_convert_geo, ok_bind, ecefToGeo_convert_ecef]
  unfold calcN
  simp only [Option.getD_some, ha]
  have hbl := hback lat
  have hbn := hback lon
  generalize degToRad lat = φ at *
  generalize degToRad lon = l at *
  generalize WGS84.e2 = e at *
  -- the prime-vertical radius at `φ`
  have hsφ : Real.sin φ * Real.sin φ ≤ 1 := by
    have := Real.sin_sq_le_one φ
    rwa [pow_two] at this
  have hrad1 : 1 - e * Real.sin φ * Real.sin φ ≤ 1 := by
    have := mul_nonneg he0.le (mul_self_nonneg (Real.sin φ))
    rw [mul_assoc]
    linarith
  have hrad0 : ((99 : ℝ) / 100) ^ 2 ≤ 1 - e * Real.sin φ * Real.sin φ := by
    have := mul_le_mul_of_nonneg_left hsφ he0.le
    rw [mul_assoc]
    norm_num
    linarith
  have hA0 : (99 : ℝ) / 100 ≤ Real.sqrt (1 - e * Real.sin φ * Real.sin φ) :=
    Real.le_sqrt_of_sq_le hrad0
  have hA1 : Real.sqrt (1 - e * Real.sin φ * Real.sin φ) ≤ 1 := by
    exact (Real.sqrt_le_sqrt hrad1).trans Real.sqrt_one.le
  have hApos : 0 < Real.sqrt (1 - e * Real.sin φ * Real.sin φ) := by linarith
  have hNa : (6378137 : ℝ) ≤ 6378137 / Real.sqrt (1 - e * Real.sin φ * Real.sin φ) := by
    rw [le_div_iff₀ hApos]
    nlinarith
  have hNb : (6378137 : ℝ) / Real.sqrt (1 - e * Real.sin φ * Real.sin φ) ≤ 6442563 := by
    rw [div_le_iff₀ hApos]
    nlinarith
  have hr : 0 < (6378137 / Real.sqrt (1 - e * Real.sin φ * Real.sin φ) + h) * Real.cos φ :=
    mul_pos (by linarith) (by linarith)
  have hc : ((99 : ℝ) / 100) ^ 2 ≤ 1 - e := by
    norm_num
    linarith
  have hK : (1 + e / (99 / 100)) / (99 / 100 : ℝ) ^ 2 ≤ 103 / 100 := by
    rw [div_le_iff₀ (by norm_num)]
    have : e / (99 / 100) = e * (100 / 99) := by ring
    rw [this]
    norm_num
    linarith
  have hq : e * 6378137 * ((1 + e / (99 / 100)) / (99 / 100 : ℝ) ^ 2) ≤
      1 / 2 * ((6378137 / Real.sqrt (1 - e * Real.sin φ * Real.sin φ) + h) * Real.cos φ) := by
    have h1 : e * 6378137 * ((1 + e / (99 / 100)) / (99 / 100 : ℝ) ^ 2) ≤
        67 / 10000 * 6378137 * (103 / 100) :=
      mul_le_mul (by linarith) hK (by positivity) (by norm_num)
    have h2 : (6378137 : ℝ) * (174 / 10000) ≤
        (6378137 / Real.sqrt (1 - e * Real.sin φ * Real.sin φ) + h) * Real.cos φ :=
      mul_le_mul (by linarith) hcosφ (by norm_num) (by linarith)
    norm_num at h1 h2 ⊢
    linarith
  have htol : tol = 1 / 10 ^ 12 := by
    unfold tol
    norm_num
  have herr := ecefToGeo_latitude_error 6378137 e (99 / 100) φ h (by norm_num) he0.le
    (by norm_num) hc hφ1 hφ2 hh0 hq
  have halt := altitude_error 6378137 e (99 / 100) (174 / 10000) tol φ _ h (by norm_num)
    he0.le (by norm_num) hc herr hcosφ (by rw [htol]; norm_num) hh0
  rw [sqrt_planar _ _ hr.le, atan2_polar _ _ hr hl1 hl2]
  refine ⟨_, _, _, rfl, ?_, ?_, ?_⟩
  · rw [← hbl]
    generalize (ECEFToGeoConverter.iterate 6378137 e _ _ _ 0 0).1 = out at herr ⊢
    have h1 : radToDeg out - radToDeg φ = (out - φ) * (180 / Real.pi) := by
      unfold radToDeg
      ring
    have h2 : (180 : ℝ) / Real.pi ≤ 60 := by
      rw [div_le_iff₀ hpi]
      linarith
    rw [h1, abs_mul, abs_of_pos (by positivity : (0 : ℝ) < 180 / Real.pi)]
    have h3 : |out - φ| * (180 / Real.pi) ≤ tol * 60 :=
      mul_le_mul herr h2 (by positivity) (by rw [htol]; norm_num)
    refine h3.trans ?_
    rw [htol]
    norm_num
  · rw [hbn, sub_self, abs_zero]
    norm_num
  · refine halt.trans ?_
    rw [htol]
    generalize (6378137 : ℝ) / Real.sqrt (1 - e * Real.sin φ * Real.sin φ) = N at hNa hNb ⊢
    have h1 : (N + h) * (1 / 10 ^ 12) / (174 / 10000 - 1 / 10 ^ 12) ≤
        6542563 * (1 / 10 ^ 12) / (174 / 10000 - 1 / 10 ^ 12) := by
      apply div_le_div_of_nonneg_right _ (by norm_num)
      apply mul_le_mul_of_nonneg_right _ (by norm_num)
      linarith
    have h2 : 6378137 * e * (1 / 10 ^ 12) / (99 / 100 : ℝ) ^ 3 ≤
        6378137 * (67 / 10000) * (1 / 10 ^ 12) / (99 / 100 : ℝ) ^ 3 := by
      apply div_le_div_of_nonneg_right _ (by norm_num)
      apply mul_le_mul_of_nonneg_right _ (by norm_num)
      linarith
    refine (add_le_add h1 h2).trans ?_
    norm_num

/-- Witness of C16: the position (45°, 45°, 0) of the round-trip test. -/
theorem C16_geo_ecef_roundtrip_wgs84_witness :
    ∃ lat' lon' h' : ℝ,
      ((GeoToECEFConverter.mk WGS84).convert
            (ICoordinate.geo (GeoCoordinate.make3 45 45 0)) >>=
          (ECEFToGeoConverter.mk WGS84).convert) =
        .ok (ICoordinate.geo (GeoCoordinate.make3 lat' lon' h')) ∧
      |lat' - 45| ≤ 1e-4 ∧ |lon' - 45| ≤ 1e-4 ∧ |h' - 0| ≤ 1e-2 :=
  C16_geo_ecef_roundtrip_wgs84 45 45 0 (by rw [abs_of_pos] <;> norm_num) (by norm_num)
    (by norm_num) (by norm_num) (by norm_num)

/-- C17: each composite converter equals the chain of its two primitives built with the
same ellipsoid and origin: `GeoToENU` on a geodetic input is `GeoToECEF` followed by
`ECEFToENU`, and `ENUToGeo` on a local-tangent-plane input is `ENUToECEF` followed by
`ECEFToGeo`. -/
theorem C17_composites_are_chains (E : Ellipsoid) (O g : GeoCoordinate) (e n u : ℝ)
    (o : ICoordinate) :
    (GeoToENUConverter.make E O).convert (ICoordinate.geo g) =
        ((GeoToECEFConverter.mk E).convert (ICoordinate.geo g) >>=
          (ECEFToENUConverter.mk E O).convert) ∧
      (ENUToGeoConverter.make E O).convert (ICoordinate.enu e n u o) =
        ((ENUToECEFConverter.mk E O).convert (ICoordinate.enu e n u o) >>=
          (ECEFToGeoConverter.mk E).convert) :=
  ⟨geoToENU_convert_geo E O g, enuToGeo_convert_enu E O e n u o⟩

/-- C18: for every ellipsoid with `a > 0` and `e2 < 1` and every origin on the equator
`O = (0°, lon, h)` with −180° < lon ≤ 180° and `a + h > 0`, `ENUToGeo` anchored at `O` maps
the zero offset (whatever origin the input carries) back to latitude 0°, longitude `lon`,
altitude `h`; in particular the origin (0°, 0°, 0) gives (0°, 0°, 0). -/
theorem C18_enuToGeo_zero_offset_equator (E : Ellipsoid) (lon h : ℝ) (o : ICoordinate)
    (ha : 0 < E.a) (he2 : E.e2 < 1) (hlo : -180 < lon) (hhi : lon ≤ 180)
    (hpos : 0 < E.a + h) :
    (ENUToGeoConverter.make E (GeoCoordinate.make3 0 lon h)).convert
          (ICoordinate.enu 0 0 0 o) =
        .ok (ICoordinate.geo (GeoCoordinate.make3 0 lon h)) ∧
      (ENUToGeoConverter.make E (GeoCoordinate.make3 0 0 0)).convert
          (ICoordinate.enu 0 0 0 o) =
        .ok (ICoordinate.geo (GeoCoordinate.make3 0 0 0)) := by
  have hpi := Real.pi_pos
  have key : ∀ (l k : ℝ), -180 < l → l ≤ 180 → 0 < E.a + k →
      (ENUToGeoConverter.make E (GeoCoordinate.make3 0 l k)).convert
          (ICoordinate.enu 0 0 0 o) =
        .ok (ICoordinate.geo (GeoCoordinate.make3 0 l k)) := by
    intro l k hl1 hl2 hk
    have h1 : -Real.pi < degToRad l := by
      unfold degToRad
      rw [lt_div_iff₀ (by norm_num)]
      nlinarith
    have h2 : degToRad l ≤ Real.pi := by
      unfold degToRad
      rw [div_le_iff₀ (by norm_num)]
      nlinarith
    have hback : radToDeg (degToRad l) = l := by
      unfold radToDeg degToRad
      field_simp
    have hsq : ((E.a + k) * Real.cos (degToRad l)) * ((E.a + k) * Real.cos (degToRad l)) +
        ((E.a + k) * Real.sin (degToRad l)) * ((E.a + k) * Real.sin (degToRad l)) =
        (E.a + k) * (E.a + k) := by
      linear_combination (E.a + k) * (E.a + k) * Real.sin_sq_add_cos_sq (degToRad l)
    rw [GeoCoordinate.make3, enuToGeo_zero_equatorial E he2.le]
    simp only [Option.getD_some]
    rw [atan2_polar _ _ hk h1 h2, hback, hsq, Real.sqrt_mul_self hk.le, add_sub_cancel_left]
    rfl
  exact ⟨key lon h hlo hhi hpos, key 0 0 (by norm_num) (by norm_num) (by linarith)⟩

/-- Witness of C18: WGS84 and the origin (0°, 139°, 50 m). -/
theorem C18_enuToGeo_zero_offset_equator_witness :
    (ENUToGeoConverter.make WGS84 (GeoCoordinate.make3 0 139 50)).convert
          (ICoordinate.enu 0 0 0 (ICoordinate.geo (GeoCoordinate.make3 0 139 50))) =
        .ok (ICoordinate.geo (GeoCoordinate.make3 0 139 50)) ∧
      (ENUToGeoConverter.make WGS84 (GeoCoordinate.make3 0 0 0)).convert
          (ICoordinate.enu 0 0 0 (ICoordinate.geo (GeoCoordinate.make3 0 139 50))) =
        .ok (ICoordinate.geo (GeoCoordinate.make3 0 0 0)) :=
  C18_enuToGeo_zero_offset_equator WGS84 139 50 _
    (by simp [WGS84, Ellipsoid.make]; norm_num)
    (by simp [WGS84, Ellipsoid.make, Ellipsoid.eccentricitySquared]; norm_num)
    (by norm_num) (by norm_num)
    (by simp [WGS84, Ellipsoid.make]; norm_num)

/-- C19: for every ellipsoid, origin `O` and geocentric input, the local-tangent-plane
position returned by `ECEFToENU`, and the one returned by `GeoToENU` for every geodetic
input, carries an origin that is a geodetic position equal to `O`: `getOrigin` returns
it, with the value list of `O` and so the same latitude, longitude and altitude or
absence of altitude. -/
theorem C19_result_carries_origin (E : Ellipsoid) (lat0 lon0 : ℝ) (alt0 : Option ℝ)
    (X Y Z : ℝ) (g : GeoCoordinate) :
    (∃ c : ENUCoordinate,
        (ECEFToENUConverter.mk E
            { latitude_ := lat0, longitude_ := lon0, altitude_ := alt0 }).convert
          (ICoordinate.ecef { x_ := X, y_ := Y, z_ := Z }) = .ok c.toICoordinate ∧
        c.getOrigin =
          .ok (ICoordinate.geo { latitude_ := lat0, longitude_ := lon0, altitude_ := alt0 }) ∧
        c.origin_.getValues =
          GeoCoordinate.getValues
            { latitude_ := lat0, longitude_ := lon0, altitude_ := alt0 }) ∧
      (∃ c : ENUCoordinate,
        (GeoToENUConverter.make E
            { latitude_ := lat0, longitude_ := lon0, altitude_ := alt0 }).convert
          (ICoordinate.geo g) = .ok c.toICoordinate ∧
        c.getOrigin =
          .ok (ICoordinate.geo { latitude_ := lat0, longitude_ := lon0, altitude_ := alt0 }) ∧
        c.origin_.getValues =
          GeoCoordinate.getValues
            { latitude_ := lat0, longitude_ := lon0, altitude_ := alt0 }) := by
  have hclone : ICoordinate.clone
      (ICoordinate.geo { latitude_ := lat0, longitude_ := lon0, altitude_ := alt0 }) =
      .ok (ICoordinate.geo { latitude_ := lat0, longitude_ := lon0, altitude_ := alt0 }) := by
    cases alt0 <;> rfl
  constructor
  · exact ⟨⟨_, _, _, _⟩, ecefToENU_convert_ecef E lat0 lon0 alt0 X Y Z, hclone, rfl⟩
  · rcases g with ⟨lat, lon, alt⟩
    rw [geoToENU_convert_geo, geoToECEF_convert_geo, ok_bind, ecefToENU_convert_ecef]
    exact ⟨⟨_, _, _, _⟩, rfl, hclone, rfl⟩

/-- C20: for each position type, `setValues` with a list of the wrong length (other than
2 or 3 for a geodetic position, other than 3 for a geocentric or a local-tangent-plane
position) throws `std::invalid_argument` and leaves the object exactly as it was, so its
value list, the presence of its altitude and, for a local-tangent-plane position, its
origin are unchanged. -/
theorem C20_setValues_wrong_length (g : GeoCoordinate) (c : ECEFCoordinate)
    (l : ENUCoordinate) (vg vc vl : List ℝ)
    (hg : vg.length ≠ 2 ∧ vg.length ≠ 3) (hc : vc.length ≠ 3) (hl : vl.length ≠ 3) :
    g.setValues vg = (.error (Exception.invalid_argument
        "GeoCoordinate::setValues requires a vector of size 2 or 3."), g) ∧
      c.setValues vc = (.error (Exception.invalid_argument
        "ECEFCoordinate::setValues requires a vector of size 3."), c) ∧
      l.setValues vl = (.error (Exception.invalid_argument
        "ENUCoordinate::setValues requires a vector of size 3."), l) := by
  refine ⟨?_, ?_, ?_⟩
  · simp [GeoCoordinate.setValues, hg.1, hg.2]
  · simp [ECEFCoordinate.setValues, hc]
  · simp [ENUCoordinate.setValues, hl]

/-- Witness of C20 on the lists of the tests: one number for a geodetic position, two
numbers for a geocentric and for a local-tangent-plane position. -/
theorem C20_setValues_wrong_length_witness :
    (GeoCoordinate.make2 35 139).setValues [10] = (.error (Exception.invalid_argument
        "GeoCoordinate::setValues requires a vector of size 2 or 3."),
        GeoCoordinate.make2 35 139) ∧
      ECEFCoordinate.setValues { x_ := 1000, y_ := 2000, z_ := 3000 } [7000, 8000] =
        (.error (Exception.invalid_argument
          "ECEFCoordinate::setValues requires a vector of size 3."),
          { x_ := 1000, y_ := 2000, z_ := 3000 }) ∧
      ENUCoordinate.setValues
          { east_ := 100, north_ := 200, up_ := 300,
            origin_ := ICoordinate.geo (GeoCoordinate.make3 35 139 50) } [700, 800] =
        (.error (Exception.invalid_argument
          "ENUCoordinate::setValues requires a vector of size 3."),
          { east_ := 100, north_ := 200, up_ := 300,
            origin_ := ICoordinate.geo (GeoCoordinate.make3 35 139 50) }) :=
  C20_setValues_wrong_length _ _ _ [10] [7000, 8000] [700, 800]
    ⟨by decide, by decide⟩ (by decide) (by decide)

/-- C21: for each position type and every list `v` of an allowed length (2 or 3 for a
geodetic position, 3 for a geocentric or a local-tangent-plane position), `setValues(v)`
returns normally and `getValues` of the object after the call is exactly `v`; on a geodetic
position a list of 2 leaves the altitude absent and a list of 3 leaves it present, and
`setValues` on a local-tangent-plane position keeps its origin. -/
theorem C21_setValues_then_getValues (g : GeoCoordinate) (c : ECEFCoordinate)
    (l : ENUCoordinate) (vg vc vl : List ℝ)
    (hg : vg.length = 2 ∨ vg.length = 3) (hc : vc.length = 3) (hl : vl.length = 3) :
    ((g.setValues vg).1 = .ok () ∧ (g.setValues vg).2.getValues = vg ∧
        (vg.length = 2 → (g.setValues vg).2.getAltitude = none) ∧
        (vg.length = 3 → ∃ h, (g.setValues vg).2.getAltitude = some h)) ∧
      ((c.setValues vc).1 = .ok () ∧ (c.setValues vc).2.getValues = vc) ∧
      ((l.setValues vl).1 = .ok () ∧ (l.setValues vl).2.getValues = vl ∧
        (l.setValues vl).2.origin_ = l.origin_) := by
  refine ⟨?_, ?_, ?_⟩
  · rcases hg with h | h
    · obtain ⟨a, b, rfl⟩ := List.length_eq_two.mp h
      exact ⟨rfl, rfl, fun _ => rfl, fun h3 => absurd h3 (by simp [GeoCoordinate.getValues])⟩
    · obtain ⟨a, b, d, rfl⟩ := List.length_eq_three.mp h
      exact ⟨rfl, rfl, fun h2 => absurd h2 (by simp [GeoCoordinate.getValues]), fun _ => ⟨d, rfl⟩⟩
  · obtain ⟨a, b, d, rfl⟩ := List.length_eq_three.mp hc
    exact ⟨rfl, rfl⟩
  · obtain ⟨a, b, d, rfl⟩ := List.length_eq_three.mp hl
    exact ⟨rfl, rfl, rfl⟩

/-- Witness of C21: (40, 120) and (40, 120, 200) set on geodetic positions, (4000, 5000,
6000) on a geocentric one and (400, 500, 600) on a local-tangent-plane one. -/
theorem C21_setValues_then_getValues_witness :
    (((GeoCoordinate.make3 35 139 50).setValues [40, 120]).1 = .ok () ∧
        ((GeoCoordinate.make3 35 139 50).setValues [40, 120]).2.getValues = [40, 120] ∧
        (([40, 120] : List ℝ).length = 2 →
          ((GeoCoordinate.make3 35 139 50).setValues [40, 120]).2.getAltitude = none) ∧
        (([40, 120] : List ℝ).length = 3 →
          ∃ h, ((GeoCoordinate.make3 35 139 50).setValues [40, 120]).2.getAltitude =
            some h)) ∧
      ((ECEFCoordinate.setValues { x_ := 1000, y_ := 2000, z_ := 3000 } [4000, 5000, 6000]).1 =
          .ok () ∧
        (ECEFCoordinate.setValues { x_ := 1000, y_ := 2000, z_ := 3000 }
          [4000, 5000, 6000]).2.getValues = [4000, 5000, 6000]) ∧
      ((ENUCoordinate.setValues
            { east_ := 100, north_ := 200, up_ := 300,
              origin_ := ICoordinate.geo (GeoCoordinate.make3 35 139 50) } [400, 500, 600]).1 =
          .ok () ∧
        (ENUCoordinate.setValues
            { east_ := 100, north_ := 200, up_ := 300,
              origin_ := ICoordinate.geo (GeoCoordinate.make3 35 139 50) }
            [400, 500, 600]).2.getValues = [400, 500, 600] ∧
        (ENUCoordinate.setValues
            { east_ := 100, north_ := 200, up_ := 300,
              origin_ := ICoordinate.geo (GeoCoordinate.make3 35 139 50) }
            [400, 500, 600]).2.origin_ = ICoordinate.geo (GeoCoordinate.make3 35 139 50)) :=
  C21_setValues_then_getValues _ _ _ [40, 120] [4000, 5000, 6000] [400, 500, 600]
    (Or.inl rfl) rfl rfl

/-- C22: for every geodetic position, `getValues` is `[latitude, longitude]` exactly when
the altitude is absent and `[latitude, longitude, h]` exactly when the altitude is present
and equal to `h`, so that it has 2 numbers in the first case and 3 in the second; the
position built by the two-argument constructor reports `getAltitude` as absent, not as 0. -/
theorem C22_getValues_altitude (g : GeoCoordinate) (lat lon : ℝ) :
    (g.getValues = [g.getLatitude, g.getLongitude] ↔ g.getAltitude = none) ∧
      (∀ h, g.getValues = [g.getLatitude, g.getLongitude, h] ↔ g.getAltitude = some h) ∧
      (g.getValues.length = 2 ↔ g.getAltitude = none) ∧
      (g.getValues.length = 3 ↔ ∃ h, g.getAltitude = some h) ∧
      (GeoCoordinate.make2 lat lon).getAltitude = none ∧
      (GeoCoordinate.make2 lat lon).getAltitude ≠ some 0 ∧
      (GeoCoordinate.make2 lat lon).getValues = [lat, lon] := by
  rcases g with ⟨x, y, _ | z⟩
  · refine ⟨⟨fun _ => rfl, fun _ => rfl⟩, fun h => ⟨fun hv => ?_, fun hv => ?_⟩,
      ⟨fun _ => rfl, fun _ => rfl⟩, ⟨fun hv => ?_, fun hv => ?_⟩, rfl, ?_, rfl⟩
    · exact absurd (congrArg List.length hv) (by simp [GeoCoordinate.getValues])
    · exact absurd hv (by simp [GeoCoordinate.getAltitude])
    · exact absurd hv (by simp [GeoCoordinate.getValues])
    · obtain ⟨h, hh⟩ := hv
      exact absurd hh (by simp [GeoCoordinate.getAltitude])
    · simp [GeoCoordinate.getAltitude, GeoCoordinate.make2]
  · refine ⟨⟨fun hv => ?_, fun hv => ?_⟩, fun h => ⟨fun hv => ?_, fun hv => ?_⟩,
      ⟨fun hv => ?_, fun hv => ?_⟩, ⟨fun _ => ⟨z, rfl⟩, fun _ => rfl⟩, rfl, ?_, rfl⟩
    · exact absurd (congrArg List.length hv) (by simp [GeoCoordinate.getValues])
    · exact absurd hv (by simp [GeoCoordinate.getAltitude])
    · have : z = h := by
        have := congrArg (fun v => v[2]?) hv
        simpa [GeoCoordinate.getValues] using this
      rw [this]; rfl
    · have : z = h := by simpa [GeoCoordinate.getAltitude] using hv
      rw [this]; rfl
    · exact absurd hv (by simp [GeoCoordinate.getValues])
    · exact absurd hv (by simp [GeoCoordinate.getAltitude])
    · simp [GeoCoordinate.getAltitude, GeoCoordinate.make2]

/-- C23: with an origin `bad` whose value list has a length other than 2 or 3, the
constructor of `ENUCoordinate` and `setOrigin` throw `std::invalid_argument`, and `setOrigin`
leaves the object (components and origin) as it was; with an origin `good` that satisfies the
class invariant and has 2 or 3 values, both return normally, the components are the ones
given (for `setOrigin`: unchanged) and `getOrigin` afterwards returns a position with the
values of `good`.  Replacing the origin (35°, 139°, 50 m) by (36°, 140°) makes `getOrigin`
report exactly `[36, 140]`. -/
theorem C23_origin_shape (east north up : ℝ) (self : ENUCoordinate) (bad good : ICoordinate)
    (hbad : bad.getValues.length ≠ 2 ∧ bad.getValues.length ≠ 3)
    (hwf : good.wellFormed = true)
    (hgood : good.getValues.length = 2 ∨ good.getValues.length = 3) :
    (ENUCoordinate.make east north up bad = .error (Exception.invalid_argument
          "ENUCoordinate::ENUCoordinate requires origin coordinate with 2 or 3 values.") ∧
        self.setOrigin bad = (.error (Exception.invalid_argument
          "ENUCoordinate::setOrigin requires origin coordinate with 2 or 3 values."), self)) ∧
      (∃ c o, ENUCoordinate.make east north up good = .ok c ∧
          c.getValues = [east, north, up] ∧
          c.getOrigin = .ok o ∧ o.getValues = good.getValues) ∧
      (∃ o, (self.setOrigin good).1 = .ok () ∧
          (self.setOrigin good).2.getValues = self.getValues ∧
          (self.setOrigin good).2.getOrigin = .ok o ∧ o.getValues = good.getValues) ∧
      (∃ o, (ENUCoordinate.setOrigin
            { east_ := 100, north_ := 200, up_ := 300,
              origin_ := ICoordinate.geo (GeoCoordinate.make3 35 139 50) }
            (ICoordinate.geo (GeoCoordinate.make2 36 140))).2.getOrigin = .ok o ∧
          o.getValues = [36, 140]) := by
  have hnot : ¬(good.getValues.length ≠ 2 ∧ good.getValues.length ≠ 3) := by
    rintro ⟨h2, h3⟩
    rcases hgood with h | h
    · exact h2 h
    · exact h3 h
  have hclone := clone_of_wellFormed good hwf
  refine ⟨⟨?_, ?_⟩, ?_, ?_, ?_⟩
  · cases bad with
    | geo c =>
      rcases c with ⟨x, y, _ | z⟩
      · exact absurd rfl hbad.1
      · exact absurd rfl hbad.2
    | ecef c => exact absurd rfl hbad.2
    | enu e n u o => exact absurd rfl hbad.2
    | foreign values =>
      unfold ENUCoordinate.make
      rw [show (ICoordinate.foreign values).clone = .ok (ICoordinate.foreign values) from rfl,
        ok_bind]
      exact if_pos hbad
  · unfold ENUCoordinate.setOrigin
    exact if_pos hbad
  · have hmake : ENUCoordinate.make east north up good =
        .ok { east_ := east, north_ := north, up_ := up, origin_ := good } := by
      unfold ENUCoordinate.make
      rw [hclone, ok_bind]
      exact if_neg hnot
    exact ⟨_, good, hmake, rfl, hclone, rfl⟩
  · have hset : self.setOrigin good = (.ok (), { self with origin_ := good }) := by
      unfold ENUCoordinate.setOrigin
      rw [hclone]
      exact if_neg hnot
    rw [hset]
    exact ⟨good, rfl, rfl, hclone, rfl⟩
  · exact ⟨_, rfl, rfl⟩

/-- Witness of C23: an origin from outside the library with the single value 1, and the
geodetic origin (36°, 140°). -/
theorem C23_origin_shape_witness :
    (ENUCoordinate.make 100 200 300 (ICoordinate.foreign [1]) =
          .error (Exception.invalid_argument
            "ENUCoordinate::ENUCoordinate requires origin coordinate with 2 or 3 values.") ∧
        ENUCoordinate.setOrigin
            { east_ := 100, north_ := 200, up_ := 300,
              origin_ := ICoordinate.geo (GeoCoordinate.make3 35 139 50) }
            (ICoordinate.foreign [1]) =
          (.error (Exception.invalid_argument
            "ENUCoordinate::setOrigin requires origin coordinate with 2 or 3 values."),
            { east_ := 100, north_ := 200, up_ := 300,
              origin_ := ICoordinate.geo (GeoCoordinate.make3 35 139 50) })) ∧
      (∃ c o, ENUCoordinate.make 100 200 300 (ICoordinate.geo (GeoCoordinate.make2 36 140)) =
            .ok c ∧ c.getValues = [100, 200, 300] ∧
          c.getOrigin = .ok o ∧
          o.getValues = (ICoordinate.geo (GeoCoordinate.make2 36 140)).getValues) :=
  have h := C23_origin_shape 100 200 300
    { east_ := 100, north_ := 200, up_ := 300,
      origin_ := ICoordinate.geo (GeoCoordinate.make3 35 139 50) }
    (ICoordinate.foreign [1]) (ICoordinate.geo (GeoCoordinate.make2 36 140))
    ⟨by decide, by decide⟩ rfl (Or.inl rfl)
  ⟨h.1, h.2.1⟩

/-- C24: `clone` of a geodetic, of a geocentric and of a local-tangent-plane position
(the last satisfying the class invariant) returns normally a position of the same class with
the same value list, the same altitude (present or absent), the same rendering by `toString`
and, for a local-tangent-plane position, an origin that `getOrigin` reports with the same
values. -/
theorem C24_clone_value_equal (g : GeoCoordinate) (c : ECEFCoordinate) (l : ENUCoordinate)
    (hl : l.toICoordinate.wellFormed = true) :
    (∃ g2 : GeoCoordinate, (ICoordinate.geo g).clone = .ok (ICoordinate.geo g2) ∧
        g2.getValues = g.getValues ∧ g2.getAltitude = g.getAltitude ∧
        g2.toString = g.toString) ∧
      (∃ c2 : ECEFCoordinate, (ICoordinate.ecef c).clone = .ok (ICoordinate.ecef c2) ∧
        c2.getValues = c.getValues ∧ c2.toString = c.toString) ∧
      (∃ (l2 : ENUCoordinate) (o o2 : ICoordinate),
        l.toICoordinate.clone = .ok l2.toICoordinate ∧
        l2.getValues = l.getValues ∧ l2.toString = l.toString ∧
        l.getOrigin = .ok o ∧ l2.getOrigin = .ok o2 ∧ o2.getValues = o.getValues) := by
  refine ⟨⟨g, clone_of_wellFormed _ rfl, rfl, rfl, rfl⟩,
    ⟨c, clone_of_wellFormed _ rfl, rfl, rfl⟩, ?_⟩
  have hl2 : (l.origin_.wellFormed &&
      (l.origin_.getValues.length == 2 || l.origin_.getValues.length == 3)) = true := hl
  have ho : l.origin_.wellFormed = true := (Bool.and_eq_true _ _ ▸ hl2).1
  exact ⟨l, l.origin_, l.origin_, clone_of_wellFormed _ hl, rfl, rfl,
    clone_of_wellFormed _ ho, clone_of_wellFormed _ ho, rfl⟩

/-- Witness of C24: the position (100, 200, 300) with the origin (35°, 139°, 50 m). -/
theorem C24_clone_value_equal_witness :
    ∃ (l2 : ENUCoordinate) (o o2 : ICoordinate),
      (ENUCoordinate.toICoordinate
          { east_ := 100, north_ := 200, up_ := 300,
            origin_ := ICoordinate.geo (GeoCoordinate.make3 35 139 50) }).clone =
        .ok l2.toICoordinate ∧
      l2.getValues = [100, 200, 300] ∧
      l2.toString = ENUCoordinate.toString
          { east_ := 100, north_ := 200, up_ := 300,
            origin_ := ICoordinate.geo (GeoCoordinate.make3 35 139 50) } ∧
      ENUCoordinate.getOrigin
          { east_ := 100, north_ := 200, up_ := 300,
            origin_ := ICoordinate.geo (GeoCoordinate.make3 35 139 50) } = .ok o ∧
      l2.getOrigin = .ok o2 ∧ o2.getValues = o.getValues :=
  (C24_clone_value_equal (GeoCoordinate.make2 35 139) { x_ := 1000, y_ := 2000, z_ := 3000 }
    { east_ := 100, north_ := 200, up_ := 300,
      origin_ := ICoordinate.geo (GeoCoordinate.make3 35 139 50) } rfl).2.2

/-- C25: on the heap, let `q` be the address that `p->clone()` returned for an object `p`
already there.  Whatever calls of `setValues`, of the setters and of `setOrigin` are then
made through `q`, every object that was on the heap before the clone was made is as before:
`getValues` and `toString` of `p` are unchanged and, when `p` is an `ENUCoordinate`, its
`origin_` still points to the same object, with the same values.  Likewise, let `d` be the
`ENUCoordinate` built from a reference to the object `b`: its `origin_` points to an
object other than `b`, and whatever calls are then made through `b`, `d` and the object
its `origin_` points to are as before. -/
theorem C25_clone_independent (fuel : Nat) (h : Heap) (p q b d : Nat) (east north up : ℝ)
    (ms : List Mutation) :
    (p < h.next → (h.clone fuel p).1 = some (.ok q) →
        (∀ a, a < h.next →
          (Heap.mutateAll fuel (h.clone fuel p).2 q ms).cell a = h.cell a) ∧
        (Heap.mutateAll fuel (h.clone fuel p).2 q ms).getValues p = h.getValues p ∧
        (Heap.mutateAll fuel (h.clone fuel p).2 q ms).toString p = h.toString p ∧
        (∀ e n u o, h.cell p = some (.enu e n u o) → o < h.next →
          (Heap.mutateAll fuel (h.clone fuel p).2 q ms).cell p = some (.enu e n u o) ∧
          (Heap.mutateAll fuel (h.clone fuel p).2 q ms).getValues o = h.getValues o)) ∧
      (b < h.next → (h.makeENU fuel east north up b).1 = some (.ok d) →
        ∃ o, (h.makeENU fuel east north up b).2.cell d = some (.enu east north up o) ∧
          o ≠ b ∧
          (Heap.mutateAll fuel (h.makeENU fuel east north up b).2 b ms).cell d =
            some (.enu east north up o) ∧
          (Heap.mutateAll fuel (h.makeENU fuel east north up b).2 b ms).cell o =
            (h.makeENU fuel east north up b).2.cell o ∧
          (Heap.mutateAll fuel (h.makeENU fuel east north up b).2 b ms).getValues o =
            (h.makeENU fuel east north up b).2.getValues o) := by
  constructor
  · intro hp hq
    obtain ⟨c1, c2, c3⟩ := heap_clone_frame fuel h p
    obtain ⟨hq1, -⟩ := c3 q hq
    obtain ⟨-, f2⟩ := heap_mutateAll_frame fuel q ms (h.clone fuel p).2
    have hcell : ∀ a, a < h.next →
        (Heap.mutateAll fuel (h.clone fuel p).2 q ms).cell a = h.cell a :=
      fun a ha => (f2 a (lt_of_lt_of_le ha c1) (Nat.ne_of_lt (lt_of_lt_of_le ha hq1))).trans
        (c2 a ha)
    refine ⟨hcell, ?_, ?_, fun e n u o hpe ho => ⟨?_, ?_⟩⟩
    · unfold Heap.getValues
      rw [hcell p hp]
    · unfold Heap.toString
      rw [hcell p hp]
    · rw [hcell p hp, hpe]
    · unfold Heap.getValues
      rw [hcell o ho]
  · intro hb hd
    obtain ⟨c1, c2, c3⟩ := heap_clone_frame fuel h b
    have key : ∃ o, h.next ≤ o ∧ o < d ∧ d < (h.makeENU fuel east north up b).2.next ∧
        (h.makeENU fuel east north up b).2.cell d = some (.enu east north up o) := by
      revert hd
      unfold Heap.makeENU
      rcases hres : h.clone fuel b with ⟨_ | (err | origin_), h1⟩
      · intro hd; cases hd
      · intro hd; cases hd
      · rw [hres] at c3
        obtain ⟨o1, o2⟩ := c3 origin_ rfl
        show (h1.construct east north up origin_).1 = some (.ok d) →
          ∃ o, h.next ≤ o ∧ o < d ∧ d < (h1.construct east north up origin_).2.next ∧
            (h1.construct east north up origin_).2.cell d = some (.enu east north up o)
        unfold Heap.construct
        rcases h1.cell origin_ with _ | ob
        · intro hd; cases hd
        · by_cases hlen : ob.getValues.length ≠ 2 ∧ ob.getValues.length ≠ 3
          · simp only [if_pos hlen]
            intro hd; cases hd
          · simp only [if_neg hlen]
            intro hd
            have hdv : h1.next = d := by injection hd with hd; injection hd
            rw [← hdv]
            exact ⟨origin_, o1, o2, Nat.lt_succ_self _, if_pos rfl⟩
    obtain ⟨o, ho1, ho2, hdn, hcd⟩ := key
    obtain ⟨-, f2⟩ := heap_mutateAll_frame fuel b ms (h.makeENU fuel east north up b).2
    have hob : o ≠ b := Nat.ne_of_gt (lt_of_lt_of_le hb ho1)
    have hdb : d ≠ b := Nat.ne_of_gt (lt_trans (lt_of_lt_of_le hb ho1) ho2)
    have hco := f2 o (lt_trans ho2 hdn) hob
    refine ⟨o, hcd, hob, (f2 d hdn hdb).trans hcd, hco, ?_⟩
    unfold Heap.getValues
    rw [hco]

/-- Witness of C25, on the heap of the fixture `ENUCoordinateTest` (`origin` at address 0,
`enu` at address 2): the clone of `enu` is at address 4; after `setValues({700, 800, 900})`
and `setOrigin(*origin)` through it, the clone reports `[700, 800, 900]` and `enu` still
reports `[100, 200, 300]`; and after `setValues({36, 140})` through `origin`, the origin
of an `ENUCoordinate` built from `*origin` still reports `[35, 139, 50]`. -/
theorem C25_clone_independent_witness :
    (ENUCoordinateTest.SetUp.clone 2 2).1 = some (.ok 4) ∧
      (Heap.mutateAll 2 (ENUCoordinateTest.SetUp.clone 2 2).2 4
        [Mutation.setValues [700, 800, 900], Mutation.setOrigin 0]).getValues 4 =
        some [700, 800, 900] ∧
      (Heap.mutateAll 2 (ENUCoordinateTest.SetUp.clone 2 2).2 4
        [Mutation.setValues [700, 800, 900], Mutation.setOrigin 0]).getValues 2 =
        some [100, 200, 300] ∧
      (ENUCoordinateTest.SetUp.makeENU 2 100 200 300 0).1 = some (.ok 4) ∧
      (∃ o, (Heap.mutateAll 2 (ENUCoordinateTest.SetUp.makeENU 2 100 200 300 0).2 0
            [Mutation.setValues [36, 140]]).cell 4 = some (.enu 100 200 300 o) ∧
          (Heap.mutateAll 2 (ENUCoordinateTest.SetUp.makeENU 2 100 200 300 0).2 0
            [Mutation.setValues [36, 140]]).getValues o = some [35, 139, 50]) ∧
      (Heap.mutateAll 2 (ENUCoordinateTest.SetUp.makeENU 2 100 200 300 0).2 0
        [Mutation.setValues [36, 140]]).getValues 0 = some [36, 140] :=
  have h1 := (C25_clone_independent 2 ENUCoordinateTest.SetUp 2 4 0 4 100 200 300
    [Mutation.setValues [700, 800, 900], Mutation.setOrigin 0]).1 (by decide) rfl
  have h2 := (C25_clone_independent 2 ENUCoordinateTest.SetUp 2 4 0 4 100 200 300
    [Mutation.setValues [36, 140]]).2 (by decide) rfl
  ⟨rfl, rfl, h1.2.1.trans rfl, rfl,
    h2.elim fun o ho => ⟨o, ho.2.2.1, ho.2.2.2.2.trans
      (by
        have ho1 := ho.1
        have e : (ENUCoordinateTest.SetUp.makeENU 2 100 200 300 0).2.cell 4 =
            some (.enu 100 200 300 3) := rfl
        rw [e] at ho1
        injection ho1 with ho1
        injection ho1 with _ _ _ ho1
        rw [← ho1]
        rfl)⟩,
    rfl⟩

/-- C26: for every `a` and `f`, the ellipsoid built by `Ellipsoid(a, f)` has the fields
`a` and `f` as given and `e2 = 2f − f²`; with `f = 0` it has `e2 = 0`. -/
theorem C26_ellipsoid_fields (a f : ℝ) :
    (Ellipsoid.make a f).a = a ∧ (Ellipsoid.make a f).f = f ∧
      (Ellipsoid.make a f).e2 = 2 * f - f ^ 2 ∧ (Ellipsoid.make a 0).e2 = 0 := by
  refine ⟨rfl, rfl, ?_, ?_⟩
  · show 2 * f - f * f = 2 * f - f ^ 2
    rw [pow_two]
  · show (2 : ℝ) * 0 - 0 * 0 = 0
    norm_num

/-- C27: the preset `WGS84` has `a = 6378137.0` and `f = 1/298.257223563`, the preset
`GRS80` has `a = 6378137.0` and `f = 1/298.257222101`, and each has `e2 = 2f − f²`. -/
theorem C27_presets :
    (WGS84.a = 6378137.0 ∧ WGS84.f = 1 / 298.257223563 ∧
        WGS84.e2 = 2 * WGS84.f - WGS84.f ^ 2) ∧
      (GRS80.a = 6378137.0 ∧ GRS80.f = 1 / 298.257222101 ∧
        GRS80.e2 = 2 * GRS80.f - GRS80.f ^ 2) := by
  refine ⟨⟨rfl, ?_, ?_⟩, rfl, ?_, ?_⟩
  · show (1.0 : ℝ) / 298.257223563 = 1 / 298.257223563
    norm_num
  · show 2 * WGS84.f - WGS84.f * WGS84.f = 2 * WGS84.f - WGS84.f ^ 2
    rw [pow_two]
  · show (1.0 : ℝ) / 298.257222101 = 1 / 298.257222101
    norm_num
  · show 2 * GRS80.f - GRS80.f * GRS80.f = 2 * GRS80.f - GRS80.f ^ 2
    rw [pow_two]

/-- C28: `toString` of each of the three classes, and the default `toString` of the
interface, is `"["`, then the entries of `getValues` in order, each written in fixed notation
with six decimals and separated by `", "`, then `"]"`; the rendering of each class is the
one the default of the interface gives on its value list; a geodetic position without
altitude renders its two numbers; the geocentric position (1000, 2000, 3000) renders as
`"[1000.000000, 2000.000000, 3000.000000]"`. -/
theorem C28_toString_format (g : GeoCoordinate) (c : ECEFCoordinate) (l : ENUCoordinate)
    (values : List ℝ) (lat lon : ℝ) :
    (g.toString = "[" ++ ", ".intercalate (g.getValues.map fixed6) ++ "]" ∧
        c.toString = "[" ++ ", ".intercalate (c.getValues.map fixed6) ++ "]" ∧
        l.toString = "[" ++ ", ".intercalate (l.getValues.map fixed6) ++ "]" ∧
        ICoordinate.toStringDefault values =
          "[" ++ ", ".intercalate (values.map fixed6) ++ "]") ∧
      (g.toString = ICoordinate.toStringDefault g.getValues ∧
        c.toString = ICoordinate.toStringDefault c.getValues ∧
        l.toString = ICoordinate.toStringDefault l.getValues) ∧
      (GeoCoordinate.make2 lat lon).toString =
        "[" ++ fixed6 lat ++ ", " ++ fixed6 lon ++ "]" ∧
      ECEFCoordinate.toString { x_ := 1000, y_ := 2000, z_ := 3000 } =
        "[1000.000000, 2000.000000, 3000.000000]" := by
  have h3 : ∀ x y z : ℝ, "[" ++ fixed6 x ++ ", " ++ fixed6 y ++ ", " ++ fixed6 z ++ "]" =
      "[" ++ ", ".intercalate ([x, y, z].map fixed6) ++ "]" := by
    intro x y z
    simp only [List.map, String.intercalate, String.intercalate.go, String.append_assoc]
  have hnat : ∀ k : ℕ, fixed6 (k : ℝ) = Nat.repr k ++ "." ++ "000000" := by
    intro k
    have hfl : (k : ℝ) * 1000000 = ((k * 1000000 : ℕ) : ℝ) := by push_cast; ring
    have hneg : ¬ ((k : ℝ) < 0) := not_lt.mpr (Nat.cast_nonneg k)
    unfold fixed6 roundHalfEven
    rw [abs_of_nonneg (Nat.cast_nonneg k), hfl, Int.fract_natCast, Int.floor_natCast,
      if_pos (by norm_num), if_neg hneg, Int.toNat_natCast]
    show "" ++ (k * 1000000 / 1000000).repr ++ "." ++
      (1000000 + k * 1000000 % 1000000).repr.drop 1 = _
    rw [Nat.mul_div_cancel _ (by norm_num), Nat.mul_mod_left]
    rfl
  refine ⟨⟨toStringLoop_eq _, h3 _ _ _, h3 _ _ _, toStringLoop_eq _⟩,
    ⟨rfl, (h3 _ _ _).trans (toStringLoop_eq _).symm, (h3 _ _ _).trans (toStringLoop_eq _).symm⟩,
    ?_, ?_⟩
  · rw [show (GeoCoordinate.make2 lat lon).toString =
      toStringLoop [lat, lon] 0 "[" ++ "]" from rfl, toStringLoop_eq]
    simp only [List.map, String.intercalate, String.intercalate.go, String.append_assoc]
  · have e1 : fixed6 1000 = "1000.000000" := by
      have := hnat 1000
      rw [Nat.cast_ofNat] at this
      rw [this]
      decide
    have e2 : fixed6 2000 = "2000.000000" := by
      have := hnat 2000
      rw [Nat.cast_ofNat] at this
      rw [this]
      decide
    have e3 : fixed6 3000 = "3000.000000" := by
      have := hnat 3000
      rw [Nat.cast_ofNat] at this
      rw [this]
      decide
    unfold ECEFCoordinate.toString
    simp only [e1, e2, e3]
    decide

/-- C29: for all `a`, `e2` and `lat`, `calcN(a, e2, lat) = a / √(1 − e2·sin²(lat))`;
`calcN(a, e2, 0) = a` and `calcN(a, e2, π/2) = a / √(1 − e2)` (real arithmetic). -/
theorem C29_calcN_formula (a e2 lat : ℝ) :
    calcN a e2 lat = a / Real.sqrt (1 - e2 * Real.sin lat ^ 2) ∧
      calcN a e2 0 = a ∧
      calcN a e2 (Real.pi / 2) = a / Real.sqrt (1 - e2) := by
  unfold calcN
  refine ⟨?_, ?_, ?_⟩
  · rw [pow_two, mul_assoc]
  · rw [Real.sin_zero, mul_zero, sub_zero, Real.sqrt_one, div_one]
  · rw [Real.sin_pi_div_two, mul_one, mul_one]

/-- C30: for every `d`, `degToRad(d) = d·π/180` and `radToDeg(degToRad(d)) = d`; for every
`r`, `radToDeg(r) = r·180/π`; `degToRad` maps 0, 90, 180, 360 to 0, π/2, π, 2π and
`radToDeg` maps these back (real arithmetic). -/
theorem C30_degToRad_radToDeg (d r : ℝ) :
    degToRad d = d * Real.pi / 180 ∧ radToDeg (degToRad d) = d ∧
      radToDeg r = r * 180 / Real.pi ∧
      (degToRad 0 = 0 ∧ degToRad 90 = Real.pi / 2 ∧ degToRad 180 = Real.pi ∧
        degToRad 360 = 2 * Real.pi) ∧
      (radToDeg 0 = 0 ∧ radToDeg (Real.pi / 2) = 90 ∧ radToDeg Real.pi = 180 ∧
        radToDeg (2 * Real.pi) = 360) := by
  have hpi : Real.pi ≠ 0 := Real.pi_ne_zero
  unfold radToDeg degToRad
  refine ⟨rfl, ?_, rfl, ⟨?_, ?_, ?_, ?_⟩, ?_, ?_, ?_, ?_⟩
  · field_simp
  · norm_num
  · ring
  · ring
  · ring
  · norm_num
  · field_simp
    ring
  · field_simp
  · field_simp
    ring

/-- C31: with the converters and the positions in memory, a call `self->convert(*input)` of
any of the six converters, and any sequence `cs` of such calls, writes to no converter
object (so the ellipsoid and the origin of every converter are as before, and no converter
has kept anything) and to no position that was already on the heap (so the input is as
before).  If moreover the converter at `self` has the value `cv` and the position at
`input` has the value `v`, then after the calls `cs` they still have, and the call
`self->convert(*input)` made then throws what `cv.convert v` throws, or returns a new
address from which the position that `cv.convert v` returns is read back, whatever
becomes of the objects that were there before the call: the outcome is fixed by the
ellipsoid and the origin held by the converter and by the input, whatever conversions
were made in between. -/
theorem C31_convert_frame (fuel : Nat) (m : Memory) (self input : Nat) (cs : List (Nat × Nat))
    (cv : ICoordinateConverter) (v : ICoordinate) (k : Nat) :
    ((m.convert fuel self input).2.converter = m.converter ∧
        ∀ a, a < m.heap.next → (m.convert fuel self input).2.heap.cell a = m.heap.cell a) ∧
      ((Memory.convertAll fuel m cs).converter = m.converter ∧
        ∀ a, a < m.heap.next → (Memory.convertAll fuel m cs).heap.cell a = m.heap.cell a) ∧
      (2 ≤ fuel → (∀ a, m.heap.next ≤ a → m.heap.cell a = none) →
        m.readConverter self = some cv → m.heap.read k input = some v →
        (Memory.convertAll fuel m cs).readConverter self = some cv ∧
          (Memory.convertAll fuel m cs).heap.read k input = some v ∧
          (∀ err, cv.convert v = .error err →
            ((Memory.convertAll fuel m cs).convert fuel self input).1 = some (.error err)) ∧
          (∀ r, cv.convert v = .ok r →
            ∃ q, ((Memory.convertAll fuel m cs).convert fuel self input).1 = some (.ok q) ∧
              (Memory.convertAll fuel m cs).heap.next ≤ q ∧
              ∀ h2 : Heap,
                (∀ a, (Memory.convertAll fuel m cs).heap.next ≤ a →
                  a < ((Memory.convertAll fuel m cs).convert fuel self input).2.heap.next →
                  h2.cell a =
                    ((Memory.convertAll fuel m cs).convert fuel self input).2.heap.cell a) →
                ∀ fuel2, 2 ≤ fuel2 → h2.read fuel2 q = some r)) := by
  have hall : ∀ (l : List (Nat × Nat)) (m0 : Memory),
      (Memory.convertAll fuel m0 l).converter = m0.converter ∧
        m0.heap.next ≤ (Memory.convertAll fuel m0 l).heap.next ∧
        (∀ a, a < m0.heap.next →
          (Memory.convertAll fuel m0 l).heap.cell a = m0.heap.cell a) := by
    intro l
    induction l with
    | nil => exact fun m0 => ⟨rfl, le_refl _, fun _ _ => rfl⟩
    | cons c l ih =>
      intro m0
      obtain ⟨c1, -, c3, c4, -⟩ := memory_convert_frame fuel m0 c.1 c.2
      obtain ⟨i1, i2, i3⟩ := ih (m0.convert fuel c.1 c.2).2
      exact ⟨i1.trans c1, c3.trans i2,
        fun a ha => (i3 a (lt_of_lt_of_le ha c3)).trans (c4 a ha)⟩
  obtain ⟨f1, -, -, f4, -⟩ := memory_convert_frame fuel m self input
  obtain ⟨a1, -, a3⟩ := hall cs m
  refine ⟨⟨f1, f4⟩, ⟨a1, a3⟩, fun hfuel hclosed hcv hv => ?_⟩
  have hcv2 : (Memory.convertAll fuel m cs).readConverter self = some cv := by
    unfold Memory.readConverter
    rw [a1]
    exact hcv
  have hv2 : (Memory.convertAll fuel m cs).heap.read k input = some v :=
    heap_read_frame m.heap _ hclosed a3 k input v hv
  obtain ⟨v1, v2⟩ := memory_convert_value (Memory.convertAll fuel m cs) self input cv v k fuel
    hfuel hcv2 hv2
  refine ⟨hcv2, hv2, v1, fun r hr => ?_⟩
  obtain ⟨q, hq, hread⟩ := v2 r hr
  exact ⟨q, hq,
    (memory_convert_frame fuel (Memory.convertAll fuel m cs) self input).2.2.2.2 q hq, hread⟩

/-- Witness of C31, on the fixture `GeoToENUConverterTest`: the converter at address 2
(`GeoToENU` on WGS84 with the origin (0°, 0°, 0 m)) is first called on `origin`, the position
(0°, 0°, 0 m) at address 0, as in the test `ZeroInputReturnsZeroENU`, and then on
`geo_input`, the position (1°, 1°, 0 m) at address 1, as in the test
`NonZeroInputProducesNonZeroENU`: the second call returns a new address, from which the
position that `convert` returns on (1°, 1°, 0 m) is read back. -/
theorem C31_convert_frame_witness :
    ∃ (r : ICoordinate) (q : Nat),
      (GeoToENUConverter.make WGS84 (GeoCoordinate.make3 0 0 0)).convert
          (ICoordinate.geo (GeoCoordinate.make3 1 1 0)) = .ok r ∧
        ((Memory.convertAll 2 GeoToENUConverterTest.SetUp [(2, 0)]).convert 2 2 1).1 =
          some (.ok q) ∧
        (Memory.convertAll 2 GeoToENUConverterTest.SetUp [(2, 0)]).heap.next ≤ q ∧
        ∀ fuel2, 2 ≤ fuel2 →
          ((Memory.convertAll 2 GeoToENUConverterTest.SetUp [(2, 0)]).convert 2 2 1).2.heap.read
            fuel2 q = some r := by
  obtain ⟨r, hval⟩ : ∃ r, (GeoToENUConverter.make WGS84 (GeoCoordinate.make3 0 0 0)).convert
      (ICoordinate.geo (GeoCoordinate.make3 1 1 0)) = .ok r := by
    apply Exists.intro
    rw [geoToENU_convert_geo, GeoCoordinate.make3, geoToECEF_convert_geo, ok_bind,
      GeoCoordinate.make3, ecefToENU_convert_ecef]
  have t := (C31_convert_frame 2 GeoToENUConverterTest.SetUp 2 1 [(2, 0)]
    (ICoordinateConverter.geoToENU (GeoToENUConverter.make WGS84 (GeoCoordinate.make3 0 0 0)))
    (ICoordinate.geo (GeoCoordinate.make3 1 1 0)) 1).2.2 (le_refl 2)
    (fun a ha => by
      have h2 : 2 ≤ a := ha
      show (if a = 1 then _ else if a = 0 then _ else none) = none
      rw [if_neg (by omega), if_neg (by omega)])
    rfl rfl
  obtain ⟨q, hq, hfresh, hread⟩ := t.2.2.2 _ hval
  exact ⟨_, q, hval, hq, hfresh, fun fuel2 hf => hread _ (fun _ _ _ => rfl) fuel2 hf⟩

/-- C32: for every ellipsoid and every geocentric input `(x, y, z)`, with `lat` the latitude
in radians that the loop of `ECEFToGeo` is left with, the returned latitude is
`lat·180/π`, the returned longitude is `atan2(y, x)·180/π` and the returned altitude is
`√(x²+y²)/cos(lat) − a/√(1 − e2·sin²(lat))`. -/
theorem C32_ecefToGeo_outputs (E : Ellipsoid) (x y z : ℝ) :
    ∃ lat : ℝ,
      lat = (ECEFToGeoConverter.iterate E.a E.e2 z (Real.sqrt (x * x + y * y))
        (atan2 z (Real.sqrt (x * x + y * y) * (1 - E.e2))) 0 0).1 ∧
      (ECEFToGeoConverter.mk E).convert (ICoordinate.ecef { x_ := x, y_ := y, z_ := z }) =
        .ok (ICoordinate.geo (GeoCoordinate.make3 (lat * 180 / Real.pi)
          (atan2 y x * 180 / Real.pi)
          (Real.sqrt (x ^ 2 + y ^ 2) / Real.cos lat -
            E.a / Real.sqrt (1 - E.e2 * Real.sin lat ^ 2)))) := by
  refine ⟨_, rfl, ?_⟩
  rw [ecefToGeo_convert_ecef]
  unfold radToDeg
  simp only [pow_two, mul_assoc]

/-- C33: for every ellipsoid, every geodetic origin and every input of the expected class,
each of the six converters returns normally a position of its target class: neither a guard
nor an index out of bounds is met. -/
theorem C33_converters_total (E : Ellipsoid) (O g : GeoCoordinate) (c : ECEFCoordinate)
    (l : ENUCoordinate) :
    (∃ r : ECEFCoordinate,
        (GeoToECEFConverter.mk E).convert (ICoordinate.geo g) = .ok (ICoordinate.ecef r)) ∧
      (∃ r : GeoCoordinate,
        (ECEFToGeoConverter.mk E).convert (ICoordinate.ecef c) = .ok (ICoordinate.geo r)) ∧
      (∃ r : ENUCoordinate,
        (ECEFToENUConverter.mk E O).convert (ICoordinate.ecef c) = .ok r.toICoordinate) ∧
      (∃ r : ECEFCoordinate,
        (ENUToECEFConverter.mk E O).convert l.toICoordinate = .ok (ICoordinate.ecef r)) ∧
      (∃ r : ENUCoordinate,
        (GeoToENUConverter.make E O).convert (ICoordinate.geo g) = .ok r.toICoordinate) ∧
      (∃ r : GeoCoordinate,
        (ENUToGeoConverter.make E O).convert l.toICoordinate = .ok (ICoordinate.geo r)) := by
  rcases O with ⟨lat0, lon0, alt0⟩
  rcases g with ⟨lat, lon, alt⟩
  rcases c with ⟨x, y, z⟩
  rcases l with ⟨e, n, u, o⟩
  refine ⟨⟨_, geoToECEF_convert_geo E lat lon alt⟩, ⟨_, ecefToGeo_convert_ecef E x y z⟩,
    ⟨⟨_, _, _, _⟩, ecefToENU_convert_ecef E lat0 lon0 alt0 x y z⟩,
    ⟨_, enuToECEF_convert_enu E lat0 lon0 alt0 e n u o⟩, ?_, ?_⟩
  · rw [geoToENU_convert_geo, geoToECEF_convert_geo, ok_bind]
    exact ⟨⟨_, _, _, _⟩, ecefToENU_convert_ecef E lat0 lon0 alt0 _ _ _⟩
  · show ∃ r : GeoCoordinate, (ENUToGeoConverter.make E _).convert (ICoordinate.enu e n u o) = _
    rw [enuToGeo_convert_enu, enuToECEF_convert_enu, ok_bind]
    exact ⟨_, ecefToGeo_convert_ecef E _ _ _⟩

/-- C34: for every ellipsoid, every origin (latitude `φ0` and longitude `λ0` in radians,
altitude taken as 0 when absent, geocentric projection `(X0, Y0, Z0)`) and every input
`(e, n, u)`, whatever origin it carries, `ENUToECEF` multiplies the input by the transpose
of the matrix it fills in, and so returns `X = X0 − sin λ0·e + cos λ0·n`,
`Y = Y0 − sin φ0·cos λ0·e − sin φ0·sin λ0·n + cos φ0·u`,
`Z = Z0 + cos φ0·cos λ0·e + cos φ0·sin λ0·n + sin φ0·u`. -/
theorem C34_enuToECEF_formula (E : Ellipsoid) (lat0 lon0 : ℝ) (alt0 : Option ℝ)
    (e n u : ℝ) (o : ICoordinate) :
    let φ0 := lat0 * Real.pi / 180
    let l0 := lon0 * Real.pi / 180
    let h0 := alt0.getD 0
    let N0 := E.a / Real.sqrt (1 - E.e2 * Real.sin φ0 ^ 2)
    let X0 := (N0 + h0) * Real.cos φ0 * Real.cos l0
    let Y0 := (N0 + h0) * Real.cos φ0 * Real.sin l0
    let Z0 := ((1 - E.e2) * N0 + h0) * Real.sin φ0
    let R : Matrix (Fin 3) (Fin 3) ℝ :=
      !![-Real.sin l0, -Real.sin φ0 * Real.cos l0, Real.cos φ0 * Real.cos l0;
         Real.cos l0, -Real.sin φ0 * Real.sin l0, Real.cos φ0 * Real.sin l0;
         0, Real.cos φ0, Real.sin φ0]
    let d := R.transpose.mulVec ![e, n, u]
    (ENUToECEFConverter.mk E { latitude_ := lat0, longitude_ := lon0, altitude_ := alt0 }).convert
          (ICoordinate.enu e n u o) =
        .ok (ICoordinate.ecef { x_ := X0 + d 0, y_ := Y0 + d 1, z_ := Z0 + d 2 }) ∧
      (ENUToECEFConverter.mk E
          { latitude_ := lat0, longitude_ := lon0, altitude_ := alt0 }).convert
          (ICoordinate.enu e n u o) =
        .ok (ICoordinate.ecef
          { x_ := X0 - Real.sin l0 * e + Real.cos l0 * n
            y_ := Y0 - Real.sin φ0 * Real.cos l0 * e - Real.sin φ0 * Real.sin l0 * n +
              Real.cos φ0 * u
            z_ := Z0 + Real.cos φ0 * Real.cos l0 * e + Real.cos φ0 * Real.sin l0 * n +
              Real.sin φ0 * u }) := by
  intro φ0 l0 h0 N0 X0 Y0 Z0 R d
  constructor
  · rw [enuToECEF_convert_enu]
    simp only [d, R, X0, Y0, Z0, N0, h0, φ0, l0]
    unfold originECEF degToRad
    simp only [pow_two, mul_assoc, Matrix.cons_val_zero, Matrix.cons_val_one, Matrix.head_cons,
      Matrix.cons_val_two, Matrix.tail_cons]
  · rw [enuToECEF_convert_enu_expanded]
    simp only [X0, Y0, Z0, N0, h0, φ0, l0]
    unfold originECEF degToRad
    simp only [pow_two, mul_assoc, Matrix.cons_val_zero, Matrix.cons_val_one, Matrix.head_cons,
      Matrix.cons_val_two, Matrix.tail_cons]
    congr 3 <;> ring

/-- C35: for `a > 0`, `0 ≤ e2 < 1`, `|φ| < π/2` and `N(φ) + h > 0`, at the point
`p = (N(φ) + h)·cos φ`, `z = ((1 − e2)·N(φ) + h)·sin φ` one pass of the loop body of
`ECEFToGeo` started at `φ` gives `φ` again, that is
`atan2(z + e2·N(φ)·sin φ, p) = φ`, and `p/cos φ − N(φ) = h`; and the loop of
`ECEFToGeo`, once its variable `lat` is `φ`, is left with `lat = φ`, whatever `lat_prev`
and the count of passes are then. -/
theorem C35_true_latitude_fixed (a e2 φ h : ℝ) (_ha : 0 < a) (_he0 : 0 ≤ e2)
    (_he1 : e2 < 1) (hφ : |φ| < Real.pi / 2) (hr : 0 < calcN a e2 φ + h) :
    ECEFToGeoConverter.latStep a e2 (((1 - e2) * calcN a e2 φ + h) * Real.sin φ)
        ((calcN a e2 φ + h) * Real.cos φ) φ = φ ∧
      atan2 (((1 - e2) * calcN a e2 φ + h) * Real.sin φ + e2 * calcN a e2 φ * Real.sin φ)
        ((calcN a e2 φ + h) * Real.cos φ) = φ ∧
      (calcN a e2 φ + h) * Real.cos φ / Real.cos φ - calcN a e2 φ = h ∧
      ∀ (lat_prev : ℝ) (iter : Nat),
        (ECEFToGeoConverter.iterate a e2 (((1 - e2) * calcN a e2 φ + h) * Real.sin φ)
          ((calcN a e2 φ + h) * Real.cos φ) φ lat_prev iter).1 = φ := by
  have hφ1 := (abs_lt.mp hφ).1
  have hφ2 := (abs_lt.mp hφ).2
  have hcos : 0 < Real.cos φ := Real.cos_pos_of_mem_Ioo ⟨hφ1, hφ2⟩
  have hfix := latStep_fixed a e2 φ h hφ1 hφ2 hr
  refine ⟨hfix, hfix, ?_, fun lat_prev iter => ecefToGeo_iterate_fixed _ _ _ _ _ _ _ hfix⟩
  rw [mul_div_assoc, div_self hcos.ne', mul_one, add_sub_cancel_left]

/-- Witness of C35: `a = 2`, `e2 = 1/2`, `φ = 1` rad, `h = 3`, a point off the equator and
off the ellipsoid, where `z`, `e2·N·sin φ` and `p` are all non-zero; the loop is entered
as the code enters it, with `lat_prev = 0` and no pass counted. -/
theorem C35_true_latitude_fixed_witness :
    ECEFToGeoConverter.latStep 2 (1 / 2)
        (((1 - 1 / 2) * calcN 2 (1 / 2) 1 + 3) * Real.sin 1)
        ((calcN 2 (1 / 2) 1 + 3) * Real.cos 1) 1 = 1 ∧
      atan2 (((1 - 1 / 2) * calcN 2 (1 / 2) 1 + 3) * Real.sin 1 +
          1 / 2 * calcN 2 (1 / 2) 1 * Real.sin 1)
        ((calcN 2 (1 / 2) 1 + 3) * Real.cos 1) = 1 ∧
      (calcN 2 (1 / 2) 1 + 3) * Real.cos 1 / Real.cos 1 - calcN 2 (1 / 2) 1 = 3 ∧
      (ECEFToGeoConverter.iterate 2 (1 / 2)
        (((1 - 1 / 2) * calcN 2 (1 / 2) 1 + 3) * Real.sin 1)
        ((calcN 2 (1 / 2) 1 + 3) * Real.cos 1) 1 0 0).1 = 1 :=
  have t := C35_true_latitude_fixed 2 (1 / 2) 1 3 two_pos (by norm_num) (by norm_num)
    (by rw [abs_one]; linarith [Real.pi_gt_three])
    (add_pos_of_nonneg_of_pos (div_nonneg zero_le_two (Real.sqrt_nonneg _)) three_pos)
  ⟨t.1, t.2.1, t.2.2.1, t.2.2.2 0 0⟩

/-- C36: for every ellipsoid, every origin with geocentric projection `(X0, Y0, Z0)` and
every geocentric input `(X, Y, Z)`, the components returned by `ECEFToENU` satisfy
`east² + north² + up² = (X−X0)² + (Y−Y0)² + (Z−Z0)²`; and two geocentric inputs that are
mapped to the same east, north and up are equal. -/
theorem C36_ecefToENU_isometry (E : Ellipsoid) (lat0 lon0 : ℝ) (alt0 : Option ℝ)
    (X Y Z X2 Y2 Z2 : ℝ) :
    let φ0 := lat0 * Real.pi / 180
    let l0 := lon0 * Real.pi / 180
    let h0 := alt0.getD 0
    let N0 := E.a / Real.sqrt (1 - E.e2 * Real.sin φ0 ^ 2)
    let X0 := (N0 + h0) * Real.cos φ0 * Real.cos l0
    let Y0 := (N0 + h0) * Real.cos φ0 * Real.sin l0
    let Z0 := ((1 - E.e2) * N0 + h0) * Real.sin φ0
    (∃ e n u : ℝ,
        (ECEFToENUConverter.mk E
            { latitude_ := lat0, longitude_ := lon0, altitude_ := alt0 }).convert
          (ICoordinate.ecef { x_ := X, y_ := Y, z_ := Z }) =
          .ok (ICoordinate.enu e n u
            (ICoordinate.geo { latitude_ := lat0, longitude_ := lon0, altitude_ := alt0 })) ∧
        e ^ 2 + n ^ 2 + u ^ 2 = (X - X0) ^ 2 + (Y - Y0) ^ 2 + (Z - Z0) ^ 2) ∧
      (∀ (e n u : ℝ) (o o2 : ICoordinate),
        (ECEFToENUConverter.mk E
            { latitude_ := lat0, longitude_ := lon0, altitude_ := alt0 }).convert
          (ICoordinate.ecef { x_ := X, y_ := Y, z_ := Z }) = .ok (ICoordinate.enu e n u o) →
        (ECEFToENUConverter.mk E
            { latitude_ := lat0, longitude_ := lon0, altitude_ := alt0 }).convert
          (ICoordinate.ecef { x_ := X2, y_ := Y2, z_ := Z2 }) =
          .ok (ICoordinate.enu e n u o2) →
        X = X2 ∧ Y = Y2 ∧ Z = Z2) := by
  intro φ0 l0 h0 N0 X0 Y0 Z0
  have hO : originECEF E (degToRad lat0) (degToRad lon0) (alt0.getD 0) = ![X0, Y0, Z0] := by
    simp only [X0, Y0, Z0, N0, h0, φ0, l0]
    unfold originECEF degToRad
    simp only [pow_two, mul_assoc]
  have key : ∀ x y z : ℝ,
      (ECEFToENUConverter.mk E
          { latitude_ := lat0, longitude_ := lon0, altitude_ := alt0 }).convert
        (ICoordinate.ecef { x_ := x, y_ := y, z_ := z }) =
        .ok (ICoordinate.enu
          (-Real.sin l0 * (x - X0) + Real.cos l0 * (y - Y0) + 0 * (z - Z0))
          (-Real.sin φ0 * Real.cos l0 * (x - X0) + -Real.sin φ0 * Real.sin l0 * (y - Y0) +
            Real.cos φ0 * (z - Z0))
          (Real.cos φ0 * Real.cos l0 * (x - X0) + Real.cos φ0 * Real.sin l0 * (y - Y0) +
            Real.sin φ0 * (z - Z0))
          (ICoordinate.geo { latitude_ := lat0, longitude_ := lon0, altitude_ := alt0 })) := by
    intro x y z
    rw [ecefToENU_convert_ecef, hO, vecSub3]
    unfold rotationECEFToENU
    rw [mulVec3]
    rfl
  have h1 := Real.sin_sq_add_cos_sq φ0
  have h2 := Real.sin_sq_add_cos_sq l0
  generalize Real.sin φ0 = s1 at *
  generalize Real.cos φ0 = c1 at *
  generalize Real.sin l0 = s2 at *
  generalize Real.cos l0 = c2 at *
  constructor
  · refine ⟨_, _, _, key X Y Z, ?_⟩
    linear_combination ((c2 * (X - X0) + s2 * (Y - Y0)) ^ 2 + (Z - Z0) ^ 2) * h1 +
      ((X - X0) ^ 2 + (Y - Y0) ^ 2) * h2
  · intro e n u o o2 ha hb
    rw [key] at ha hb
    injection ha with ha
    injection hb with hb
    injection ha with ha1 ha2 ha3 _
    injection hb with hb1 hb2 hb3 _
    have e1 : -s2 * (X - X2) + c2 * (Y - Y2) = 0 := by linear_combination ha1 - hb1
    have e2 : -s1 * c2 * (X - X2) + -s1 * s2 * (Y - Y2) + c1 * (Z - Z2) = 0 := by
      linear_combination ha2 - hb2
    have e3 : c1 * c2 * (X - X2) + c1 * s2 * (Y - Y2) + s1 * (Z - Z2) = 0 := by
      linear_combination ha3 - hb3
    have hz : (X - X2) ^ 2 + (Y - Y2) ^ 2 + (Z - Z2) ^ 2 = 0 := by
      linear_combination (-s2 * (X - X2) + c2 * (Y - Y2)) * e1 +
        (-s1 * c2 * (X - X2) + -s1 * s2 * (Y - Y2) + c1 * (Z - Z2)) * e2 +
        (c1 * c2 * (X - X2) + c1 * s2 * (Y - Y2) + s1 * (Z - Z2)) * e3 -
        ((c2 * (X - X2) + s2 * (Y - Y2)) ^ 2 + (Z - Z2) ^ 2) * h1 -
        ((X - X2) ^ 2 + (Y - Y2) ^ 2) * h2
    have qx := sq_nonneg (X - X2)
    have qy := sq_nonneg (Y - Y2)
    have qz := sq_nonneg (Z - Z2)
    have hx0 : (X - X2) ^ 2 = 0 := le_antisymm (by linarith) qx
    have hy0 : (Y - Y2) ^ 2 = 0 := le_antisymm (by linarith) qy
    have hz0 : (Z - Z2) ^ 2 = 0 := le_antisymm (by linarith) qz
    exact ⟨sub_eq_zero.mp (pow_eq_zero_iff two_ne_zero |>.mp hx0),
      sub_eq_zero.mp (pow_eq_zero_iff two_ne_zero |>.mp hy0),
      sub_eq_zero.mp (pow_eq_zero_iff two_ne_zero |>.mp hz0)⟩

/-- C37: for every ellipsoid, every origin `O` of the converter and every two inputs with
the same east, north and up that carry the origins `O1` and `O2`, `ENUToECEF` returns the
same position for both, and so does `ENUToGeo`. -/
theorem C37_input_origin_ignored (E : Ellipsoid) (O : GeoCoordinate) (e n u : ℝ)
    (O1 O2 : ICoordinate) :
    (∃ r, (ENUToECEFConverter.mk E O).convert (ICoordinate.enu e n u O1) = .ok r ∧
        (ENUToECEFConverter.mk E O).convert (ICoordinate.enu e n u O2) = .ok r) ∧
      (∃ r, (ENUToGeoConverter.make E O).convert (ICoordinate.enu e n u O1) = .ok r ∧
        (ENUToGeoConverter.make E O).convert (ICoordinate.enu e n u O2) = .ok r) := by
  rcases O with ⟨lat0, lon0, alt0⟩
  refine ⟨⟨_, enuToECEF_convert_enu E lat0 lon0 alt0 e n u O1,
    enuToECEF_convert_enu E lat0 lon0 alt0 e n u O2⟩, ?_⟩
  rw [enuToGeo_convert_enu, enuToGeo_convert_enu, enuToECEF_convert_enu,
    enuToECEF_convert_enu, ok_bind]
  exact ⟨_, ecefToGeo_convert_ecef E _ _ _, ecefToGeo_convert_ecef E _ _ _⟩

/-- C38: for every ellipsoid and every geocentric input, `ECEFToGeo` returns a geodetic
position with latitude in `[−90°, 90°]` and longitude in `[−180°, 180°]` (real
arithmetic). -/
theorem C38_ecefToGeo_ranges (E : Ellipsoid) (X Y Z : ℝ) :
    ∃ lat lon h : ℝ,
      (ECEFToGeoConverter.mk E).convert (ICoordinate.ecef { x_ := X, y_ := Y, z_ := Z }) =
        .ok (ICoordinate.geo (GeoCoordinate.make3 lat lon h)) ∧
      -90 ≤ lat ∧ lat ≤ 90 ∧ -180 ≤ lon ∧ lon ≤ 180 := by
  have hpi := Real.pi_pos
  have hpi3 := Real.pi_gt_three
  have hdeg : ∀ (t c : ℝ), |t| ≤ c * Real.pi / 180 →
      -c ≤ radToDeg t ∧ radToDeg t ≤ c := by
    intro t c ht
    obtain ⟨h1, h2⟩ := abs_le.mp ht
    unfold radToDeg
    constructor
    · rw [le_div_iff₀ hpi]
      linarith
    · rw [div_le_iff₀ hpi]
      linarith
  have hp : 0 ≤ Real.sqrt (X * X + Y * Y) := Real.sqrt_nonneg _
  generalize hpe : Real.sqrt (X * X + Y * Y) = p at hp
  have hatan : ∀ y : ℝ, |atan2 y p| ≤ 90 * Real.pi / 180 := by
    intro y
    have : |atan2 y p| ≤ Real.pi / 2 := Complex.abs_arg_le_pi_div_two_iff.mpr hp
    linarith
  have hinv : ∀ (k : Nat) (lat lat_prev : ℝ) (iter : Nat), maxIter - iter = k →
      |lat| ≤ 90 * Real.pi / 180 →
      |(ECEFToGeoConverter.iterate E.a E.e2 Z p lat lat_prev iter).1| ≤ 90 * Real.pi / 180 := by
    intro k
    induction k with
    | zero =>
      intro lat lat_prev iter hk hlat
      rw [ecefToGeo_iterate_of_cap _ _ _ _ _ _ _ (by omega)]
      exact hlat
    | succ k ih =>
      intro lat lat_prev iter hk hlat
      by_cases h1 : tol < |lat - lat_prev|
      · rw [ecefToGeo_iterate_step _ _ _ _ _ _ _ h1 (by omega)]
        exact ih _ _ _ (by omega) (hatan _)
      · rw [ecefToGeo_iterate_of_close _ _ _ _ _ _ _ (not_lt.mp h1)]
        exact hlat
  have hlat : |(ECEFToGeoConverter.iterate E.a E.e2 Z p (atan2 Z (p * (1 - E.e2))) 0 0).1| ≤
      90 * Real.pi / 180 := by
    by_cases h1 : tol < |atan2 Z (p * (1 - E.e2)) - 0|
    · rw [ecefToGeo_iterate_step _ _ _ _ _ _ _ h1 (by decide)]
      exact hinv _ _ _ _ rfl (hatan _)
    · rw [ecefToGeo_iterate_of_close _ _ _ _ _ _ _ (not_lt.mp h1)]
      have h2 := not_lt.mp h1
      rw [sub_zero] at h2
      have htol : tol ≤ 90 * Real.pi / 180 := by
        unfold tol
        norm_num
        linarith
      exact h2.trans htol
  have hlon : |atan2 Y X| ≤ 180 * Real.pi / 180 := by
    have h1 : -Real.pi < atan2 Y X := Complex.neg_pi_lt_arg _
    have h2 : atan2 Y X ≤ Real.pi := Complex.arg_le_pi _
    rw [abs_le]
    constructor <;> linarith
  refine ⟨_, _, _, ecefToGeo_convert_ecef E X Y Z, ?_⟩
  rw [hpe]
  obtain ⟨a1, a2⟩ := hdeg _ 90 hlat
  obtain ⟨b1, b2⟩ := hdeg _ 180 hlon
  exact ⟨a1, a2, b1, b2⟩

/-- C39: for every ellipsoid with `a > 0` and `0 ≤ e2 < 1` and every two inputs
`(0, 0, z1)` and `(0, 0, z2)` on the positive polar axis, `ECEFToGeo` returns normally the
same geodetic position for both: latitude 90°, longitude 0° and the altitude
`0/cos(π/2) − a/√(1 − e2) = −a/√(1 − e2)`, in which `z` does not occur. -/
theorem C39_polar_axis (E : Ellipsoid) (z1 z2 : ℝ) (ha : 0 < E.a) (he0 : 0 ≤ E.e2)
    (_he1 : E.e2 < 1) (hz1 : 0 < z1) (hz2 : 0 < z2) :
    (ECEFToGeoConverter.mk E).convert (ICoordinate.ecef { x_ := 0, y_ := 0, z_ := z1 }) =
        .ok (ICoordinate.geo (GeoCoordinate.make3 90 0 (-(E.a / Real.sqrt (1 - E.e2))))) ∧
      (ECEFToGeoConverter.mk E).convert (ICoordinate.ecef { x_ := 0, y_ := 0, z_ := z2 }) =
        .ok (ICoordinate.geo (GeoCoordinate.make3 90 0 (-(E.a / Real.sqrt (1 - E.e2))))) ∧
      (0 : ℝ) / Real.cos (Real.pi / 2) - E.a / Real.sqrt (1 - E.e2) =
        -(E.a / Real.sqrt (1 - E.e2)) := by
  have hpi := Real.pi_pos
  have hup : ∀ y : ℝ, 0 < y → atan2 y 0 = Real.pi / 2 := by
    intro y hy
    have := atan2_polar y (Real.pi / 2) hy (by linarith) (by linarith)
    rwa [Real.sin_pi_div_two, Real.cos_pi_div_two, mul_one, mul_zero] at this
  have hN : 0 ≤ E.a / Real.sqrt (1 - E.e2) := div_nonneg ha.le (Real.sqrt_nonneg _)
  have key : ∀ z : ℝ, 0 < z →
      (ECEFToGeoConverter.mk E).convert (ICoordinate.ecef { x_ := 0, y_ := 0, z_ := z }) =
        .ok (ICoordinate.geo (GeoCoordinate.make3 90 0 (-(E.a / Real.sqrt (1 - E.e2))))) := by
    intro z hz
    have hp : Real.sqrt (0 * 0 + 0 * 0) = 0 := by
      rw [mul_zero, add_zero, Real.sqrt_zero]
    have hbig : tol < |Real.pi / 2 - 0| := by
      rw [sub_zero, abs_of_pos (by linarith)]
      unfold tol
      have := Real.pi_gt_three
      norm_num
      linarith
    have hnum : 0 < z + E.e2 * (E.a / Real.sqrt (1 - E.e2)) :=
      add_pos_of_pos_of_nonneg hz (mul_nonneg he0 hN)
    rw [ecefToGeo_convert_ecef, hp, zero_mul, hup z hz,
      ecefToGeo_iterate_step _ _ _ _ _ _ _ hbig (by decide), Real.sin_pi_div_two, mul_one,
      mul_one, mul_one, hup _ hnum,
      ecefToGeo_iterate_of_close _ _ _ _ _ _ _
        (by unfold tol; simp only [sub_self, abs_zero]; norm_num),
      atan2_zero_of_nonneg 0 (le_refl 0), Real.sin_pi_div_two, mul_one, mul_one, zero_div,
      zero_sub]
    unfold radToDeg
    congr 3
    · field_simp
      ring
    · simp
  exact ⟨key z1 hz1, key z2 hz2, by rw [zero_div, zero_sub]⟩

/-- Witness of C39: the unit sphere (`a = 1`, `f = 0`) and the inputs `(0, 0, 1)` and
`(0, 0, 2)`. -/
theorem C39_polar_axis_witness :
    (ECEFToGeoConverter.mk (Ellipsoid.make 1 0)).convert
        (ICoordinate.ecef { x_ := 0, y_ := 0, z_ := 1 }) =
        .ok (ICoordinate.geo (GeoCoordinate.make3 90 0
          (-((Ellipsoid.make 1 0).a / Real.sqrt (1 - (Ellipsoid.make 1 0).e2))))) ∧
      (ECEFToGeoConverter.mk (Ellipsoid.make 1 0)).convert
        (ICoordinate.ecef { x_ := 0, y_ := 0, z_ := 2 }) =
        .ok (ICoordinate.geo (GeoCoordinate.make3 90 0
          (-((Ellipsoid.make 1 0).a / Real.sqrt (1 - (Ellipsoid.make 1 0).e2))))) ∧
      (0 : ℝ) / Real.cos (Real.pi / 2) -
          (Ellipsoid.make 1 0).a / Real.sqrt (1 - (Ellipsoid.make 1 0).e2) =
        -((Ellipsoid.make 1 0).a / Real.sqrt (1 - (Ellipsoid.make 1 0).e2)) :=
  C39_polar_axis (Ellipsoid.make 1 0) 1 2 (by show (0 : ℝ) < 1; exact one_pos)
    (by show (0 : ℝ) ≤ 2 * 0 - 0 * 0; simp) (by show (2 : ℝ) * 0 - 0 * 0 < 1; simp)
    one_pos two_pos

/-- C40: for every ellipsoid, latitude and longitude, `ECEFToENU` anchored at
`(lat, lon)` and at `(lat, lon, 0)` returns the same east, north and up for every
geocentric input (each result carrying the origin it was anchored at), and `ENUToECEF`
anchored at `(lat, lon)` and at `(lat, lon, 0)` returns the same geocentric position for
every input. -/
theorem C40_origin_without_altitude (E : Ellipsoid) (lat lon X Y Z e n u : ℝ)
    (o : ICoordinate) :
    (∃ e2 n2 u2 : ℝ,
        (ECEFToENUConverter.mk E (GeoCoordinate.make2 lat lon)).convert
          (ICoordinate.ecef { x_ := X, y_ := Y, z_ := Z }) =
          .ok (ICoordinate.enu e2 n2 u2 (ICoordinate.geo (GeoCoordinate.make2 lat lon))) ∧
        (ECEFToENUConverter.mk E (GeoCoordinate.make3 lat lon 0)).convert
          (ICoordinate.ecef { x_ := X, y_ := Y, z_ := Z }) =
          .ok (ICoordinate.enu e2 n2 u2 (ICoordinate.geo (GeoCoordinate.make3 lat lon 0)))) ∧
      (∃ r : ECEFCoordinate,
        (ENUToECEFConverter.mk E (GeoCoordinate.make2 lat lon)).convert
          (ICoordinate.enu e n u o) = .ok (ICoordinate.ecef r) ∧
        (ENUToECEFConverter.mk E (GeoCoordinate.make3 lat lon 0)).convert
          (ICoordinate.enu e n u o) = .ok (ICoordinate.ecef r)) :=
  ⟨⟨_, _, _, ecefToENU_convert_ecef E lat lon none X Y Z,
      ecefToENU_convert_ecef E lat lon (some 0) X Y Z⟩,
    ⟨_, enuToECEF_convert_enu E lat lon none e n u o,
      enuToECEF_convert_enu E lat lon (some 0) e n u o⟩⟩

/-- Witness of C36: on WGS84 with the origin (0°, 0°), the input `(1, 2, 3)` taken twice. -/
theorem C36_ecefToENU_isometry_witness : (1 : ℝ) = 1 ∧ (2 : ℝ) = 2 ∧ (3 : ℝ) = 3 :=
  (C36_ecefToENU_isometry WGS84 0 0 none 1 2 3 1 2 3).2 _ _ _ _ _
    (ecefToENU_convert_ecef WGS84 0 0 none 1 2 3) (ecefToENU_convert_ecef WGS84 0 0 none 1 2 3)

end TransGeo
